import Mathlib

/-!
# knowbug: object list, identity registry and diff engine

A shallow embedding of `src/knowbug_dll/knowbug_server.cpp` (the object list
writer, `diff_object_list`, `HspObjectListEntity`, the text line of a delta and
the sending side of `KnowbugServerImpl`) together with the pieces of
`src/knowbug_core/HspObjectWriter.cpp` and `src/hpiutil/stringify.cpp` that the
list writer reaches, the accessors of `src/HspObjects.cpp` with the methods of
`src/HspDebugApi.cpp` they call, `group_vars_by_module`, and the constants of
`src/knowbug_client/knowbug_protocol.h`; and theorems about them.

Conventions.
* `std::vector<T>` is a `List T`; `std::size_t` values are natural numbers (every
  index below is bounded by a list length, and the id counter is not taken
  round its wrap-around point).
* `std::unordered_map<K, V>` is a function `K → Option V` (the code never
  iterates over one of its maps).
* a bounded `for` loop is a recursion on the number of iterations left.
* a call that may leave by a `throw` returns an `Outcome`; pointers into the
  debuggee are addresses (natural numbers, 0 for the null pointer), and what is
  read through them is a parameter.
* a string is the sequence of its code units, one character each.
-/

namespace Knowbug

/-! ## Rows of the object list -/

/-- The class `HspObjectListItem`: one row of the flattened object list. -/
structure HspObjectListItem where
  object_id : Nat
  depth : Nat
  name : String
  value : String
  child_count : Nat
  deriving DecidableEq, Repr, Inhabited

/-- The method `HspObjectListItem::equals`. -/
def HspObjectListItem.equals (self other : HspObjectListItem) : Bool :=
  self.object_id == other.object_id
    && self.depth == other.depth
    && self.name == other.name
    && self.value == other.value
    && self.child_count == other.child_count

/-- The class `HspObjectList` is a vector of items. -/
abbrev HspObjectList := List HspObjectListItem

/-- The method `HspObjectList::operator[]`; every call below is guarded by a
bound check, so the default is never returned. -/
def HspObjectList.item_at (self : HspObjectList) (index : Nat) : HspObjectListItem :=
  self.getD index default

/-- The method `HspObjectList::find_by_object_id`: the first item with the id. -/
def HspObjectList.find_by_object_id (self : HspObjectList) (object_id : Nat) :
    Option HspObjectListItem :=
  self.find? (fun item => item.object_id == object_id)

/-! ## Deltas -/

/-- The enum `HspObjectListDelta::Kind`. -/
inductive DeltaKind where
  | Insert
  | Remove
  | Update
  deriving DecidableEq, Repr, Inhabited

/-- The class `HspObjectListDelta`. It has no `child_count` field. -/
structure HspObjectListDelta where
  kind : DeltaKind
  object_id : Nat
  index : Nat
  depth : Nat
  name : String
  value : String
  deriving DecidableEq, Repr, Inhabited

/-- The function `HspObjectListDelta::new_insert`. -/
def HspObjectListDelta.new_insert (index : Nat) (item : HspObjectListItem) :
    HspObjectListDelta :=
  { kind := DeltaKind.Insert, object_id := item.object_id, index := index,
    depth := item.depth, name := item.name, value := item.value }

/-- The function `HspObjectListDelta::new_remove`. -/
def HspObjectListDelta.new_remove (object_id index : Nat) : HspObjectListDelta :=
  { kind := DeltaKind.Remove, object_id := object_id, index := index,
    depth := 0, name := "", value := "" }

/-- The function `HspObjectListDelta::new_update`. -/
def HspObjectListDelta.new_update (index : Nat) (item : HspObjectListItem) :
    HspObjectListDelta :=
  { kind := DeltaKind.Update, object_id := item.object_id, index := index,
    depth := item.depth, name := item.name, value := item.value }

/-! ## `diff_object_list` -/

/-- The inner `for` loop of the matching phase of `diff_object_list`
(lines 340-350) for the source row with id `sid`: `n` iterations are left and
`ti` is the loop counter. The result is the new `target_done` and whether a
partner was found (in which case `source_done[si]` is set by the caller). -/
def diff_match_target (sid : Nat) (target : HspObjectList) :
    Nat → Nat → List Bool → List Bool × Bool
  | 0, _, target_done => (target_done, false)
  | n + 1, ti, target_done =>
    if target_done.getD ti false then
      diff_match_target sid target n (ti + 1) target_done
    else if sid = (target.item_at ti).object_id then
      (target_done.set ti true, true)
    else
      diff_match_target sid target n (ti + 1) target_done

/-- The outer `for` loop of the matching phase of `diff_object_list`
(lines 335-351): `n` iterations are left and `si` is the loop counter. -/
def diff_match (source target : HspObjectList) :
    Nat → Nat → List Bool → List Bool → List Bool × List Bool
  | 0, _, source_done, target_done => (source_done, target_done)
  | n + 1, si, source_done, target_done =>
    if source_done.getD si false then
      diff_match source target n (si + 1) source_done target_done
    else
      let r := diff_match_target (source.item_at si).object_id target target.length 0 target_done
      if r.2 then
        diff_match source target n (si + 1) (source_done.set si true) r.1
      else
        diff_match source target n (si + 1) source_done r.1

/-- The `while` loop of the merge phase of `diff_object_list` (lines 357-388).
Every iteration that does not leave the loop advances `si` or `ti`, so
`source.size() + target.size()` iterations are enough; `fuel` counts them.
The result is `none` when the loop reaches the reorder branch (lines 385-387;
the `assert` there is compiled out of a release build), and the accumulated
`diff` when the loop condition fails. -/
def diff_merge (source target : HspObjectList) (source_done target_done : List Bool) :
    Nat → Nat → Nat → List HspObjectListDelta → Option (List HspObjectListDelta)
  | 0, _, _, diff => some diff
  | fuel + 1, si, ti, diff =>
    if si < source.length ∨ ti < target.length then
      if ti = target.length ∨ (si < source.length ∧ source_done.getD si false = false) then
        diff_merge source target source_done target_done fuel (si + 1) ti
          (diff ++ [HspObjectListDelta.new_remove (source.item_at si).object_id ti])
      else if si = source.length ∨ (ti < target.length ∧ target_done.getD ti false = false) then
        diff_merge source target source_done target_done fuel si (ti + 1)
          (diff ++ [HspObjectListDelta.new_insert ti (target.item_at ti)])
      else if (source.item_at si).object_id = (target.item_at ti).object_id then
        if (source.item_at si).equals (target.item_at ti) then
          diff_merge source target source_done target_done fuel (si + 1) (ti + 1) diff
        else
          diff_merge source target source_done target_done fuel (si + 1) (ti + 1)
            (diff ++ [HspObjectListDelta.new_update ti (target.item_at ti)])
      else
        none
    else
      some diff

/-- The done flags computed by the matching phase of `diff_object_list`. -/
def diff_done (source target : HspObjectList) : List Bool × List Bool :=
  diff_match source target source.length 0
    (List.replicate source.length false) (List.replicate target.length false)

/-- The merge phase of `diff_object_list` run on the flags of the matching
phase; `none` is the reorder branch. -/
def diff_merge_result (source target : HspObjectList) (diff : List HspObjectListDelta) :
    Option (List HspObjectListDelta) :=
  diff_merge source target (diff_done source target).1 (diff_done source target).2
    (source.length + target.length) 0 0 diff

/-- The function `diff_object_list`. The out-parameter `diff` is passed in and
returned; on the reorder branch it is cleared (`diff.clear(); break;`). -/
def diff_object_list (source target : HspObjectList) (diff : List HspObjectListDelta) :
    List HspObjectListDelta :=
  match diff_merge_result source target diff with
  | some d => d
  | none => []

/-- Whether `diff_object_list` leaves its merge loop through the reorder branch. -/
def diff_aborts (source target : HspObjectList) : Bool :=
  (diff_merge_result source target []).isNone

/-! ## Applying deltas, as the specification words it -/

/-- The part of a row that a delta carries. -/
structure DeltaRow where
  object_id : Nat
  depth : Nat
  name : String
  value : String
  deriving DecidableEq, Repr, Inhabited

/-- The fields of an item that reach the client. -/
def HspObjectListItem.row (item : HspObjectListItem) : DeltaRow :=
  { object_id := item.object_id, depth := item.depth, name := item.name, value := item.value }

/-- The row that an Insert or Update delta carries. -/
def HspObjectListDelta.row (delta : HspObjectListDelta) : DeltaRow :=
  { object_id := delta.object_id, depth := delta.depth, name := delta.name,
    value := delta.value }

/-- Following the specification: `Insert(i, row)` inserts the row at position
`i`, `Remove(id, i)` deletes the row at position `i`, `Update(i, row)` replaces
the row at position `i`. -/
def spec_apply_delta (rows : List DeltaRow) (delta : HspObjectListDelta) : List DeltaRow :=
  match delta.kind with
  | DeltaKind.Insert => rows.insertIdx delta.index delta.row
  | DeltaKind.Remove => rows.eraseIdx delta.index
  | DeltaKind.Update => rows.set delta.index delta.row

/-- Following the specification: the deltas are applied in order. -/
def spec_apply_deltas (rows : List DeltaRow) (deltas : List HspObjectListDelta) :
    List DeltaRow :=
  deltas.foldl spec_apply_delta rows

/-- The merge phase of `diff_object_list` read off the rows still to be
visited: `ss` and `ts` are the rows of source and target from the two cursors
on, `ps` and `pt` give a row's done flag, `ti` is the target cursor. It is
used to reason about `diff_merge`, to which it is proved equal. -/
def merge_rows (ps pt : HspObjectListItem → Bool) :
    List HspObjectListItem → List HspObjectListItem → Nat → List HspObjectListDelta →
      Option (List HspObjectListDelta)
  | [], [], _, diff => some diff
  | s :: ss, [], ti, diff =>
    merge_rows ps pt ss [] ti (diff ++ [HspObjectListDelta.new_remove s.object_id ti])
  | [], t :: ts, ti, diff =>
    merge_rows ps pt [] ts (ti + 1) (diff ++ [HspObjectListDelta.new_insert ti t])
  | s :: ss, t :: ts, ti, diff =>
    if ps s = false then
      merge_rows ps pt ss (t :: ts) ti (diff ++ [HspObjectListDelta.new_remove s.object_id ti])
    else if pt t = false then
      merge_rows ps pt (s :: ss) ts (ti + 1) (diff ++ [HspObjectListDelta.new_insert ti t])
    else if s.object_id = t.object_id then
      if s.equals t then
        merge_rows ps pt ss ts (ti + 1) diff
      else
        merge_rows ps pt ss ts (ti + 1) (diff ++ [HspObjectListDelta.new_update ti t])
    else
      none
  termination_by ss ts => ss.length + ts.length

/-! ## Object paths -/

/-- Modelled from the spec: the enum `HspObjectKind` is declared in
`hsp_object_path.h`, which is not among the sources; the kinds are those of
section 3 of the specification. -/
inductive HspObjectKind where
  | Root | Module | StaticVar | Element | Param | Label | Str | Double | Int | Flex
  | SystemVar | CallStack | CallFrame | Log | Script | General | Unavailable | Unknown
  deriving DecidableEq, Repr, Inhabited

/-- Modelled from the spec: `hsp_object_path.h`, which declares `HspObjectPath`,
its subclasses and the hash and equality used for maps keyed by paths, is not
among the sources. A path is a tagged node that holds its parent and the fields
of its kind; two paths are equal when their kinds, fields and parent chains are
(specification, section 3), so two independently built paths of one node are
the same key. -/
inductive HspObjectPath where
  | Root : HspObjectPath
  | Module (parent : HspObjectPath) (module_id : Nat)
  | StaticVar (parent : HspObjectPath) (static_var_id : Nat)
  | Element (parent : HspObjectPath) (indexes : List Nat)
  | Param (parent : HspObjectPath) (param_type : Nat) (param_index : Nat)
  | Label (parent : HspObjectPath)
  | Str (parent : HspObjectPath)
  | Double (parent : HspObjectPath)
  | Int (parent : HspObjectPath)
  | Flex (parent : HspObjectPath)
  | SystemVar (parent : HspObjectPath) (system_var_kind : Nat)
  | CallStack (parent : HspObjectPath)
  | CallFrame (parent : HspObjectPath) (call_frame_id : Nat)
  | Log (parent : HspObjectPath)
  | Script (parent : HspObjectPath)
  | General (parent : HspObjectPath) (content : String)
  | Unavailable (parent : HspObjectPath) (reason : String)
  | Unknown (parent : HspObjectPath)
  deriving DecidableEq, Repr, Inhabited

/-- Modelled from the spec: the method `HspObjectPath::kind` (declared in
`hsp_object_path.h`, not among the sources) gives the tag of the node. -/
def HspObjectPath.kind : HspObjectPath → HspObjectKind
  | Root => HspObjectKind.Root
  | Module _ _ => HspObjectKind.Module
  | StaticVar _ _ => HspObjectKind.StaticVar
  | Element _ _ => HspObjectKind.Element
  | Param _ _ _ => HspObjectKind.Param
  | Label _ => HspObjectKind.Label
  | Str _ => HspObjectKind.Str
  | Double _ => HspObjectKind.Double
  | Int _ => HspObjectKind.Int
  | Flex _ => HspObjectKind.Flex
  | SystemVar _ _ => HspObjectKind.SystemVar
  | CallStack _ => HspObjectKind.CallStack
  | CallFrame _ _ => HspObjectKind.CallFrame
  | Log _ => HspObjectKind.Log
  | Script _ => HspObjectKind.Script
  | General _ _ => HspObjectKind.General
  | Unavailable _ _ => HspObjectKind.Unavailable
  | Unknown _ => HspObjectKind.Unknown

/-- Modelled from the spec: the method `HspObjectPath::parent` (declared in
`hsp_object_path.h`, not among the sources). `is_expanded` calls it on every
path and gets a reference; for the root, which has no parent, the root itself
is returned, so that the root counts as expanded by default like its children. -/
def HspObjectPath.parent : HspObjectPath → HspObjectPath
  | Root => Root
  | Module p _ => p
  | StaticVar p _ => p
  | Element p _ => p
  | Param p _ _ => p
  | Label p => p
  | Str p => p
  | Double p => p
  | Int p => p
  | Flex p => p
  | SystemVar p _ => p
  | CallStack p => p
  | CallFrame p _ => p
  | Log p => p
  | Script p => p
  | General p _ => p
  | Unavailable p _ => p
  | Unknown p => p

/-- The queries on `HspObjects` that the object list writer and the flow form
of a scalar reach through a path (`path.child_count(objects)` and so on). They
read the debuggee and are parameters here. -/
structure HspObjects where
  child_count : HspObjectPath → Nat
  child_at : HspObjectPath → Nat → HspObjectPath
  name : HspObjectPath → String
  label_is_null : HspObjectPath → Bool
  static_label_name : HspObjectPath → Option String
  static_label_id : HspObjectPath → Option Nat
  str_value : HspObjectPath → String
  double_text : HspObjectPath → String
  int_value : HspObjectPath → Int
  flow_form_other : HspObjectPath → String

/-! ## Flow form of a scalar -/

/-- The loop of `hpiutil::literalFormString` (stringify.cpp, lines 114-138) over
the characters of `src` from the loop counter on; it stops at the terminating
NUL. The flag is set when the CRLF case has advanced the counter once more
(`i++`), so that the next character, the line feed, is passed over. The
characters are given by their codes: 0 NUL, 9 TAB, 10 LF, 13 CR, 34 the double
quote, 92 the backslash. -/
def literalFormString_loop : Bool → List Char → List Char
  | _, [] => []
  | true, _ :: rest => literalFormString_loop false rest
  | false, c :: rest =>
    if c = Char.ofNat 0 then
      []
    else if c = Char.ofNat 92 ∨ c = Char.ofNat 34 then
      Char.ofNat 92 :: c :: literalFormString_loop false rest
    else if c = Char.ofNat 9 then
      Char.ofNat 92 :: 't' :: literalFormString_loop false rest
    else if c = Char.ofNat 13 ∨ c = Char.ofNat 10 then
      if c = Char.ofNat 13 ∧ rest.head? = some (Char.ofNat 10) then
        Char.ofNat 92 :: 'n' :: literalFormString_loop true rest
      else
        Char.ofNat 92 :: 'n' :: literalFormString_loop false rest
    else
      c :: literalFormString_loop false rest

/-- The function `hpiutil::literalFormString`. -/
def literalFormString (src : String) : String :=
  String.mk (Char.ofNat 34 :: literalFormString_loop false src.data ++ [Char.ofNat 34])

/-- The function `HspObjectWriter::write_flow_form` on the kinds that the
object list writer passes to it (`FlowForm::on_label`, `on_str`, `on_double`,
`on_int`, `on_unknown`); `double_text` is the `%f` rendering of the value. -/
def write_flow_form (o : HspObjects) (path : HspObjectPath) : String :=
  match path.kind with
  | HspObjectKind.Label =>
    if o.label_is_null path then "<null-label>"
    else match o.static_label_name path with
      | some name => "*" ++ name
      | none =>
        match o.static_label_id path with
        | some id => "*#" ++ toString id
        | none => "<label>"
  | HspObjectKind.Str => literalFormString (o.str_value path)
  | HspObjectKind.Double => o.double_text path
  | HspObjectKind.Int => toString (o.int_value path)
  | HspObjectKind.Unknown => "<unknown>"
  | _ => o.flow_form_other path

/-! ## The identity registry -/

/-- The class `HspObjectListEntity`. -/
structure HspObjectListEntity where
  object_list_ : HspObjectList
  last_id_ : Nat
  id_to_paths_ : Nat → Option HspObjectPath
  path_to_ids_ : HspObjectPath → Option Nat
  expanded_ : HspObjectPath → Option Bool

/-- The assignment `map[key] = value` on an `unordered_map`. -/
def map_insert {κ ν : Type} [DecidableEq κ] (m : κ → Option ν) (key : κ) (value : ν) :
    κ → Option ν :=
  fun k => if k = key then some value else m k

/-- The call `map.erase(key)` on an `unordered_map`. -/
def map_erase {κ ν : Type} [DecidableEq κ] (m : κ → Option ν) (key : κ) : κ → Option ν :=
  fun k => if k = key then none else m k

/-- The constructor `HspObjectListEntity::HspObjectListEntity`. -/
def HspObjectListEntity.new : HspObjectListEntity :=
  { object_list_ := [], last_id_ := 0, id_to_paths_ := fun _ => none,
    path_to_ids_ := fun _ => none, expanded_ := fun _ => none }

/-- The method `HspObjectListEntity::path_to_object_id`: the id and the new state. -/
def HspObjectListEntity.path_to_object_id (self : HspObjectListEntity) (path : HspObjectPath) :
    Nat × HspObjectListEntity :=
  match self.path_to_ids_ path with
  | none =>
    let id := self.last_id_ + 1
    (id, { self with
      last_id_ := id
      path_to_ids_ := map_insert self.path_to_ids_ path id
      id_to_paths_ := map_insert self.id_to_paths_ id path })
  | some id => (id, self)

/-- The method `HspObjectListEntity::object_id_to_path`. -/
def HspObjectListEntity.object_id_to_path (self : HspObjectListEntity) (object_id : Nat) :
    Option HspObjectPath :=
  self.id_to_paths_ object_id

/-- The method `HspObjectListEntity::is_expanded`. -/
def HspObjectListEntity.is_expanded (self : HspObjectListEntity) (path : HspObjectPath) : Bool :=
  match self.expanded_ path with
  | none => path.parent.kind == HspObjectKind.Root
  | some b => b

/-- The method `HspObjectListEntity::toggle_expand`. -/
def HspObjectListEntity.toggle_expand (self : HspObjectListEntity) (object_id : Nat) :
    HspObjectListEntity :=
  match self.object_id_to_path object_id with
  | none => self
  | some path =>
    match HspObjectList.find_by_object_id self.object_list_ object_id with
    | none => self
    | some item =>
      if item.child_count = 0 then
        self
      else
        { self with expanded_ := map_insert self.expanded_ path (!self.is_expanded path) }

/-- The method `HspObjectListEntity::apply_delta` (the `assert` on an unknown
id is compiled out of a release build). -/
def HspObjectListEntity.apply_delta (self : HspObjectListEntity) (delta : HspObjectListDelta) :
    HspObjectListEntity :=
  match delta.kind with
  | DeltaKind.Remove =>
    match self.id_to_paths_ delta.object_id with
    | none => self
    | some path =>
      { self with
        id_to_paths_ := map_erase self.id_to_paths_ delta.object_id
        path_to_ids_ := map_erase self.path_to_ids_ path
        expanded_ := map_erase self.expanded_ path }
  | _ => self

/-- The states of the registry that the program can be in: the constructed
state, and what `path_to_object_id`, `toggle_expand`, `apply_delta` and the
assignment to `object_list_` at the end of `update` make of such a state. -/
inductive HspObjectListEntity.Reachable : HspObjectListEntity → Prop where
  | new : Reachable HspObjectListEntity.new
  | path_to_object_id (e : HspObjectListEntity) (path : HspObjectPath) :
      Reachable e → Reachable (e.path_to_object_id path).2
  | toggle_expand (e : HspObjectListEntity) (object_id : Nat) :
      Reachable e → Reachable (e.toggle_expand object_id)
  | apply_delta (e : HspObjectListEntity) (delta : HspObjectListDelta) :
      Reachable e → Reachable (e.apply_delta delta)
  | store (e : HspObjectListEntity) (new_list : HspObjectList) :
      Reachable e → Reachable { e with object_list_ := new_list }

/-- The relation `NoForget e e1`: the registry gets from the state `e` to the
state `e1` by `path_to_object_id`, `toggle_expand` and assignments to
`object_list_` only, that is with no forget (no `apply_delta`) in between. -/
inductive HspObjectListEntity.NoForget : HspObjectListEntity → HspObjectListEntity → Prop where
  | refl (e : HspObjectListEntity) : NoForget e e
  | path_to_object_id (e e1 : HspObjectListEntity) (path : HspObjectPath) :
      NoForget e e1 → NoForget e (e1.path_to_object_id path).2
  | toggle_expand (e e1 : HspObjectListEntity) (object_id : Nat) :
      NoForget e e1 → NoForget e (e1.toggle_expand object_id)
  | store (e e1 : HspObjectListEntity) (new_list : HspObjectList) :
      NoForget e e1 → NoForget e { e1 with object_list_ := new_list }

/-! ## The object list writer -/

/-- The constant `MAX_CHILD_COUNT` of knowbug_server.cpp. -/
def MAX_CHILD_COUNT : Nat := 300

/-- The state an `HspObjectListWriter` works on: the list it fills, the
registry, which is both its `id_provider_` and its `expansion_` (it is built
with `*this, *this` in `update`), and `depth_`. -/
structure HspObjectListWriter where
  object_list_ : HspObjectList
  id_provider_ : HspObjectListEntity
  depth_ : Nat

/-- The kinds on which `HspObjectListWriter::add` takes the `add_value` branch. -/
def is_value_kind (kind : HspObjectKind) : Bool :=
  match kind with
  | HspObjectKind.Label => true
  | HspObjectKind.Str => true
  | HspObjectKind.Double => true
  | HspObjectKind.Int => true
  | HspObjectKind.Unknown => true
  | _ => false

/-- The method `HspObjectListWriter::add_value`. -/
def HspObjectListWriter.add_value (o : HspObjects) (path value_path : HspObjectPath)
    (w : HspObjectListWriter) : HspObjectListWriter :=
  let name := o.name path
  let value := write_flow_form o value_path
  let r := w.id_provider_.path_to_object_id path
  { w with
    object_list_ := w.object_list_ ++ [⟨r.1, w.depth_, name, value, 0⟩]
    id_provider_ := r.2 }

/-- The `for` loop of `HspObjectListWriter::add_children` (lines 184-187): `n`
iterations are left, `i` is the loop counter, `add` is the method `add`. -/
def HspObjectListWriter.add_children_loop
    (add : HspObjectPath → HspObjectListWriter → Option HspObjectListWriter)
    (o : HspObjects) (path : HspObjectPath) :
    Nat → Nat → HspObjectListWriter → Option HspObjectListWriter
  | 0, _, w => some w
  | n + 1, i, w =>
    match add (o.child_at path i) w with
    | none => none
    | some w1 => add_children_loop add o path n (i + 1) w1

/-- The method `HspObjectListWriter::add_children`, with the method `add` that
it calls as a parameter. -/
def HspObjectListWriter.add_children_with
    (add : HspObjectPath → HspObjectListWriter → Option HspObjectListWriter)
    (o : HspObjects) (path : HspObjectPath) (w : HspObjectListWriter) :
    Option HspObjectListWriter :=
  if w.id_provider_.is_expanded path = false then
    some w
  else
    let item_count := o.child_count path
    HspObjectListWriter.add_children_loop add o path (min MAX_CHILD_COUNT item_count) 0 w

/-- The method `HspObjectListWriter::add_scope`, with the method `add` that
`add_children` calls as a parameter. -/
def HspObjectListWriter.add_scope_with
    (add : HspObjectPath → HspObjectListWriter → Option HspObjectListWriter)
    (o : HspObjects) (path : HspObjectPath) (w : HspObjectListWriter) :
    Option HspObjectListWriter :=
  let name := o.name path
  let item_count := o.child_count path
  let value := "(" ++ toString item_count ++ "):"
  let r := w.id_provider_.path_to_object_id path
  let w1 : HspObjectListWriter :=
    { object_list_ := w.object_list_ ++ [⟨r.1, w.depth_, name, value, item_count⟩]
      id_provider_ := r.2
      depth_ := w.depth_ + 1 }
  match HspObjectListWriter.add_children_with add o path w1 with
  | none => none
  | some w2 => some { w2 with depth_ := w2.depth_ - 1 }

/-- The method `HspObjectListWriter::add`. The recursion `add`, `add_scope`,
`add_children`, `add` follows the object tree, whose depth the code does not
bound; `fuel` bounds the nesting of `add` calls and `none` means that it ran
out. -/
def HspObjectListWriter.add (o : HspObjects) :
    Nat → HspObjectPath → HspObjectListWriter → Option HspObjectListWriter
  | 0, _, _ => none
  | fuel + 1, path, w =>
    if o.child_count path = 1 ∧ is_value_kind (o.child_at path 0).kind = true then
      some (HspObjectListWriter.add_value o path (o.child_at path 0) w)
    else
      HspObjectListWriter.add_scope_with (HspObjectListWriter.add o fuel) o path w

/-- The method `HspObjectListWriter::add_children`; the `add` calls it makes
may nest `fuel` deep. -/
def HspObjectListWriter.add_children (o : HspObjects) (fuel : Nat) (path : HspObjectPath)
    (w : HspObjectListWriter) : Option HspObjectListWriter :=
  HspObjectListWriter.add_children_with (HspObjectListWriter.add o fuel) o path w

/-- The writer that `update` builds: an empty list, the registry, depth 0. -/
def HspObjectListWriter.new (e : HspObjectListEntity) : HspObjectListWriter :=
  { object_list_ := [], id_provider_ := e, depth_ := 0 }

/-! ## The scenario of the specification (section 8) -/

/-- The path of `A`, a child of the root. -/
def scenario_A : HspObjectPath := HspObjectPath.StaticVar HspObjectPath.Root 0

/-- The path of `B`, a child of the root. -/
def scenario_B : HspObjectPath := HspObjectPath.StaticVar HspObjectPath.Root 1

/-- The path of `A0`, the first child of `A`. -/
def scenario_A0 : HspObjectPath := HspObjectPath.Element scenario_A [0]

/-- The path of `A1`, the second child of `A`. -/
def scenario_A1 : HspObjectPath := HspObjectPath.Element scenario_A [1]

/-- The debuggee of the scenario: the root has the children `A` and `B`; `A` has
the children `A0` and `A1`, which hold one Int child each, 1 and 2; `B` holds
one Str child, the string hi. -/
def scenario_objects : HspObjects :=
  { child_count := fun p =>
      if p = HspObjectPath.Root then 2
      else if p = scenario_A then 2
      else if p = scenario_A0 ∨ p = scenario_A1 ∨ p = scenario_B then 1
      else 0
    child_at := fun p i =>
      if p = HspObjectPath.Root then (if i = 0 then scenario_A else scenario_B)
      else if p = scenario_A then (if i = 0 then scenario_A0 else scenario_A1)
      else if p = scenario_B then HspObjectPath.Str p
      else HspObjectPath.Int p
    name := fun p =>
      if p = scenario_A then "A"
      else if p = scenario_B then "B"
      else if p = scenario_A0 then "A0"
      else if p = scenario_A1 then "A1"
      else ""
    label_is_null := fun _ => false
    static_label_name := fun _ => none
    static_label_id := fun _ => none
    str_value := fun _ => "hi"
    double_text := fun _ => ""
    int_value := fun p => if p = HspObjectPath.Int scenario_A0 then 1 else 2
    flow_form_other := fun _ => "" }

/-- A registry that tracks `A` of the scenario under the id 1 and whose last
snapshot holds the row of `A`, with two children. -/
def scenario_entity : HspObjectListEntity :=
  { (HspObjectListEntity.new.path_to_object_id scenario_A).2 with
    object_list_ := [⟨1, 0, "A", "(2):", 2⟩] }

/-! ## `update` and the histories of the registry -/

/-- The method `HspObjectListEntity::update`: the diff and the new state, or
`none` when the traversal of the writer ran out of `fuel`. The writer works on
the registry itself; the deltas are then applied to the registry in order and
the new list is stored. -/
def HspObjectListEntity.update (self : HspObjectListEntity) (objects : HspObjects)
    (fuel : Nat) : Option (List HspObjectListDelta × HspObjectListEntity) :=
  match HspObjectListWriter.add_children objects fuel HspObjectPath.Root
      (HspObjectListWriter.new self) with
  | none => none
  | some w =>
    let new_list := w.object_list_
    let diff := diff_object_list w.id_provider_.object_list_ new_list []
    let e := diff.foldl HspObjectListEntity.apply_delta w.id_provider_
    some (diff, { e with object_list_ := new_list })

/-- The relation `Returned e ids`: the registry is in the state `e` and `ids`
are the ids that `path_to_object_id` has returned since the registry was
constructed, the latest first. -/
inductive HspObjectListEntity.Returned : HspObjectListEntity → List Nat → Prop where
  | new : Returned HspObjectListEntity.new []
  | path_to_object_id (e : HspObjectListEntity) (ids : List Nat) (path : HspObjectPath) :
      Returned e ids → Returned (e.path_to_object_id path).2 ((e.path_to_object_id path).1 :: ids)
  | toggle_expand (e : HspObjectListEntity) (ids : List Nat) (object_id : Nat) :
      Returned e ids → Returned (e.toggle_expand object_id) ids
  | apply_delta (e : HspObjectListEntity) (ids : List Nat) (delta : HspObjectListDelta) :
      Returned e ids → Returned (e.apply_delta delta) ids
  | store (e : HspObjectListEntity) (ids : List Nat) (new_list : HspObjectList) :
      Returned e ids → Returned { e with object_list_ := new_list } ids

/-- Following the specification: one delta applied to the rows, where the
delta must be applicable: the index of an Insert is a position of the list or
its end, the index of an Update is a position of the list, and the index of a
Remove is the position of a row that carries the object id of the Remove. -/
def spec_apply_delta_checked (rows : List DeltaRow) (delta : HspObjectListDelta) :
    Option (List DeltaRow) :=
  match delta.kind with
  | DeltaKind.Insert =>
    if delta.index ≤ rows.length then some (rows.insertIdx delta.index delta.row) else none
  | DeltaKind.Remove =>
    if delta.index < rows.length ∧ (rows.getD delta.index default).object_id = delta.object_id
    then some (rows.eraseIdx delta.index) else none
  | DeltaKind.Update =>
    if delta.index < rows.length then some (rows.set delta.index delta.row) else none

/-- Following the specification: the deltas applied in order, `none` as soon as
one of them is not applicable. -/
def spec_apply_deltas_checked : List DeltaRow → List HspObjectListDelta → Option (List DeltaRow)
  | rows, [] => some rows
  | rows, delta :: deltas =>
    match spec_apply_delta_checked rows delta with
    | none => none
    | some rows1 => spec_apply_deltas_checked rows1 deltas

/-- The ids of the rows of a snapshot, in order. -/
def HspObjectList.ids (self : HspObjectList) : List Nat :=
  self.map HspObjectListItem.object_id

/-- The ids that two snapshots share, in the order of the first. -/
def common_ids (source target : HspObjectList) : List Nat :=
  (HspObjectList.ids source).filter (fun id => decide (id ∈ HspObjectList.ids target))

/-! ## The shared buffer -/

/-- The macro `MEMORY_BUFFER_SIZE` of knowbug_protocol.h (its comment reads
`1 MB`). -/
def MEMORY_BUFFER_SIZE : Nat := 0x1000000

/-! ## The classification of the rows by a diff -/

/-- The object ids of the deltas of one kind in a diff, in order. -/
def deltas_of_kind (kind : DeltaKind) (diff : List HspObjectListDelta) : List Nat :=
  (diff.filter (fun d => decide (d.kind = kind))).map HspObjectListDelta.object_id

/-- Whether the source holds a row with the object id of `t` that differs from
`t` in some field (`HspObjectListItem::equals` fails). -/
def row_changed (source : HspObjectList) (t : HspObjectListItem) : Bool :=
  source.any (fun s => s.object_id == t.object_id && !s.equals t)

/-! ## Escaping, as the specification words it -/

/-- Following the specification: one character of a single-line preview. A
backslash or a double quote gets a backslash in front, a TAB becomes backslash
`t`, a CR or an LF becomes backslash `n`, any other character stands for
itself. -/
def spec_escape_char (c : Char) : List Char :=
  if c = Char.ofNat 92 ∨ c = Char.ofNat 34 then [Char.ofNat 92, c]
  else if c = Char.ofNat 9 then [Char.ofNat 92, 't']
  else if c = Char.ofNat 13 ∨ c = Char.ofNat 10 then [Char.ofNat 92, 'n']
  else [c]

/-- Following the specification: the characters of a string escaped one by
one, where a CR directly followed by an LF counts as one line break. -/
def spec_escape : List Char → List Char
  | [] => []
  | [c] => spec_escape_char c
  | c :: d :: rest =>
    if c = Char.ofNat 13 ∧ d = Char.ofNat 10 then
      Char.ofNat 92 :: 'n' :: spec_escape rest
    else
      spec_escape_char c ++ spec_escape (d :: rest)

/-! ## The detail view writer -/

/-- A call that `HspObjectWriter` makes on its `CStrWriter`: `cat`, `catSize`
or `catln`. -/
inductive WriterCall where
  | cat (text : String)
  | catSize (size : Nat)
  | catln (text : String)
  deriving DecidableEq, Repr

/-- The constant `MAX_CHILD_COUNT` of HspObjectWriter.cpp. -/
def HspObjectWriter.MAX_CHILD_COUNT : Nat := 3000

/-- The `for` loop of `TableForm::accept_children` and of
`BlockForm::accept_children` (lines 249-251 and 388-390): `n` iterations are
left, `i` is the loop counter, `accept` gives the writer calls that rendering a
child makes. -/
def HspObjectWriterImpl.accept_children_loop (accept : HspObjectPath → List WriterCall)
    (o : HspObjects) (path : HspObjectPath) : Nat → Nat → List WriterCall
  | 0, _ => []
  | n + 1, i => accept (o.child_at path i) ++ accept_children_loop accept o path n (i + 1)

/-- The method `HspObjectWriterImpl::TableForm::accept_children` as the writer
calls it makes. -/
def HspObjectWriterImpl.TableForm.accept_children (accept : HspObjectPath → List WriterCall)
    (o : HspObjects) (path : HspObjectPath) : List WriterCall :=
  let child_count := o.child_count path
  HspObjectWriterImpl.accept_children_loop accept o path
      (min HspObjectWriter.MAX_CHILD_COUNT child_count) 0
    ++ (if child_count ≥ HspObjectWriter.MAX_CHILD_COUNT then
          [WriterCall.cat ".. (合計", WriterCall.catSize child_count, WriterCall.catln " 件)"]
        else [])

/-- The method `HspObjectWriterImpl::BlockForm::accept_children` as the writer
calls it makes. -/
def HspObjectWriterImpl.BlockForm.accept_children (accept : HspObjectPath → List WriterCall)
    (o : HspObjects) (path : HspObjectPath) : List WriterCall :=
  let child_count := o.child_count path
  HspObjectWriterImpl.accept_children_loop accept o path
      (min HspObjectWriter.MAX_CHILD_COUNT child_count) 0
    ++ (if child_count ≥ HspObjectWriter.MAX_CHILD_COUNT then
          [WriterCall.cat ".. (合計 ", WriterCall.catSize child_count, WriterCall.catln " 件)"]
        else [])

/-- The `for` loop of `FlowForm::accept_children` (lines 514-520), which writes
a separator before every child but the first. -/
def HspObjectWriterImpl.FlowForm.accept_children_loop
    (accept : HspObjectPath → List WriterCall) (o : HspObjects) (path : HspObjectPath) :
    Nat → Nat → List WriterCall
  | 0, _ => []
  | n + 1, i =>
    (if i ≠ 0 then [WriterCall.cat ", "] else []) ++ accept (o.child_at path i)
      ++ accept_children_loop accept o path n (i + 1)

/-- The method `HspObjectWriterImpl::FlowForm::accept_children` as the writer
calls it makes. -/
def HspObjectWriterImpl.FlowForm.accept_children (accept : HspObjectPath → List WriterCall)
    (o : HspObjects) (path : HspObjectPath) : List WriterCall :=
  let child_count := o.child_count path
  HspObjectWriterImpl.FlowForm.accept_children_loop accept o path
      (min HspObjectWriter.MAX_CHILD_COUNT child_count) 0
    ++ (if child_count ≥ HspObjectWriter.MAX_CHILD_COUNT then [WriterCall.cat "; .."] else [])

/-- A debuggee whose root has exactly 3000 children, the static variables 0 to
2999. -/
def cap_objects : HspObjects :=
  { child_count := fun p => if p = HspObjectPath.Root then 3000 else 0
    child_at := fun p i => HspObjectPath.StaticVar p i
    name := fun p =>
      match p with
      | HspObjectPath.StaticVar _ i => toString i
      | _ => ""
    label_is_null := fun _ => false
    static_label_name := fun _ => none
    static_label_id := fun _ => none
    str_value := fun _ => ""
    double_text := fun _ => ""
    int_value := fun _ => 0
    flow_form_other := fun _ => "" }

/-! ## The shape of a snapshot -/

/-- The relation between a row `a` of a snapshot and the row `b` that follows
it: `b` is at most one level deeper than `a`, and it is deeper only when `a`
has children (`child_count > 0`) and the registry `e` holds for the id of `a` a
path that is expanded. -/
def depth_step (e : HspObjectListEntity) (a b : HspObjectListItem) : Prop :=
  b.depth ≤ a.depth + 1
  ∧ (a.depth < b.depth →
      0 < a.child_count ∧ ∃ p, e.object_id_to_path a.object_id = some p ∧ e.is_expanded p = true)

/-- The relation `Extends e e1 ids`: the registry `e1` holds the stored
snapshot and the expansion flags of `e`, every id of `e` with its path, and
beyond these only ids of the list `ids`. It relates the registry before and
after a run of the writer, which only calls `path_to_object_id`. -/
def HspObjectListEntity.Extends (e e1 : HspObjectListEntity) (ids : List Nat) : Prop :=
  e1.expanded_ = e.expanded_ ∧ e1.object_list_ = e.object_list_
  ∧ (∀ i p, e.id_to_paths_ i = some p → e1.id_to_paths_ i = some p)
  ∧ (∀ i p, e1.id_to_paths_ i = some p → e.id_to_paths_ i = some p ∨ i ∈ ids)

/-- The relation `Appends w w1 rows`: the writer got from the state `w` to the
state `w1` by appending `rows`, all at the depth of `w` or deeper and the first
at the depth of `w`, each following its predecessor by `depth_step`; the depth
is restored, and the registry is extended by ids of the rows only. -/
def HspObjectListWriter.Appends (w w1 : HspObjectListWriter)
    (rows : List HspObjectListItem) : Prop :=
  w1.object_list_ = w.object_list_ ++ rows ∧ w1.depth_ = w.depth_
  ∧ (∀ r, r ∈ rows → w.depth_ ≤ r.depth)
  ∧ (∀ r, rows.head? = some r → r.depth = w.depth_)
  ∧ w1.id_provider_.Reachable
  ∧ w.id_provider_.Extends w1.id_provider_ (HspObjectList.ids rows)
  ∧ List.Chain' (depth_step w1.id_provider_) rows

/-! ## Debuggees and registries for the claims about `update` -/

/-- A registry that tracks the static variable 7 of the root under the id 1,
with a flag that says it is expanded, and whose last snapshot holds its row. -/
def stale_entity : HspObjectListEntity :=
  { (HspObjectListEntity.new.path_to_object_id
        (HspObjectPath.StaticVar HspObjectPath.Root 7)).2 with
    object_list_ := [⟨1, 0, "v", "(2):", 2⟩] }

/-! ## Grouping the static variables by module -/

/-- The class `HspObjects::Module`: a name and the ids of its variables. -/
structure Module where
  name_ : String
  var_ids_ : List Nat
  deriving DecidableEq, Repr

/-- The method `HspObjects::Module::add_var`. -/
def Module.add_var (self : Module) (static_var_id : Nat) : Module :=
  { self with var_ids_ := self.var_ids_ ++ [static_var_id] }

/-- The constant `GLOBAL_MODULE_NAME`. -/
def GLOBAL_MODULE_NAME : String := "@"

/-- The function `var_name_to_scope_resolution`, that is `strchr(var_name, '@')`:
the rest of the name from its first `@` on, `none` (the null pointer) when the
name has no `@`. A name is the content of a C string. -/
def var_name_to_scope_resolution (var_name : String) : Option String :=
  match var_name.data.dropWhile (fun c => c != '@') with
  | [] => none
  | c :: rest => some (String.mk (c :: rest))

/-- The module name that the first loop of `group_vars_by_module` computes for
a variable name (line 32). -/
def var_name_to_module_name (var_name : String) : String :=
  match var_name_to_scope_resolution var_name with
  | some p => p
  | none => GLOBAL_MODULE_NAME

/-- The first loop of `group_vars_by_module` (lines 28-35) from the variable id
`vi` on: the tuples of module name, variable name and variable id. -/
def group_vars_tuples : List String → Nat → List (String × String × Nat)
  | [], _ => []
  | var_name :: rest, vi =>
    (var_name_to_module_name var_name, var_name, vi) :: group_vars_tuples rest (vi + 1)

/-- The order of `std::tuple`, which `std::sort` uses: lexicographic on module
name, variable name and variable id (here as less-or-equal). Strings are
compared character by character, lexicographically. -/
def tuple_le (a b : String × String × Nat) : Prop :=
  a.1 < b.1 ∨ (a.1 = b.1 ∧ (a.2.1 < b.2.1 ∨ (a.2.1 = b.2.1 ∧ a.2.2 ≤ b.2.2)))

/-- The order `tuple_le` is decidable. -/
instance tuple_le_decidable : DecidableRel tuple_le :=
  fun a b => by unfold tuple_le; exact inferInstance

/-- The body of the second loop of `group_vars_by_module` on the last module
(lines 50-60): `modules` is given as all but the last module and the last one.
A module is appended when the name of the last differs from the module name of
the tuple, and the variable is added to the module that is last then. -/
def group_vars_step (init : List Module) (last : Module) (t : String × String × Nat) :
    List Module × Module :=
  if ¬ (last.name_ = t.1) then
    (init ++ [last], (Module.mk t.1 []).add_var t.2.2)
  else
    (init, last.add_var t.2.2)

/-- The second loop of `group_vars_by_module` (lines 45-61). -/
def group_vars_build (init : List Module) (last : Module) :
    List (String × String × Nat) → List Module
  | [] => init ++ [last]
  | t :: ts => group_vars_build (group_vars_step init last t).1 (group_vars_step init last t).2 ts

/-- The function `group_vars_by_module`. The call of `std::sort` is an
insertion sort here; the tuples are pairwise different (their ids are), so
every sorting algorithm gives the same list. -/
def group_vars_by_module (var_names : List String) : List Module :=
  group_vars_build [] (Module.mk GLOBAL_MODULE_NAME [])
    (List.insertionSort tuple_le (group_vars_tuples var_names 0))

/-! ## The debuggee behind `HspObjects`: `HspDebugApi` -/

/-- The outcome of a call that may leave by a `throw`. -/
inductive Outcome (α : Type) where
  | returned (value : α)
  | thrown (what : String)
  deriving DecidableEq, Repr

/-- A function applied to a returned value. -/
def Outcome.map {α β : Type} (f : α → β) : Outcome α → Outcome β
  | Outcome.returned a => Outcome.returned (f a)
  | Outcome.thrown e => Outcome.thrown e

/-- The constants that the sources name but that headers outside the sources
at hand declare: the parameter types `MPTYPE_*` of the HSP SDK and the
enumerators of `HspSystemVarKind` that the `switch` statements list (`Cnt`,
`Err`, `IParam`, `WParam`, `LParam`, `LoopLev`, `SubLev`, `Refstr`, `Refdval`,
`Stat`, `StrSize`). Their values are parameters. -/
structure HspSdk where
  MPTYPE_LOCALVAR : Nat
  MPTYPE_LOCALSTRING : Nat
  MPTYPE_DNUM : Nat
  MPTYPE_INUM : Nat
  system_var_kinds : List Nat

/-- The enum `HspType` as far as the accessors tell its values apart. -/
inductive HspType where
  | Label | Str | Double | Int | Struct | Other
  deriving DecidableEq, Repr

/-- The class `HspData`: a type and a pointer to the value. -/
structure HspData where
  type : HspType
  ptr : Nat
  deriving DecidableEq, Repr

/-- The class `HspParamStack`: the `STRUCTDAT` of the command and the pointer to
the stack. -/
structure HspParamStack where
  struct_dat : Nat
  ptr : Nat
  deriving DecidableEq, Repr

/-- The class `HspParamData`: the parameter, given by its `STRUCTDAT` and its
index (`STRUCTDAT_params(struct_dat).begin() + param_index`), and the pointer
to its value. -/
structure HspParamData where
  struct_dat : Nat
  param_index : Nat
  ptr : Nat
  deriving DecidableEq, Repr

/-- The memory of the debuggee as `HspDebugApi` reads it through the HSP SDK
and `hpiutil`. Pointers are addresses, 0 is the null pointer. The last two
fields stand for `WrapCall::call_frame_get` with `tryGetPrmstk` and for
`HspDebugApi::system_var_to_data`, which are not among the sources at hand. -/
structure HspDebugApi where
  static_var_count : Nat
  static_vars : Nat
  pval_flag : Nat → HspType
  PVal_cntElems : Nat → Nat
  PVal_getPtr : Nat → Nat → Nat
  STRUCTDAT_params_size : Nat → Nat
  param_mptype : Nat → Nat → Nat
  param_offset : Nat → Nat → Nat
  read_ptr : Nat → Nat
  read_double : Nat → Rat
  read_int : Nat → Int
  FlexValue_module : Nat → Nat
  flex_ptr : Nat → Nat
  call_frame_param_stack : Nat → Option HspParamStack
  system_var_to_data : Nat → Outcome (Option HspData)

/-- The method `HspDebugApi::static_var_to_pval`. -/
def HspDebugApi.static_var_to_pval (api : HspDebugApi) (static_var_id : Nat) : Outcome Nat :=
  if static_var_id ≥ api.static_var_count then
    Outcome.thrown "std::exception"
  else
    Outcome.returned (api.static_vars + static_var_id)

/-- The method `HspDebugApi::var_to_element_count`. -/
def HspDebugApi.var_to_element_count (api : HspDebugApi) (pval : Nat) : Nat :=
  api.PVal_cntElems pval

/-- The method `HspDebugApi::var_element_to_aptr`: `indexes[0]`. -/
def HspDebugApi.var_element_to_aptr (indexes : List Nat) : Nat :=
  indexes.headD 0

/-- The method `HspDebugApi::var_element_to_data`. -/
def HspDebugApi.var_element_to_data (api : HspDebugApi) (pval aptr : Nat) : HspData :=
  { type := api.pval_flag pval, ptr := api.PVal_getPtr pval aptr }

/-- The method `HspDebugApi::param_stack_to_data_count`. -/
def HspDebugApi.param_stack_to_data_count (api : HspDebugApi) (param_stack : HspParamStack) :
    Nat :=
  api.STRUCTDAT_params_size param_stack.struct_dat

/-- The method `HspDebugApi::param_stack_to_data_at`. -/
def HspDebugApi.param_stack_to_data_at (api : HspDebugApi) (param_stack : HspParamStack)
    (param_index : Nat) : Outcome HspParamData :=
  if param_index ≥ api.param_stack_to_data_count param_stack then
    Outcome.thrown "std::exception"
  else
    Outcome.returned
      { struct_dat := param_stack.struct_dat
        param_index := param_index
        ptr := param_stack.ptr + api.param_offset param_stack.struct_dat param_index }

/-- The method `HspDebugApi::param_data_to_type`. -/
def HspDebugApi.param_data_to_type (api : HspDebugApi) (param_data : HspParamData) : Nat :=
  api.param_mptype param_data.struct_dat param_data.param_index

/-- The method `HspDebugApi::param_data_as_local_var`. -/
def HspDebugApi.param_data_as_local_var (sdk : HspSdk) (api : HspDebugApi)
    (param_data : HspParamData) : Outcome Nat :=
  if api.param_data_to_type param_data ≠ sdk.MPTYPE_LOCALVAR then
    Outcome.thrown "std::bad_cast"
  else
    Outcome.returned param_data.ptr

/-- The method `HspDebugApi::param_data_to_data`. -/
def HspDebugApi.param_data_to_data (sdk : HspSdk) (api : HspDebugApi)
    (param_data : HspParamData) : Option HspData :=
  if api.param_data_to_type param_data = sdk.MPTYPE_LOCALSTRING then
    let str := api.read_ptr param_data.ptr
    if str = 0 then none else some { type := HspType.Str, ptr := str }
  else if api.param_data_to_type param_data = sdk.MPTYPE_INUM then
    some { type := HspType.Int, ptr := param_data.ptr }
  else
    none

/-- The method `HspDebugApi::data_to_double`. -/
def HspDebugApi.data_to_double (api : HspDebugApi) (data : HspData) : Outcome Rat :=
  if data.type ≠ HspType.Double then
    Outcome.thrown "std::bad_cast"
  else
    Outcome.returned (api.read_double data.ptr)

/-- The method `HspDebugApi::data_to_int`. -/
def HspDebugApi.data_to_int (api : HspDebugApi) (data : HspData) : Outcome Int :=
  if data.type ≠ HspType.Int then
    Outcome.thrown "std::bad_cast"
  else
    Outcome.returned (api.read_int data.ptr)

/-- The method `HspDebugApi::data_to_flex`. -/
def HspDebugApi.data_to_flex (data : HspData) : Outcome Nat :=
  if data.type ≠ HspType.Struct then
    Outcome.thrown "std::bad_cast"
  else
    Outcome.returned data.ptr

/-- The method `HspDebugApi::flex_to_param_stack`. -/
def HspDebugApi.flex_to_param_stack (api : HspDebugApi) (flex : Nat) : HspParamStack :=
  { struct_dat := api.FlexValue_module flex, ptr := api.flex_ptr flex }

/-! ## The accessors of HspObjects.cpp -/

/-- What the accessors make of one path: the results of `path_to_pval`,
`path_to_data` and `path_to_param_stack`. -/
structure Resolved where
  pval : Outcome (Option Nat)
  data : Outcome (Option HspData)
  param_stack : Outcome (Option HspParamStack)

/-- The function `flex_path_to_value`, given the result of `path_to_data` on the
parent of the path. -/
def flex_path_to_value_with (parent_data : Outcome (Option HspData)) : Outcome (Option Nat) :=
  match parent_data with
  | Outcome.thrown e => Outcome.thrown e
  | Outcome.returned none => Outcome.returned none
  | Outcome.returned (some data) =>
    if data.type ≠ HspType.Struct then
      Outcome.returned none
    else
      (HspDebugApi.data_to_flex data).map some

/-- The function `path_to_param_stack`, given the result of `path_to_data` on
the parent of the path. -/
def path_to_param_stack_with (api : HspDebugApi) (path : HspObjectPath)
    (parent_data : Outcome (Option HspData)) : Outcome (Option HspParamStack) :=
  match path with
  | HspObjectPath.Flex _ =>
    match flex_path_to_value_with parent_data with
    | Outcome.thrown e => Outcome.thrown e
    | Outcome.returned none => Outcome.returned none
    | Outcome.returned (some flex) => Outcome.returned (some (api.flex_to_param_stack flex))
  | HspObjectPath.CallFrame _ call_frame_id =>
    Outcome.returned (api.call_frame_param_stack call_frame_id)
  | _ => Outcome.returned none

/-- The function `param_path_to_param_data`, given the result of
`path_to_param_stack` on the parent of the path. -/
def param_path_to_param_data_with (api : HspDebugApi) (param_index : Nat)
    (parent_param_stack : Outcome (Option HspParamStack)) : Outcome (Option HspParamData) :=
  match parent_param_stack with
  | Outcome.thrown e => Outcome.thrown e
  | Outcome.returned none => Outcome.returned none
  | Outcome.returned (some param_stack) =>
    (api.param_stack_to_data_at param_stack param_index).map some

/-- The function `path_to_pval`, given what the accessors make of the parent. -/
def path_to_pval_with (sdk : HspSdk) (api : HspDebugApi) (path : HspObjectPath)
    (parent : Resolved) : Outcome (Option Nat) :=
  match path with
  | HspObjectPath.StaticVar _ static_var_id =>
    (api.static_var_to_pval static_var_id).map some
  | HspObjectPath.Element _ _ => parent.pval
  | HspObjectPath.Param _ _ param_index =>
    match param_path_to_param_data_with api param_index parent.param_stack with
    | Outcome.thrown e => Outcome.thrown e
    | Outcome.returned none => Outcome.returned none
    | Outcome.returned (some param_data) =>
      if api.param_data_to_type param_data = sdk.MPTYPE_LOCALVAR then
        (HspDebugApi.param_data_as_local_var sdk api param_data).map some
      else
        Outcome.returned none
  | _ => Outcome.returned none

/-- The function `path_to_data`, given what the accessors make of the parent. -/
def path_to_data_with (sdk : HspSdk) (api : HspDebugApi) (path : HspObjectPath)
    (parent : Resolved) : Outcome (Option HspData) :=
  match path with
  | HspObjectPath.Element _ indexes =>
    match parent.pval with
    | Outcome.thrown e => Outcome.thrown e
    | Outcome.returned none => Outcome.returned none
    | Outcome.returned (some pval) =>
      let aptr := HspDebugApi.var_element_to_aptr indexes
      Outcome.returned (some (api.var_element_to_data pval aptr))
  | HspObjectPath.Param _ _ param_index =>
    match param_path_to_param_data_with api param_index parent.param_stack with
    | Outcome.thrown e => Outcome.thrown e
    | Outcome.returned none => Outcome.returned none
    | Outcome.returned (some param_data) =>
      Outcome.returned (HspDebugApi.param_data_to_data sdk api param_data)
  | HspObjectPath.SystemVar _ system_var_kind => api.system_var_to_data system_var_kind
  | _ => Outcome.returned none

/-- The three accessors on a path, given what they make of its parent. -/
def resolve_with (sdk : HspSdk) (api : HspDebugApi) (path : HspObjectPath)
    (parent : Resolved) : Resolved :=
  { pval := path_to_pval_with sdk api path parent
    data := path_to_data_with sdk api path parent
    param_stack := path_to_param_stack_with api path parent.data }

/-- The accessors `path_to_pval`, `path_to_data` and `path_to_param_stack`
together: they call one another on the parent of the path, so they are computed
along the path from the root. -/
def resolve (sdk : HspSdk) (api : HspDebugApi) : HspObjectPath → Resolved
  | HspObjectPath.Root =>
    { pval := Outcome.returned none, data := Outcome.returned none,
      param_stack := Outcome.returned none }
  | HspObjectPath.Module p id =>
    resolve_with sdk api (HspObjectPath.Module p id) (resolve sdk api p)
  | HspObjectPath.StaticVar p id =>
    resolve_with sdk api (HspObjectPath.StaticVar p id) (resolve sdk api p)
  | HspObjectPath.Element p indexes =>
    resolve_with sdk api (HspObjectPath.Element p indexes) (resolve sdk api p)
  | HspObjectPath.Param p param_type param_index =>
    resolve_with sdk api (HspObjectPath.Param p param_type param_index) (resolve sdk api p)
  | HspObjectPath.Label p => resolve_with sdk api (HspObjectPath.Label p) (resolve sdk api p)
  | HspObjectPath.Str p => resolve_with sdk api (HspObjectPath.Str p) (resolve sdk api p)
  | HspObjectPath.Double p => resolve_with sdk api (HspObjectPath.Double p) (resolve sdk api p)
  | HspObjectPath.Int p => resolve_with sdk api (HspObjectPath.Int p) (resolve sdk api p)
  | HspObjectPath.Flex p => resolve_with sdk api (HspObjectPath.Flex p) (resolve sdk api p)
  | HspObjectPath.SystemVar p kind =>
    resolve_with sdk api (HspObjectPath.SystemVar p kind) (resolve sdk api p)
  | HspObjectPath.CallStack p =>
    resolve_with sdk api (HspObjectPath.CallStack p) (resolve sdk api p)
  | HspObjectPath.CallFrame p id =>
    resolve_with sdk api (HspObjectPath.CallFrame p id) (resolve sdk api p)
  | HspObjectPath.Log p => resolve_with sdk api (HspObjectPath.Log p) (resolve sdk api p)
  | HspObjectPath.Script p => resolve_with sdk api (HspObjectPath.Script p) (resolve sdk api p)
  | HspObjectPath.General p content =>
    resolve_with sdk api (HspObjectPath.General p content) (resolve sdk api p)
  | HspObjectPath.Unavailable p reason =>
    resolve_with sdk api (HspObjectPath.Unavailable p reason) (resolve sdk api p)
  | HspObjectPath.Unknown p => resolve_with sdk api (HspObjectPath.Unknown p) (resolve sdk api p)

/-- The function `path_to_pval`. -/
def path_to_pval (sdk : HspSdk) (api : HspDebugApi) (path : HspObjectPath) :
    Outcome (Option Nat) :=
  (resolve sdk api path).pval

/-- The function `path_to_data`. -/
def path_to_data (sdk : HspSdk) (api : HspDebugApi) (path : HspObjectPath) :
    Outcome (Option HspData) :=
  (resolve sdk api path).data

/-- The function `path_to_param_stack`. -/
def path_to_param_stack (sdk : HspSdk) (api : HspDebugApi) (path : HspObjectPath) :
    Outcome (Option HspParamStack) :=
  (resolve sdk api path).param_stack

/-- The function `var_path_to_child_count`. -/
def var_path_to_child_count (sdk : HspSdk) (api : HspDebugApi) (path : HspObjectPath) :
    Outcome Nat :=
  match path_to_pval sdk api path with
  | Outcome.thrown e => Outcome.thrown e
  | Outcome.returned none => Outcome.returned 0
  | Outcome.returned (some pval) => Outcome.returned (api.var_to_element_count pval)

/-- The function `var_path_to_child_at`; the indexes of the new Element path
hold the index of the child (`indexes[0] = aptr`). -/
def var_path_to_child_at (sdk : HspSdk) (api : HspDebugApi) (path : HspObjectPath)
    (child_index : Nat) : Outcome HspObjectPath :=
  match path_to_pval sdk api path with
  | Outcome.thrown e => Outcome.thrown e
  | Outcome.returned none => Outcome.thrown "std::out_of_range"
  | Outcome.returned (some _) =>
    match var_path_to_child_count sdk api path with
    | Outcome.thrown e => Outcome.thrown e
    | Outcome.returned count =>
      if child_index ≥ count then
        Outcome.thrown "std::out_of_range"
      else
        Outcome.returned (HspObjectPath.Element path [child_index])

/-- The method `HspObjects::param_path_to_child_count` on a Param path with the
parameter type `param_type`. -/
def HspObjects.param_path_to_child_count (sdk : HspSdk) (api : HspDebugApi)
    (path : HspObjectPath) (param_type : Nat) : Outcome Nat :=
  if param_type = sdk.MPTYPE_LOCALVAR then
    var_path_to_child_count sdk api path
  else if param_type = sdk.MPTYPE_LOCALSTRING ∨ param_type = sdk.MPTYPE_DNUM
      ∨ param_type = sdk.MPTYPE_INUM then
    Outcome.returned 1
  else
    Outcome.returned 0

/-- The method `HspObjects::param_path_to_child_at` on a Param path with the
parameter type `param_type`. -/
def HspObjects.param_path_to_child_at (sdk : HspSdk) (api : HspDebugApi)
    (path : HspObjectPath) (param_type : Nat) (child_index : Nat) : Outcome HspObjectPath :=
  if param_type = sdk.MPTYPE_LOCALVAR then
    var_path_to_child_at sdk api path child_index
  else if param_type = sdk.MPTYPE_LOCALSTRING then
    Outcome.returned (HspObjectPath.Str path)
  else if param_type = sdk.MPTYPE_DNUM then
    Outcome.returned (HspObjectPath.Double path)
  else if param_type = sdk.MPTYPE_INUM then
    Outcome.returned (HspObjectPath.Int path)
  else
    Outcome.thrown "std::out_of_range"

/-- The static function `double_path_to_value` on the path `Double parent`. -/
def double_path_to_value (sdk : HspSdk) (api : HspDebugApi) (parent : HspObjectPath) :
    Outcome (Option Rat) :=
  match path_to_data sdk api parent with
  | Outcome.thrown e => Outcome.thrown e
  | Outcome.returned none => Outcome.returned none
  | Outcome.returned (some data) =>
    if data.type ≠ HspType.Double then
      Outcome.returned none
    else
      (api.data_to_double data).map some

/-- The method `HspObjects::double_path_to_value` on the path `Double parent`:
`value_or(HspDouble{})`. -/
def HspObjects.double_path_to_value (sdk : HspSdk) (api : HspDebugApi)
    (parent : HspObjectPath) : Outcome Rat :=
  (Knowbug.double_path_to_value sdk api parent).map (fun value => value.getD 0)

/-- The static function `int_path_to_value` on the path `Int parent`. -/
def int_path_to_value (sdk : HspSdk) (api : HspDebugApi) (parent : HspObjectPath) :
    Outcome (Option Int) :=
  match path_to_data sdk api parent with
  | Outcome.thrown e => Outcome.thrown e
  | Outcome.returned none => Outcome.returned none
  | Outcome.returned (some data) =>
    if data.type ≠ HspType.Int then
      Outcome.returned none
    else
      (api.data_to_int data).map some

/-- Constants for the examples: pairwise different parameter types, and the
system variable kinds 0 to 10. -/
def example_sdk : HspSdk :=
  { MPTYPE_LOCALVAR := 1, MPTYPE_LOCALSTRING := 6, MPTYPE_DNUM := 3, MPTYPE_INUM := 4,
    system_var_kinds := [0, 1, 2, 3, 4, 5, 6, 7, 8, 9, 10] }

/-- A debuggee for the examples: two static variables of type int with one
element each; the command of `STRUCTDAT` 7 has two parameters, the first of
type `MPTYPE_INUM` and the second of type `MPTYPE_DNUM`, and the call frame 0
is a call of it with its stack at the address 1000; the double at the address
1008 is one half, the int at the address 1000 is 42. -/
def example_api : HspDebugApi :=
  { static_var_count := 2
    static_vars := 100
    pval_flag := fun _ => HspType.Int
    PVal_cntElems := fun _ => 1
    PVal_getPtr := fun pval aptr => 10 * pval + aptr
    STRUCTDAT_params_size := fun struct_dat => if struct_dat = 7 then 2 else 0
    param_mptype := fun _ param_index => if param_index = 0 then 4 else 3
    param_offset := fun _ param_index => 8 * param_index
    read_ptr := fun _ => 0
    read_double := fun ptr => if ptr = 1008 then 1 / 2 else 0
    read_int := fun ptr => if ptr = 1000 then 42 else 0
    FlexValue_module := fun _ => 0
    flex_ptr := fun _ => 0
    call_frame_param_stack := fun id => if id = 0 then some ⟨7, 1000⟩ else none
    system_var_to_data := fun _ => Outcome.returned none }

/-- A call that `HspObjectListDelta::write_to` makes on its `StringWriter`. -/
inductive StringWriterCall where
  | cat (text : String)
  | cat_size (size : Nat)
  | cat_crlf
  deriving DecidableEq, Repr

/-- The method `HspObjectListDelta::kind_to_string`. -/
def HspObjectListDelta.kind_to_string (kind : DeltaKind) : String :=
  match kind with
  | DeltaKind.Insert => "+"
  | DeltaKind.Remove => "-"
  | DeltaKind.Update => "!"

/-- The constant `SPACES` of `HspObjectListDelta::write_to`. -/
def SPACES : String := "                "

/-- The method `HspObjectListDelta::write_to` as the calls it makes on the
writer; `SPACES.substr(0, depth_ * 2)` is the string of the first `depth_ * 2`
characters of `SPACES`, of all of them when there are fewer. -/
def HspObjectListDelta.write_to (self : HspObjectListDelta) : List StringWriterCall :=
  [ StringWriterCall.cat (HspObjectListDelta.kind_to_string self.kind),
    StringWriterCall.cat ",",
    StringWriterCall.cat_size self.object_id,
    StringWriterCall.cat ",",
    StringWriterCall.cat_size self.index,
    StringWriterCall.cat ",",
    StringWriterCall.cat (String.mk (SPACES.data.take (self.depth * 2))),
    StringWriterCall.cat self.name,
    StringWriterCall.cat ",",
    StringWriterCall.cat self.value,
    StringWriterCall.cat_crlf ]

/-- The indentation that `write_to` passes to the writer, the argument of its
seventh call. -/
def HspObjectListDelta.indent (self : HspObjectListDelta) : String :=
  String.mk (SPACES.data.take (self.depth * 2))

/-- Modelled from the spec: the class `StringWriter` is declared in
string_writer.h, which is not among the sources at hand. The writer holds the
text written so far; `cat` appends a text, `cat_size` appends a number in
decimal, and `cat_crlf` ends the line with a carriage return and a line feed
(the line of a delta is newline-terminated). -/
def StringWriter.call (w : String) (c : StringWriterCall) : String :=
  match c with
  | StringWriterCall.cat text => w ++ text
  | StringWriterCall.cat_size size => w ++ toString size
  | StringWriterCall.cat_crlf => w ++ String.mk [Char.ofNat 13, Char.ofNat 10]

/-- Modelled from the spec: the calls made on a `StringWriter` one after the
other, and `finish`, which gives the text written. -/
def StringWriter.finish (w : String) (calls : List StringWriterCall) : String :=
  calls.foldl StringWriter.call w

/-- Following the specification: the line of a delta without its line end,
`<kind>,<object_id>,<index>,<indent><name>,<value>` with an indentation of
`indent` spaces. -/
def spec_delta_line (symbol : String) (object_id index indent : Nat) (name value : String) :
    String :=
  symbol ++ "," ++ toString object_id ++ "," ++ toString index ++ ","
    ++ String.mk (List.replicate indent ' ') ++ name ++ "," ++ value

/-! ## The server -/

/-- The constant `WM_USER`. -/
def WM_USER : Int := 0x400

/-- The constant `KMTC_LOGMES`. -/
def KMTC_LOGMES : Int := WM_USER + 1003

/-- The constant `KMTC_STOPPED`. -/
def KMTC_STOPPED : Int := WM_USER + 1004

/-- The constant `KMTC_LOCATION`. -/
def KMTC_LOCATION : Int := WM_USER + 1005

/-- The constant `KMTC_SOURCE_PATH`. -/
def KMTC_SOURCE_PATH : Int := WM_USER + 1021

/-- The constant `KMTC_SOURCE_CODE`. -/
def KMTC_SOURCE_CODE : Int := WM_USER + 1022

/-- The constant `KMTC_LIST_UPDATE_OK`. -/
def KMTC_LIST_UPDATE_OK : Int := WM_USER + 1031

/-- The constant `KMTC_LIST_DETAILS_OK`. -/
def KMTC_LIST_DETAILS_OK : Int := WM_USER + 1032

/-- The class `Msg`. A `Utf8String` is a `String` here whose characters stand
for its code units, so that `size()` is the number of characters. -/
structure Msg where
  kind : Int
  wparam : Int
  lparam : Int
  text : String
  deriving DecidableEq, Repr

/-- A call of `SendMessage` to the client: the window, the three numbers, and
the text that the shared buffer holds for the client at the call. -/
structure SentMessage where
  hwnd : Nat
  kind : Int
  wparam : Int
  lparam : Int
  text : String
  deriving DecidableEq, Repr

/-- What the server reads from its surroundings: the compile-time switches
`_M_X64` and `HSP3_UTF8`, the object tree behind `HspObjects` and the bound on
the nesting of its traversal, the queries `source_file_to_full_path`,
`source_file_to_content`, `script_to_current_file` and `script_to_current_line`
of `HspObjects`, and the text that `HspObjectWriter::write_table_form` writes
for a path. -/
structure ServerEnv where
  M_X64 : Bool
  HSP3_UTF8 : Bool
  objects : HspObjects
  fuel : Nat
  source_file_to_full_path : Nat → Option String
  source_file_to_content : Nat → Option String
  script_to_current_file : Option Nat
  script_to_current_line : Nat
  write_table_form : HspObjectPath → String

/-- The class `KnowbugServerImpl` as far as sending goes: the view of the
server buffer is the content of the shared buffer (the character at each
offset), the window of the client is a number (0 is `NULL`), and `sent_` lists
the calls of `SendMessage` to the client so far, which the class does not
store. -/
structure KnowbugServerImpl where
  started_ : Bool
  server_buffer_view_opt_ : Option (Nat → Char)
  client_hwnd_opt_ : Option Nat
  send_queue_ : List Msg
  object_list_entity_ : HspObjectListEntity
  sent_ : List SentMessage

/-- The constructor of `KnowbugServerImpl`. -/
def KnowbugServerImpl.new : KnowbugServerImpl :=
  { started_ := false, server_buffer_view_opt_ := none, client_hwnd_opt_ := none,
    send_queue_ := [], object_list_entity_ := HspObjectListEntity.new, sent_ := [] }

/-- The two writes of `send` to the shared buffer: `memcpy` of the text and the
terminating NUL. -/
def buffer_write (data : Nat → Char) (text : String) : Nat → Char :=
  fun i =>
    if i < text.length then text.data.getD i (Char.ofNat 0)
    else if i = text.length then Char.ofNat 0
    else data i

/-- The method `KnowbugServerImpl::send` (the `assert` on an oversized text is
compiled out of a release build). -/
def KnowbugServerImpl.send (self : KnowbugServerImpl) (kind wparam lparam : Int)
    (text : String) : KnowbugServerImpl :=
  if text.length ≥ MEMORY_BUFFER_SIZE then
    self
  else
    match self.client_hwnd_opt_, self.server_buffer_view_opt_ with
    | some client_hwnd, some data =>
      { self with
        server_buffer_view_opt_ := some (buffer_write data text)
        sent_ := self.sent_ ++ [⟨client_hwnd, kind, wparam, lparam, text⟩] }
    | _, _ =>
      { self with send_queue_ := self.send_queue_ ++ [⟨kind, wparam, lparam, text⟩] }

/-- The method `KnowbugServerImpl::send_location`. -/
def KnowbugServerImpl.send_location (env : ServerEnv) (self : KnowbugServerImpl)
    (kind : Int) : KnowbugServerImpl :=
  let file_id := env.script_to_current_file.getD 0
  let line_index := env.script_to_current_line
  self.send kind file_id line_index ""

/-- The method `KnowbugServerImpl::debuggee_did_stop`. -/
def KnowbugServerImpl.debuggee_did_stop (env : ServerEnv) (self : KnowbugServerImpl) :
    KnowbugServerImpl :=
  self.send_location env KMTC_STOPPED

/-- The methods `client_did_terminate`, `client_did_step_continue`,
`client_did_step_pause`, `client_did_step_in`, `client_did_step_over` and
`client_did_step_out`: they post a quit message or change the run mode of the
debuggee and touch its windows, and send nothing to the client. -/
def KnowbugServerImpl.client_did_step (self : KnowbugServerImpl) : KnowbugServerImpl :=
  self

/-- The method `KnowbugServerImpl::client_did_location_update`. -/
def KnowbugServerImpl.client_did_location_update (env : ServerEnv)
    (self : KnowbugServerImpl) : KnowbugServerImpl :=
  self.send_location env KMTC_LOCATION

/-- The method `KnowbugServerImpl::client_did_source`. -/
def KnowbugServerImpl.client_did_source (env : ServerEnv) (self : KnowbugServerImpl)
    (source_file_id : Nat) : KnowbugServerImpl :=
  let s1 :=
    match env.source_file_to_full_path source_file_id with
    | some full_path => self.send KMTC_SOURCE_PATH source_file_id 0 full_path
    | none => self
  match env.source_file_to_content source_file_id with
  | some content => s1.send KMTC_SOURCE_CODE source_file_id 0 content
  | none => s1

/-- The method `KnowbugServerImpl::client_did_list_update`; `none` when the
traversal of the object tree ran out of fuel. -/
def KnowbugServerImpl.client_did_list_update (env : ServerEnv) (self : KnowbugServerImpl) :
    Option KnowbugServerImpl :=
  match self.object_list_entity_.update env.objects env.fuel with
  | none => none
  | some r =>
    let text := StringWriter.finish "" (r.1.flatMap HspObjectListDelta.write_to)
    some (({ self with object_list_entity_ := r.2 }).send KMTC_LIST_UPDATE_OK 0 0 text)

/-- The method `KnowbugServerImpl::client_did_list_toggle_expand`. -/
def KnowbugServerImpl.client_did_list_toggle_expand (env : ServerEnv)
    (self : KnowbugServerImpl) (object_id : Int) : Option KnowbugServerImpl :=
  if object_id < 0 then
    some self
  else
    KnowbugServerImpl.client_did_list_update env
      { self with
        object_list_entity_ := self.object_list_entity_.toggle_expand object_id.toNat }

/-- The method `KnowbugServerImpl::client_did_list_details`. -/
def KnowbugServerImpl.client_did_list_details (env : ServerEnv) (self : KnowbugServerImpl)
    (object_id : Int) : KnowbugServerImpl :=
  if object_id < 0 then
    self
  else
    match self.object_list_entity_.object_id_to_path object_id.toNat with
    | none => self.send KMTC_LIST_DETAILS_OK 0 0 ""
    | some path => self.send KMTC_LIST_DETAILS_OK object_id 0 (env.write_table_form path)

/-- An environment for the examples: the debuggee of the scenario, a source
file 0 with a path and a content, and a table form that is the text `t` for
every path. -/
def example_env : ServerEnv :=
  { M_X64 := false, HSP3_UTF8 := false, objects := scenario_objects, fuel := 2,
    source_file_to_full_path := fun id => if id = 0 then some "main.hsp" else none
    source_file_to_content := fun id => if id = 0 then some "mes 1" else none
    script_to_current_file := some 0
    script_to_current_line := 3
    write_table_form := fun _ => "t" }

/-- A server for the examples: started, greeted by the client window 5, and
its registry tracks `A` of the scenario under the id 1. -/
def example_server : KnowbugServerImpl :=
  { started_ := true, server_buffer_view_opt_ := some (fun _ => Char.ofNat 0),
    client_hwnd_opt_ := some 5, send_queue_ := [], object_list_entity_ := scenario_entity,
    sent_ := [] }

/-- The number of steps from a path up to the root. -/
def HspObjectPath.depth : HspObjectPath → Nat
  | Root => 0
  | Module p _ => p.depth + 1
  | StaticVar p _ => p.depth + 1
  | Element p _ => p.depth + 1
  | Param p _ _ => p.depth + 1
  | Label p => p.depth + 1
  | Str p => p.depth + 1
  | Double p => p.depth + 1
  | Int p => p.depth + 1
  | Flex p => p.depth + 1
  | SystemVar p _ => p.depth + 1
  | CallStack p => p.depth + 1
  | CallFrame p _ => p.depth + 1
  | Log p => p.depth + 1
  | Script p => p.depth + 1
  | General p _ => p.depth + 1
  | Unavailable p _ => p.depth + 1
  | Unknown p => p.depth + 1

theorem eraseIdx_at_length {α : Type} (l : List α) (a : α) (r : List α) (k : Nat)
    (hk : l.length = k) : (l ++ a :: r).eraseIdx k = l ++ r := by
  subst hk
  induction l with
  | nil => simp
  | cons x xs ih => simpa using ih

theorem insertIdx_at_length {α : Type} (l : List α) (a : α) (r : List α) (k : Nat)
    (hk : l.length = k) : (l ++ r).insertIdx k a = l ++ a :: r := by
  subst hk
  induction l with
  | nil => simp
  | cons x xs ih => simpa using ih

theorem set_at_length {α : Type} (l : List α) (a b : α) (r : List α) (k : Nat)
    (hk : l.length = k) : (l ++ b :: r).set k a = l ++ a :: r := by
  subst hk
  induction l with
  | nil => simp
  | cons x xs ih => simp [ih]

theorem item_at_eq_getElem (l : HspObjectList) (i : Nat) (h : i < l.length) :
    HspObjectList.item_at l i = l[i] := by
  unfold HspObjectList.item_at
  exact List.getD_eq_getElem l default h

theorem drop_eq_item_at_cons (l : HspObjectList) (i : Nat) (h : i < l.length) :
    l.drop i = HspObjectList.item_at l i :: l.drop (i + 1) := by
  rw [item_at_eq_getElem l i h]
  exact List.drop_eq_getElem_cons h

theorem take_succ_eq_item_at (l : HspObjectList) (i : Nat) (h : i < l.length) :
    l.take (i + 1) = l.take i ++ [HspObjectList.item_at l i] := by
  rw [item_at_eq_getElem l i h, List.take_succ, List.getElem?_eq_getElem h]
  rfl

theorem equals_iff (a b : HspObjectListItem) : a.equals b = true ↔ a = b := by
  cases a; cases b
  simp [HspObjectListItem.equals, and_assoc]


theorem row_new_insert (i : Nat) (item : HspObjectListItem) :
    (HspObjectListDelta.new_insert i item).row = item.row := rfl

theorem row_new_update (i : Nat) (item : HspObjectListItem) :
    (HspObjectListDelta.new_update i item).row = item.row := rfl

theorem spec_apply_deltas_cons (rows : List DeltaRow) (d : HspObjectListDelta)
    (ds : List HspObjectListDelta) :
    spec_apply_deltas rows (d :: ds) = spec_apply_deltas (spec_apply_delta rows d) ds := rfl

theorem diff_merge_roundtrip (S T : HspObjectList) (sd td : List Bool) :
    ∀ (fuel si ti : Nat) (diff d : List HspObjectListDelta),
      si ≤ S.length → ti ≤ T.length →
      (S.length - si) + (T.length - ti) ≤ fuel →
      diff_merge S T sd td fuel si ti diff = some d →
      ∃ rest, d = diff ++ rest ∧
        spec_apply_deltas
          ((T.take ti).map HspObjectListItem.row ++ (S.drop si).map HspObjectListItem.row) rest
          = T.map HspObjectListItem.row := by
  intro fuel
  induction fuel with
  | zero =>
    intro si ti diff d hsi hti hfuel h
    have h1 : si = S.length := by omega
    have h2 : ti = T.length := by omega
    subst h1 h2
    simp only [diff_merge, Option.some.injEq] at h
    exact ⟨[], by simp [h], by simp [spec_apply_deltas]⟩
  | succ fuel ih =>
    intro si ti diff d hsi hti hfuel h
    rw [diff_merge] at h
    by_cases hloop : si < S.length ∨ ti < T.length
    · rw [if_pos hloop] at h
      by_cases hrem : ti = T.length ∨ (si < S.length ∧ sd.getD si false = false)
      · rw [if_pos hrem] at h
        have hsi' : si < S.length := by
          rcases hrem with h1 | h1
          · rcases hloop with h2 | h2
            · exact h2
            · omega
          · exact h1.1
        obtain ⟨rest, hd, happ⟩ := ih (si + 1) ti _ d hsi' hti (by omega) h
        refine ⟨HspObjectListDelta.new_remove (HspObjectList.item_at S si).object_id ti :: rest,
          by simp [hd], ?_⟩
        rw [spec_apply_deltas_cons, ← happ, drop_eq_item_at_cons S si hsi']
        congr 1
        have hlen : ((T.take ti).map HspObjectListItem.row).length = ti := by
          simp [Nat.min_eq_left hti]
        simp only [spec_apply_delta, HspObjectListDelta.new_remove, List.map_cons]
        exact eraseIdx_at_length _ _ _ _ hlen
      · rw [if_neg hrem] at h
        have hti1 : ti ≠ T.length := fun hc => hrem (Or.inl hc)
        have hti' : ti < T.length := by omega
        by_cases hins : si = S.length ∨ (ti < T.length ∧ td.getD ti false = false)
        · rw [if_pos hins] at h
          obtain ⟨rest, hd, happ⟩ := ih si (ti + 1) _ d hsi hti' (by omega) h
          refine ⟨HspObjectListDelta.new_insert ti (HspObjectList.item_at T ti) :: rest,
            by simp [hd], ?_⟩
          rw [spec_apply_deltas_cons, ← happ, take_succ_eq_item_at T ti hti']
          congr 1
          have hlen : ((T.take ti).map HspObjectListItem.row).length = ti := by
            simp [Nat.min_eq_left hti]
          have hk : (HspObjectListDelta.new_insert ti (HspObjectList.item_at T ti)).kind
              = DeltaKind.Insert := rfl
          have hi : (HspObjectListDelta.new_insert ti (HspObjectList.item_at T ti)).index = ti := rfl
          simp only [spec_apply_delta, hk, hi, row_new_insert, List.map_append,
            List.map_cons, List.map_nil, List.append_assoc, List.singleton_append]
          exact insertIdx_at_length _ _ _ _ hlen
        · rw [if_neg hins] at h
          have hsi1 : si ≠ S.length := fun hc => hins (Or.inl hc)
          have hsi' : si < S.length := by omega
          by_cases hid : (HspObjectList.item_at S si).object_id = (HspObjectList.item_at T ti).object_id
          · rw [if_pos hid] at h
            have hlen : ((T.take ti).map HspObjectListItem.row).length = ti := by
              simp [Nat.min_eq_left hti]
            by_cases heq : (HspObjectList.item_at S si).equals (HspObjectList.item_at T ti) = true
            · rw [if_pos heq] at h
              obtain ⟨rest, hd, happ⟩ := ih (si + 1) (ti + 1) _ d hsi' hti' (by omega) h
              refine ⟨rest, hd, ?_⟩
              rw [← happ, take_succ_eq_item_at T ti hti', drop_eq_item_at_cons S si hsi',
                (equals_iff _ _).1 heq]
              simp
            · rw [if_neg heq] at h
              obtain ⟨rest, hd, happ⟩ := ih (si + 1) (ti + 1) _ d hsi' hti' (by omega) h
              refine ⟨HspObjectListDelta.new_update ti (HspObjectList.item_at T ti) :: rest,
                by simp [hd], ?_⟩
              rw [spec_apply_deltas_cons, ← happ, take_succ_eq_item_at T ti hti',
                drop_eq_item_at_cons S si hsi']
              congr 1
              have hk : (HspObjectListDelta.new_update ti (HspObjectList.item_at T ti)).kind
                  = DeltaKind.Update := rfl
              have hi : (HspObjectListDelta.new_update ti (HspObjectList.item_at T ti)).index = ti :=
                rfl
              simp only [spec_apply_delta, hk, hi, row_new_update, List.map_append,
                List.map_cons, List.map_nil, List.append_assoc, List.singleton_append]
              exact set_at_length _ _ _ _ _ hlen
          · rw [if_neg hid] at h
            exact absurd h (by simp)
    · rw [if_neg hloop] at h
      have h1 : si = S.length := by omega
      have h2 : ti = T.length := by omega
      subst h1 h2
      simp only [Option.some.injEq] at h
      exact ⟨[], by simp [h], by simp [spec_apply_deltas]⟩

theorem getD_set_self (l : List Bool) (i : Nat) (h : i < l.length) :
    (l.set i true).getD i false = true := by
  simp [List.getD_eq_getElem?_getD, List.getElem?_set, h]

theorem getD_set_other (l : List Bool) (i j : Nat) (b : Bool) (h : i ≠ j) :
    (l.set i b).getD j false = l.getD j false := by
  simp [List.getD_eq_getElem?_getD, List.getElem?_set, h]

theorem mem_ids_iff (l : HspObjectList) (x : Nat) :
    x ∈ l.map HspObjectListItem.object_id ↔ ∃ i, i < l.length ∧ (HspObjectList.item_at l i).object_id = x := by
  constructor
  · intro h
    obtain ⟨r, hr, hx⟩ := List.mem_map.1 h
    obtain ⟨i, hi, hri⟩ := List.getElem_of_mem hr
    exact ⟨i, hi, by rw [item_at_eq_getElem l i hi, hri, hx]⟩
  · rintro ⟨i, hi, hx⟩
    rw [item_at_eq_getElem l i hi] at hx
    exact List.mem_map.2 ⟨l[i], List.getElem_mem _, hx⟩

theorem item_at_id_inj (l : HspObjectList) (hl : (l.map HspObjectListItem.object_id).Nodup)
    (i j : Nat) (hi : i < l.length) (hj : j < l.length)
    (h : (HspObjectList.item_at l i).object_id = (HspObjectList.item_at l j).object_id) : i = j := by
  rw [item_at_eq_getElem l i hi, item_at_eq_getElem l j hj] at h
  have hi' : i < (l.map HspObjectListItem.object_id).length := by simpa using hi
  have hj' : j < (l.map HspObjectListItem.object_id).length := by simpa using hj
  have := (@List.Nodup.getElem_inj_iff _ _ hl i hi' j hj').1 (by simpa using h)
  exact this

theorem diff_match_target_spec (sid : Nat) (T : HspObjectList)
    (hT : (T.map HspObjectListItem.object_id).Nodup) :
    ∀ (n ti : Nat) (td : List Bool), ti + n = T.length → td.length = T.length →
      (∀ j, j < T.length → td.getD j false = true → (HspObjectList.item_at T j).object_id ≠ sid) →
      (diff_match_target sid T n ti td).1.length = T.length ∧
      (∀ j, j < T.length →
        ((diff_match_target sid T n ti td).1.getD j false = true ↔
          (td.getD j false = true ∨ (ti ≤ j ∧ (HspObjectList.item_at T j).object_id = sid)))) ∧
      ((diff_match_target sid T n ti td).2 = true ↔
        ∃ j, ti ≤ j ∧ j < T.length ∧ (HspObjectList.item_at T j).object_id = sid) := by
  intro n
  induction n with
  | zero =>
    intro ti td hn hlen hdone
    simp only [diff_match_target]
    refine ⟨hlen, ?_, ?_⟩
    · intro j hj
      constructor
      · intro h; exact Or.inl h
      · rintro (h | ⟨h, _⟩)
        · exact h
        · omega
    · constructor
      · intro h; exact absurd h (by simp)
      · rintro ⟨j, h1, h2, _⟩; omega
  | succ n ih =>
    intro ti td hn hlen hdone
    have hti : ti < T.length := by omega
    rw [diff_match_target]
    by_cases hd : td.getD ti false = true
    · rw [if_pos hd]
      obtain ⟨h1, h2, h3⟩ := ih (ti + 1) td (by omega) hlen hdone
      have hne := hdone ti hti hd
      refine ⟨h1, ?_, ?_⟩
      · intro j hj
        rw [h2 j hj]
        constructor
        · rintro (h | ⟨h, h'⟩)
          · exact Or.inl h
          · exact Or.inr ⟨by omega, h'⟩
        · rintro (h | ⟨h, h'⟩)
          · exact Or.inl h
          · by_cases hjt : j = ti
            · subst hjt; exact absurd h' hne
            · exact Or.inr ⟨by omega, h'⟩
      · rw [h3]
        constructor
        · rintro ⟨j, a, b, c⟩; exact ⟨j, by omega, b, c⟩
        · rintro ⟨j, a, b, c⟩
          by_cases hjt : j = ti
          · subst hjt; exact absurd c hne
          · exact ⟨j, by omega, b, c⟩
    · rw [if_neg hd]
      by_cases hs : sid = (HspObjectList.item_at T ti).object_id
      · rw [if_pos hs]
        refine ⟨by simp [hlen], ?_, ?_⟩
        · intro j hj
          by_cases hjt : ti = j
          · subst hjt
            simp only [getD_set_self td ti (by omega), true_iff]
            exact Or.inr ⟨le_refl _, hs.symm⟩
          · simp only [getD_set_other td ti j true hjt]
            constructor
            · intro h; exact Or.inl h
            · rintro (h | ⟨_, h'⟩)
              · exact h
              · exact absurd (item_at_id_inj T hT ti j hti hj (by rw [← hs, h'])) hjt
        · simp only [true_iff]
          exact ⟨ti, le_refl _, hti, hs.symm⟩
      · rw [if_neg hs]
        obtain ⟨h1, h2, h3⟩ := ih (ti + 1) td (by omega) hlen hdone
        refine ⟨h1, ?_, ?_⟩
        · intro j hj
          rw [h2 j hj]
          constructor
          · rintro (h | ⟨h, h'⟩)
            · exact Or.inl h
            · exact Or.inr ⟨by omega, h'⟩
          · rintro (h | ⟨h, h'⟩)
            · exact Or.inl h
            · by_cases hjt : j = ti
              · subst hjt; exact absurd h'.symm hs
              · exact Or.inr ⟨by omega, h'⟩
        · rw [h3]
          constructor
          · rintro ⟨j, a, b, c⟩; exact ⟨j, by omega, b, c⟩
          · rintro ⟨j, a, b, c⟩
            by_cases hjt : j = ti
            · subst hjt; exact absurd c.symm hs
            · exact ⟨j, by omega, b, c⟩

theorem diff_match_spec (S T : HspObjectList)
    (hS : (S.map HspObjectListItem.object_id).Nodup)
    (hT : (T.map HspObjectListItem.object_id).Nodup) :
    ∀ (n si : Nat) (sd td : List Bool), si + n = S.length →
      sd.length = S.length → td.length = T.length →
      (∀ i, i < S.length → (sd.getD i false = true ↔
        (i < si ∧ (HspObjectList.item_at S i).object_id ∈ T.map HspObjectListItem.object_id))) →
      (∀ j, j < T.length → (td.getD j false = true ↔
        ∃ i, i < si ∧ (HspObjectList.item_at S i).object_id = (HspObjectList.item_at T j).object_id)) →
      (diff_match S T n si sd td).1.length = S.length ∧
      (diff_match S T n si sd td).2.length = T.length ∧
      (∀ i, i < S.length → ((diff_match S T n si sd td).1.getD i false = true ↔
        (HspObjectList.item_at S i).object_id ∈ T.map HspObjectListItem.object_id)) ∧
      (∀ j, j < T.length → ((diff_match S T n si sd td).2.getD j false = true ↔
        (HspObjectList.item_at T j).object_id ∈ S.map HspObjectListItem.object_id)) := by
  intro n
  induction n with
  | zero =>
    intro si sd td hn hls hlt hsd htd
    simp only [diff_match]
    refine ⟨hls, hlt, ?_, ?_⟩
    · intro i hi
      rw [hsd i hi]
      constructor
      · exact fun h => h.2
      · exact fun h => ⟨by omega, h⟩
    · intro j hj
      rw [htd j hj, mem_ids_iff]
      constructor
      · rintro ⟨i, h1, h2⟩; exact ⟨i, by omega, h2⟩
      · rintro ⟨i, h1, h2⟩; exact ⟨i, by omega, h2⟩
  | succ n ih =>
    intro si sd td hn hls hlt hsd htd
    have hsi : si < S.length := by omega
    have hnd : ¬ sd.getD si false = true := by
      rw [hsd si hsi]; intro h; omega
    rw [diff_match, if_neg hnd]
    have hpre : ∀ j, j < T.length → td.getD j false = true →
        (HspObjectList.item_at T j).object_id ≠ (HspObjectList.item_at S si).object_id := by
      intro j hj hd hc
      obtain ⟨i, h1, h2⟩ := (htd j hj).1 hd
      have := item_at_id_inj S hS i si (by omega) hsi (by rw [h2, hc])
      omega
    obtain ⟨h1, h2, h3⟩ := diff_match_target_spec (HspObjectList.item_at S si).object_id T hT
      T.length 0 td (by omega) hlt hpre
    have hfound : (diff_match_target (HspObjectList.item_at S si).object_id T T.length 0 td).2 = true ↔
        (HspObjectList.item_at S si).object_id ∈ T.map HspObjectListItem.object_id := by
      rw [h3, mem_ids_iff]
      constructor
      · rintro ⟨j, _, a, b⟩; exact ⟨j, a, b⟩
      · rintro ⟨j, a, b⟩; exact ⟨j, Nat.zero_le _, a, b⟩
    have htd' : ∀ j, j < T.length →
        ((diff_match_target (HspObjectList.item_at S si).object_id T T.length 0 td).1.getD j false = true ↔
        ∃ i, i < si + 1 ∧ (HspObjectList.item_at S i).object_id = (HspObjectList.item_at T j).object_id) := by
      intro j hj
      rw [h2 j hj, htd j hj]
      constructor
      · rintro (⟨i, a, b⟩ | ⟨_, b⟩)
        · exact ⟨i, by omega, b⟩
        · exact ⟨si, by omega, b.symm⟩
      · rintro ⟨i, a, b⟩
        by_cases his : i = si
        · subst his; exact Or.inr ⟨Nat.zero_le _, b.symm⟩
        · exact Or.inl ⟨i, by omega, b⟩
    simp only []
    by_cases hf : (diff_match_target (HspObjectList.item_at S si).object_id T T.length 0 td).2 = true
    · rw [if_pos hf]
      apply ih (si + 1) _ _ (by omega) (by simp [hls]) h1 _ htd'
      intro i hi
      by_cases his : si = i
      · subst his
        simp only [getD_set_self sd si (by omega), true_iff]
        exact ⟨by omega, hfound.1 hf⟩
      · rw [getD_set_other sd si i true his, hsd i hi]
        constructor
        · rintro ⟨a, b⟩; exact ⟨by omega, b⟩
        · rintro ⟨a, b⟩; exact ⟨by omega, b⟩
    · rw [if_neg hf]
      apply ih (si + 1) _ _ (by omega) hls h1 _ htd'
      intro i hi
      rw [hsd i hi]
      constructor
      · rintro ⟨a, b⟩; exact ⟨by omega, b⟩
      · rintro ⟨a, b⟩
        by_cases his : i = si
        · subst his; exact absurd (hfound.2 b) hf
        · exact ⟨by omega, b⟩

theorem getD_replicate_false (n j : Nat) : (List.replicate n false).getD j false = false := by
  by_cases h : j < n
  · simp [List.getD_eq_getElem?_getD, List.getElem?_replicate, h]
  · simp [List.getD_eq_getElem?_getD, List.getElem?_replicate, h]

theorem diff_done_spec (S T : HspObjectList)
    (hS : (S.map HspObjectListItem.object_id).Nodup)
    (hT : (T.map HspObjectListItem.object_id).Nodup) :
    (diff_done S T).1.length = S.length ∧ (diff_done S T).2.length = T.length ∧
    (∀ i, i < S.length → ((diff_done S T).1.getD i false =
      decide ((HspObjectList.item_at S i).object_id ∈ T.map HspObjectListItem.object_id))) ∧
    (∀ j, j < T.length → ((diff_done S T).2.getD j false =
      decide ((HspObjectList.item_at T j).object_id ∈ S.map HspObjectListItem.object_id))) := by
  obtain ⟨h1, h2, h3, h4⟩ := diff_match_spec S T hS hT S.length 0
    (List.replicate S.length false) (List.replicate T.length false) (by omega) (by simp) (by simp)
    (by intro i _; simp [getD_replicate_false]) (by intro j _; simp [getD_replicate_false])
  refine ⟨h1, h2, ?_, ?_⟩
  · intro i hi
    have := h3 i hi
    unfold diff_done
    rw [Bool.eq_iff_iff, this]
    simp
  · intro j hj
    have := h4 j hj
    unfold diff_done
    rw [Bool.eq_iff_iff, this]
    simp

theorem diff_merge_eq_merge_rows (S T : HspObjectList) (sd td : List Bool)
    (ps pt : HspObjectListItem → Bool)
    (hps : ∀ i, i < S.length → sd.getD i false = ps (HspObjectList.item_at S i))
    (hpt : ∀ j, j < T.length → td.getD j false = pt (HspObjectList.item_at T j)) :
    ∀ (fuel si ti : Nat) (diff : List HspObjectListDelta),
      si ≤ S.length → ti ≤ T.length →
      (S.length - si) + (T.length - ti) ≤ fuel →
      diff_merge S T sd td fuel si ti diff = merge_rows ps pt (S.drop si) (T.drop ti) ti diff := by
  intro fuel
  induction fuel with
  | zero =>
    intro si ti diff hsi hti hfuel
    have h1 : si = S.length := by omega
    have h2 : ti = T.length := by omega
    subst h1 h2
    simp [diff_merge, merge_rows]
  | succ fuel ih =>
    intro si ti diff hsi hti hfuel
    rw [diff_merge]
    by_cases hs : si < S.length
    · by_cases ht : ti < T.length
      · rw [if_pos (Or.inl hs), drop_eq_item_at_cons S si hs, drop_eq_item_at_cons T ti ht, merge_rows,
          ← hps si hs, ← hpt ti ht]
        by_cases h1 : sd.getD si false = false
        · rw [if_pos (Or.inr ⟨hs, h1⟩), if_pos h1, ih (si + 1) ti _ hs hti (by omega),
            drop_eq_item_at_cons T ti ht]
        · have hn1 : ¬ (ti = T.length ∨ (si < S.length ∧ sd.getD si false = false)) := by
            rintro (h | h)
            · omega
            · exact h1 h.2
          rw [if_neg hn1, if_neg h1]
          by_cases h2 : td.getD ti false = false
          · rw [if_pos (Or.inr ⟨ht, h2⟩), if_pos h2, ih si (ti + 1) _ hsi ht (by omega),
              drop_eq_item_at_cons S si hs]
          · have hn2 : ¬ (si = S.length ∨ (ti < T.length ∧ td.getD ti false = false)) := by
              rintro (h | h)
              · omega
              · exact h2 h.2
            rw [if_neg hn2, if_neg h2]
            by_cases h3 : (HspObjectList.item_at S si).object_id = (HspObjectList.item_at T ti).object_id
            · rw [if_pos h3, if_pos h3]
              by_cases h4 : (HspObjectList.item_at S si).equals (HspObjectList.item_at T ti) = true
              · rw [if_pos h4, if_pos h4, ih (si + 1) (ti + 1) _ hs ht (by omega)]
              · rw [if_neg h4, if_neg h4, ih (si + 1) (ti + 1) _ hs ht (by omega)]
            · rw [if_neg h3, if_neg h3]
      · have ht' : ti = T.length := by omega
        rw [if_pos (Or.inl hs), if_pos (Or.inl ht'), ih (si + 1) ti _ hs hti (by omega),
          drop_eq_item_at_cons S si hs]
        subst ht'
        simp [merge_rows]
    · have hs' : si = S.length := by omega
      by_cases ht : ti < T.length
      · have hn1 : ¬ (ti = T.length ∨ (si < S.length ∧ sd.getD si false = false)) := by
          rintro (h | h)
          · omega
          · omega
        rw [if_pos (Or.inr ht), if_neg hn1, if_pos (Or.inl hs'),
          ih si (ti + 1) _ hsi ht (by omega), drop_eq_item_at_cons T ti ht]
        subst hs'
        simp [merge_rows]
      · have ht' : ti = T.length := by omega
        have hn : ¬ (si < S.length ∨ ti < T.length) := by omega
        rw [if_neg hn]
        subst hs' ht'
        simp [merge_rows]

theorem mem_of_pair_sublist_right {a b : Nat} {l : List Nat} (h : [a, b].Sublist l) : b ∈ l :=
  h.subset (by simp)

theorem mem_of_pair_sublist_left {a b : Nat} {l : List Nat} (h : [a, b].Sublist l) : a ∈ l :=
  h.subset (by simp)

theorem merge_rows_reorder (ps pt : HspObjectListItem → Bool) (a b : Nat) :
    ∀ (n : Nat) (ss ts : List HspObjectListItem) (ti : Nat) (diff : List HspObjectListDelta),
      ss.length + ts.length ≤ n →
      (ss.map HspObjectListItem.object_id).Nodup →
      (ts.map HspObjectListItem.object_id).Nodup →
      (∀ s, s ∈ ss → (ps s = true ↔ s.object_id ∈ ts.map HspObjectListItem.object_id)) →
      (∀ t, t ∈ ts → (pt t = true ↔ t.object_id ∈ ss.map HspObjectListItem.object_id)) →
      [a, b].Sublist (ss.map HspObjectListItem.object_id) →
      [b, a].Sublist (ts.map HspObjectListItem.object_id) →
      merge_rows ps pt ss ts ti diff = none := by
  intro n
  induction n with
  | zero =>
    intro ss ts ti diff hn _ _ _ _ hab _
    have : ss = [] := List.length_eq_zero.1 (by omega)
    subst this
    simp at hab
  | succ n ih =>
    intro ss ts ti diff hn hS hT hps hpt hab hba
    cases ss with
    | nil => simp at hab
    | cons s ss =>
      cases ts with
      | nil => simp at hba
      | cons t ts =>
        simp only [List.map_cons, List.nodup_cons] at hS hT
        simp only [List.length_cons] at hn
        rw [merge_rows]
        by_cases h1 : ps s = false
        · rw [if_pos h1]
          have hs_not : s.object_id ∉ (t :: ts).map HspObjectListItem.object_id := by
            intro hc
            have := (hps s (List.mem_cons_self _ _)).2 hc
            rw [h1] at this
            exact absurd this (by simp)
          have ha : a ∈ (t :: ts).map HspObjectListItem.object_id :=
            mem_of_pair_sublist_right hba
          have hab' : [a, b].Sublist (ss.map HspObjectListItem.object_id) := by
            simp only [List.map_cons] at hab
            cases hab with
            | cons _ h => exact h
            | cons₂ _ h => exact absurd ha hs_not
          apply ih ss (t :: ts) _ _ (by simp only [List.length_cons]; omega) hS.2
            (by simpa using hT) _ _ hab' hba
          · intro s' hs'
            exact hps s' (List.mem_cons_of_mem _ hs')
          · intro t' ht'
            rw [hpt t' ht']
            simp only [List.map_cons, List.mem_cons]
            constructor
            · rintro (h | h)
              · exfalso
                apply hs_not
                rw [← h]
                exact List.mem_map_of_mem _ ht'
              · exact h
            · exact fun h => Or.inr h
        · rw [if_neg h1]
          have h1' : ps s = true := by simpa using h1
          by_cases h2 : pt t = false
          · rw [if_pos h2]
            have ht_not : t.object_id ∉ (s :: ss).map HspObjectListItem.object_id := by
              intro hc
              have := (hpt t (List.mem_cons_self _ _)).2 hc
              rw [h2] at this
              exact absurd this (by simp)
            have hb : b ∈ (s :: ss).map HspObjectListItem.object_id :=
              mem_of_pair_sublist_right hab
            have hba' : [b, a].Sublist (ts.map HspObjectListItem.object_id) := by
              simp only [List.map_cons] at hba
              cases hba with
              | cons _ h => exact h
              | cons₂ _ h => exact absurd hb ht_not
            apply ih (s :: ss) ts _ _ (by simp only [List.length_cons]; omega)
              (by simpa using hS) hT.2 _ _ hab hba'
            · intro s' hs'
              rw [hps s' hs']
              simp only [List.map_cons, List.mem_cons]
              constructor
              · rintro (h | h)
                · exfalso
                  apply ht_not
                  rw [← h]
                  exact List.mem_map_of_mem _ hs'
                · exact h
              · exact fun h => Or.inr h
            · intro t' ht'
              exact hpt t' (List.mem_cons_of_mem _ ht')
          · rw [if_neg h2]
            by_cases h3 : s.object_id = t.object_id
            · rw [if_pos h3]
              have hrec : ∀ diff', merge_rows ps pt ss ts (ti + 1) diff' = none := by
                intro diff'
                simp only [List.map_cons] at hab hba
                have hab' : [a, b].Sublist (ss.map HspObjectListItem.object_id) := by
                  cases hab with
                  | cons _ h => exact h
                  | cons₂ _ h =>
                    exfalso
                    have ha : s.object_id ∈ ts.map HspObjectListItem.object_id := by
                      cases hba with
                      | cons _ h' => exact mem_of_pair_sublist_right h'
                      | cons₂ _ h' => exact h'.subset (by simp)
                    rw [h3] at ha
                    exact hT.1 ha
                have hba' : [b, a].Sublist (ts.map HspObjectListItem.object_id) := by
                  cases hba with
                  | cons _ h => exact h
                  | cons₂ _ h =>
                    exfalso
                    have hb : t.object_id ∈ ss.map HspObjectListItem.object_id :=
                      mem_of_pair_sublist_right hab'
                    rw [← h3] at hb
                    exact hS.1 hb
                apply ih ss ts _ _ (by omega) hS.2 hT.2 _ _ hab' hba'
                · intro s' hs'
                  rw [hps s' (List.mem_cons_of_mem _ hs')]
                  simp only [List.map_cons, List.mem_cons]
                  constructor
                  · rintro (h | h)
                    · exfalso
                      apply hS.1
                      rw [h3, ← h]
                      exact List.mem_map_of_mem _ hs'
                    · exact h
                  · exact fun h => Or.inr h
                · intro t' ht'
                  rw [hpt t' (List.mem_cons_of_mem _ ht')]
                  simp only [List.map_cons, List.mem_cons]
                  constructor
                  · rintro (h | h)
                    · exfalso
                      apply hT.1
                      rw [← h3, ← h]
                      exact List.mem_map_of_mem _ ht'
                    · exact h
                  · exact fun h => Or.inr h
              by_cases h4 : s.equals t = true
              · rw [if_pos h4]; exact hrec _
              · rw [if_neg h4]; exact hrec _
            · rw [if_neg h3]

theorem diff_merge_result_eq (S T : HspObjectList)
    (hS : (S.map HspObjectListItem.object_id).Nodup)
    (hT : (T.map HspObjectListItem.object_id).Nodup) (diff : List HspObjectListDelta) :
    diff_merge_result S T diff =
      merge_rows (fun r => decide (r.object_id ∈ T.map HspObjectListItem.object_id))
        (fun r => decide (r.object_id ∈ S.map HspObjectListItem.object_id)) S T 0 diff := by
  obtain ⟨_, _, h3, h4⟩ := diff_done_spec S T hS hT
  unfold diff_merge_result
  rw [diff_merge_eq_merge_rows S T _ _
    (fun r => decide (r.object_id ∈ T.map HspObjectListItem.object_id))
    (fun r => decide (r.object_id ∈ S.map HspObjectListItem.object_id)) h3 h4 _ 0 0 diff
    (Nat.zero_le _) (Nat.zero_le _) (by omega)]
  simp

theorem sublist_pair_of_getElem? (l : List Nat) :
    ∀ (i j : Nat) (a b : Nat), i < j → l[i]? = some a → l[j]? = some b → [a, b].Sublist l := by
  induction l with
  | nil => intro i j a b _ h; simp at h
  | cons x xs ih =>
    intro i j a b hij hi hj
    cases j with
    | zero => omega
    | succ j =>
      simp only [List.getElem?_cons_succ] at hj
      cases i with
      | zero =>
        simp only [List.getElem?_cons_zero, Option.some.injEq] at hi
        subst hi
        have hb : b ∈ xs := List.mem_iff_getElem?.2 ⟨j, hj⟩
        exact List.Sublist.cons₂ _ (List.singleton_sublist.2 hb)
      | succ i =>
        simp only [List.getElem?_cons_succ] at hi
        exact List.Sublist.cons _ (ih i j a b (by omega) hi hj)

theorem merge_rows_same (ps pt : HspObjectListItem → Bool) :
    ∀ (Q : List HspObjectListItem) (ti : Nat) (diff : List HspObjectListDelta),
      (∀ q, q ∈ Q → ps q = true ∧ pt q = true) →
      merge_rows ps pt Q Q ti diff = some diff := by
  intro Q
  induction Q with
  | nil => intro ti diff _; simp [merge_rows]
  | cons q Q ih =>
    intro ti diff h
    have hq := h q (List.mem_cons_self _ _)
    rw [merge_rows, if_neg (by simp [hq.1]), if_neg (by simp [hq.2]), if_pos rfl,
      if_pos ((equals_iff q q).2 rfl)]
    exact ih _ _ (fun r hr => h r (List.mem_cons_of_mem _ hr))

theorem merge_rows_removed (ps pt : HspObjectListItem → Bool) :
    ∀ (D Q : List HspObjectListItem) (ti : Nat) (diff : List HspObjectListDelta),
      (∀ d, d ∈ D → ps d = false) →
      (∀ q, q ∈ Q → ps q = true ∧ pt q = true) →
      merge_rows ps pt (D ++ Q) Q ti diff =
        some (diff ++ D.map (fun d => HspObjectListDelta.new_remove d.object_id ti)) := by
  intro D
  induction D with
  | nil =>
    intro Q ti diff _ hQ
    simpa using merge_rows_same ps pt Q ti diff hQ
  | cons d D ih =>
    intro Q ti diff hD hQ
    have hd := hD d (List.mem_cons_self _ _)
    have hrec := ih Q ti (diff ++ [HspObjectListDelta.new_remove d.object_id ti])
      (fun r hr => hD r (List.mem_cons_of_mem _ hr)) hQ
    cases Q with
    | nil =>
      simp only [List.append_nil] at hrec ⊢
      rw [merge_rows, hrec]
      simp
    | cons q Q =>
      rw [List.cons_append, merge_rows, if_pos hd, hrec]
      simp

theorem merge_rows_collapse (ps pt : HspObjectListItem → Bool)
    (D Q : List HspObjectListItem) :
    ∀ (P : List HspObjectListItem) (ti : Nat) (diff : List HspObjectListDelta),
      (∀ p, p ∈ P → ps p = true ∧ pt p = true) →
      (∀ d, d ∈ D → ps d = false) →
      (∀ q, q ∈ Q → ps q = true ∧ pt q = true) →
      merge_rows ps pt (P ++ (D ++ Q)) (P ++ Q) ti diff =
        some (diff ++ D.map (fun d => HspObjectListDelta.new_remove d.object_id (ti + P.length))) := by
  intro P
  induction P with
  | nil =>
    intro ti diff _ hD hQ
    simpa using merge_rows_removed ps pt D Q ti diff hD hQ
  | cons p P ih =>
    intro ti diff hP hD hQ
    have hp := hP p (List.mem_cons_self _ _)
    rw [List.cons_append, List.cons_append, merge_rows, if_neg (by simp [hp.1]),
      if_neg (by simp [hp.2]), if_pos rfl, if_pos ((equals_iff p p).2 rfl),
      ih (ti + 1) diff (fun r hr => hP r (List.mem_cons_of_mem _ hr)) hD hQ]
    simp only [List.length_cons]
    have : ti + 1 + P.length = ti + (P.length + 1) := by omega
    rw [this]

theorem not_mem_of_nodup_middle (A D Q : List Nat) (h : (A ++ D ++ Q).Nodup) (d : Nat)
    (hd : d ∈ D) : d ∉ A ++ Q := by
  rw [List.nodup_append] at h
  obtain ⟨h1, _, h3⟩ := h
  rw [List.nodup_append] at h1
  obtain ⟨_, _, h4⟩ := h1
  intro hc
  rcases List.mem_append.1 hc with ha | hq
  · exact h4 ha hd
  · exact h3 (List.mem_append_right _ hd) hq

/-! ## Claims about the diff engine -/

/-- C1, counterexample. With source rows of ids 1, 2 and the same rows in
the order 2, 1 as target, `diff_object_list` takes its reorder branch and
returns no delta, so applying its output to the source leaves the source,
which is not the target. Besides, a delta has no child count: two targets
that differ in a child count only get the same deltas from the same source. -/
theorem diff_round_trip_counterexample :
    spec_apply_deltas
        (([⟨1, 0, "a", "1", 0⟩, ⟨2, 0, "b", "2", 0⟩] : HspObjectList).map HspObjectListItem.row)
        (diff_object_list [⟨1, 0, "a", "1", 0⟩, ⟨2, 0, "b", "2", 0⟩]
          [⟨2, 0, "b", "2", 0⟩, ⟨1, 0, "a", "1", 0⟩] [])
      ≠ ([⟨2, 0, "b", "2", 0⟩, ⟨1, 0, "a", "1", 0⟩] : HspObjectList).map HspObjectListItem.row
    ∧ (diff_object_list [⟨1, 0, "a", "x", 1⟩] [⟨1, 0, "a", "y", 2⟩] []
        = diff_object_list [⟨1, 0, "a", "x", 1⟩] [⟨1, 0, "a", "y", 3⟩] []
      ∧ ([⟨1, 0, "a", "y", 2⟩] : HspObjectList) ≠ [⟨1, 0, "a", "y", 3⟩]) := by
  decide

/-- C1, amended. For all snapshots `S` and `T` on which `diff_object_list`
does not take its reorder branch, applying the returned deltas to the rows of
`S` in order gives the rows of `T`, compared on the fields a delta carries
(object id, depth, name, value). -/
theorem diff_round_trip_without_abort (S T : HspObjectList)
    (h : diff_aborts S T = false) :
    spec_apply_deltas (S.map HspObjectListItem.row) (diff_object_list S T [])
      = T.map HspObjectListItem.row := by
  unfold diff_aborts at h
  unfold diff_object_list
  cases hm : diff_merge_result S T [] with
  | none => rw [hm] at h; simp at h
  | some d =>
    obtain ⟨rest, hd, happ⟩ := diff_merge_roundtrip S T _ _ _ 0 0 [] d (Nat.zero_le _)
      (Nat.zero_le _) (by omega) hm
    simp only [List.nil_append] at hd
    subst hd
    simpa using happ

/-- C1, an instance: a three-row source whose middle row vanished and whose
last row changed its value. -/
theorem diff_round_trip_without_abort_witness :
    diff_aborts [⟨1, 0, "a", "(1):", 1⟩, ⟨2, 1, "b", "1", 0⟩, ⟨3, 0, "c", "2", 0⟩]
        [⟨1, 0, "a", "(1):", 1⟩, ⟨3, 0, "c", "5", 0⟩] = false
    ∧ spec_apply_deltas
        (([⟨1, 0, "a", "(1):", 1⟩, ⟨2, 1, "b", "1", 0⟩, ⟨3, 0, "c", "2", 0⟩] :
          HspObjectList).map HspObjectListItem.row)
        (diff_object_list [⟨1, 0, "a", "(1):", 1⟩, ⟨2, 1, "b", "1", 0⟩, ⟨3, 0, "c", "2", 0⟩]
          [⟨1, 0, "a", "(1):", 1⟩, ⟨3, 0, "c", "5", 0⟩] [])
      = ([⟨1, 0, "a", "(1):", 1⟩, ⟨3, 0, "c", "5", 0⟩] : HspObjectList).map
          HspObjectListItem.row :=
  ⟨by decide, diff_round_trip_without_abort _ _ (by decide)⟩

/-- C2. For all snapshots `S` and `T` whose object ids are pairwise distinct
within each list: if an id `a` stands before an id `b` in `S` (positions
`i < j`) and `b` stands before `a` in `T` (positions `k < l`), then
`diff_object_list` returns the empty diff, whatever `diff` held on entry. -/
theorem diff_reorder_abort (S T : HspObjectList) (diff : List HspObjectListDelta)
    (hS : (S.map HspObjectListItem.object_id).Nodup)
    (hT : (T.map HspObjectListItem.object_id).Nodup)
    (i j k l a b : Nat) (hij : i < j) (hkl : k < l)
    (hi : (S.map HspObjectListItem.object_id)[i]? = some a)
    (hj : (S.map HspObjectListItem.object_id)[j]? = some b)
    (hk : (T.map HspObjectListItem.object_id)[k]? = some b)
    (hl : (T.map HspObjectListItem.object_id)[l]? = some a) :
    diff_object_list S T diff = [] := by
  have hab := sublist_pair_of_getElem? _ i j a b hij hi hj
  have hba := sublist_pair_of_getElem? _ k l b a hkl hk hl
  have hnone := merge_rows_reorder
    (fun r => decide (r.object_id ∈ T.map HspObjectListItem.object_id))
    (fun r => decide (r.object_id ∈ S.map HspObjectListItem.object_id)) a b
    (S.length + T.length) S T 0 diff (le_refl _) hS hT
    (by intro s _; simp) (by intro t _; simp) hab hba
  unfold diff_object_list
  rw [diff_merge_result_eq S T hS hT diff, hnone]

/-- C2, an instance: the row of id 3 is removed first (a delta is emitted),
then the rows of ids 1 and 2 are met in swapped order. -/
theorem diff_reorder_abort_witness :
    diff_object_list [⟨3, 0, "c", "3", 0⟩, ⟨1, 0, "a", "1", 0⟩, ⟨2, 0, "b", "2", 0⟩]
      [⟨2, 0, "b", "2", 0⟩, ⟨1, 0, "a", "1", 0⟩] [] = [] :=
  diff_reorder_abort _ _ [] (by decide) (by decide) 1 2 0 1 1 2 (by decide) (by decide)
    (by decide) (by decide) (by decide) (by decide)

/-- C9. For every snapshot `S = P ++ [x] ++ D ++ Q` with pairwise distinct
object ids and `T = P ++ [x] ++ Q`, `diff_object_list S T` is exactly one
Remove delta per row of `D`, in the order of `D`, each with index `|P| + 1`. -/
theorem diff_collapse (P D Q : List HspObjectListItem) (x : HspObjectListItem)
    (hS : ((P ++ [x] ++ D ++ Q).map HspObjectListItem.object_id).Nodup) :
    diff_object_list (P ++ [x] ++ D ++ Q) (P ++ [x] ++ Q) []
      = D.map (fun d => HspObjectListDelta.new_remove d.object_id (P.length + 1)) := by
  have hsub : ((P ++ [x] ++ Q).map HspObjectListItem.object_id).Sublist
      ((P ++ [x] ++ D ++ Q).map HspObjectListItem.object_id) := by
    apply List.Sublist.map
    simp only [List.append_assoc]
    exact List.Sublist.append_left (List.Sublist.append_left (List.sublist_append_right _ _) _) _
  have hT := hS.sublist hsub
  unfold diff_object_list
  rw [diff_merge_result_eq _ _ hS hT []]
  have hkey := merge_rows_collapse
    (fun r => decide (r.object_id ∈ (P ++ [x] ++ Q).map HspObjectListItem.object_id))
    (fun r => decide (r.object_id ∈ (P ++ [x] ++ D ++ Q).map HspObjectListItem.object_id))
    D Q (P ++ [x]) 0 []
    (by
      intro p hp
      simp only [decide_eq_true_eq]
      exact ⟨List.mem_map_of_mem _ (List.mem_append_left _ hp),
        List.mem_map_of_mem _ (List.mem_append_left _ (List.mem_append_left _ hp))⟩)
    (by
      intro d hd
      simp only [decide_eq_false_iff_not]
      intro hc
      have hS' : ((P ++ [x]).map HspObjectListItem.object_id
          ++ D.map HspObjectListItem.object_id ++ Q.map HspObjectListItem.object_id).Nodup := by
        simpa using hS
      have hc' : d.object_id ∈ (P ++ [x]).map HspObjectListItem.object_id
          ++ Q.map HspObjectListItem.object_id := by
        simpa using hc
      exact not_mem_of_nodup_middle _ _ _ hS' _ (List.mem_map_of_mem _ hd) hc')
    (by
      intro q hq
      simp only [decide_eq_true_eq]
      exact ⟨List.mem_map_of_mem _ (List.mem_append_right _ hq),
        List.mem_map_of_mem _ (List.mem_append_right _ hq)⟩)
  simp only [List.append_assoc] at hkey ⊢
  rw [hkey]
  simp

/-- C9, the scenario of the specification: `[A, A0, A1, B]` against `[A, B]`
gives `[Remove(A0), Remove(A1)]`, both at index 1. -/
theorem diff_collapse_witness :
    (([] ++ [⟨1, 0, "A", "(2):", 2⟩] ++ [⟨2, 1, "A0", "1", 0⟩, ⟨3, 1, "A1", "2", 0⟩]
        ++ [⟨4, 0, "B", String.mk [Char.ofNat 34, 'h', 'i', Char.ofNat 34], 0⟩] : HspObjectList).map HspObjectListItem.object_id).Nodup
    ∧ diff_object_list
        [⟨1, 0, "A", "(2):", 2⟩, ⟨2, 1, "A0", "1", 0⟩, ⟨3, 1, "A1", "2", 0⟩,
          ⟨4, 0, "B", String.mk [Char.ofNat 34, 'h', 'i', Char.ofNat 34], 0⟩]
        [⟨1, 0, "A", "(2):", 2⟩, ⟨4, 0, "B", String.mk [Char.ofNat 34, 'h', 'i', Char.ofNat 34], 0⟩] []
      = [HspObjectListDelta.new_remove 2 1, HspObjectListDelta.new_remove 3 1] :=
  ⟨by decide, diff_collapse [] [⟨2, 1, "A0", "1", 0⟩, ⟨3, 1, "A1", "2", 0⟩]
    [⟨4, 0, "B", String.mk [Char.ofNat 34, 'h', 'i', Char.ofNat 34], 0⟩] ⟨1, 0, "A", "(2):", 2⟩ (by decide)⟩

/-! ## The identity registry: lemmas -/

theorem reachable_inv (e : HspObjectListEntity) (h : e.Reachable) :
    (∀ p i, e.path_to_ids_ p = some i ↔ e.id_to_paths_ i = some p) ∧
    (∀ i p, e.id_to_paths_ i = some p → 1 ≤ i ∧ i ≤ e.last_id_) := by
  induction h with
  | new => simp [HspObjectListEntity.new]
  | path_to_object_id e path _ ih =>
    obtain ⟨h1, h2⟩ := ih
    unfold HspObjectListEntity.path_to_object_id
    cases hp : e.path_to_ids_ path with
    | some id => exact ⟨h1, h2⟩
    | none =>
      have hfresh : e.id_to_paths_ (e.last_id_ + 1) = none := by
        cases hq : e.id_to_paths_ (e.last_id_ + 1) with
        | none => rfl
        | some q => have := (h2 _ _ hq).2; omega
      refine ⟨?_, ?_⟩
      · intro p i
        simp only [map_insert]
        by_cases hpp : p = path
        · subst hpp
          by_cases hi : i = e.last_id_ + 1
          · subst hi; simp
          · simp only [if_true, if_neg hi, Option.some.injEq]
            constructor
            · intro h; exact absurd h.symm hi
            · intro h; rw [← h1, hp] at h; exact absurd h (by simp)
        · by_cases hi : i = e.last_id_ + 1
          · subst hi
            simp only [if_neg hpp, if_true, Option.some.injEq]
            constructor
            · intro h; rw [h1, hfresh] at h; exact absurd h (by simp)
            · intro h; exact absurd h.symm hpp
          · simp only [if_neg hpp, if_neg hi]
            exact h1 p i
      · intro i p
        simp only [map_insert]
        by_cases hi : i = e.last_id_ + 1
        · subst hi; intro _; exact ⟨by omega, le_refl _⟩
        · rw [if_neg hi]
          intro h
          have := h2 i p h
          exact ⟨this.1, by omega⟩
  | toggle_expand e object_id _ ih =>
    unfold HspObjectListEntity.toggle_expand
    cases e.object_id_to_path object_id with
    | none => exact ih
    | some path =>
      cases HspObjectList.find_by_object_id e.object_list_ object_id with
      | none => exact ih
      | some item =>
        by_cases hc : item.child_count = 0
        · simp only [if_pos hc]; exact ih
        · simp only [if_neg hc]; exact ih
  | apply_delta e delta _ ih =>
    obtain ⟨h1, h2⟩ := ih
    unfold HspObjectListEntity.apply_delta
    cases delta.kind with
    | Insert => exact ⟨h1, h2⟩
    | Update => exact ⟨h1, h2⟩
    | Remove =>
      cases hid : e.id_to_paths_ delta.object_id with
      | none => exact ⟨h1, h2⟩
      | some path =>
        have hpath : e.path_to_ids_ path = some delta.object_id := (h1 _ _).2 hid
        refine ⟨?_, ?_⟩
        · intro p i
          simp only [map_erase]
          by_cases hpp : p = path
          · subst hpp
            by_cases hi : i = delta.object_id
            · simp [hi]
            · simp only [if_true, if_neg hi]
              constructor
              · intro h; exact absurd h (by simp)
              · intro h; rw [← h1, hpath] at h
                exact absurd (Option.some.inj h).symm hi
          · by_cases hi : i = delta.object_id
            · subst hi
              simp only [if_neg hpp, if_true]
              constructor
              · intro h; rw [h1, hid] at h
                exact absurd (Option.some.inj h).symm hpp
              · intro h; exact absurd h (by simp)
            · simp only [if_neg hpp, if_neg hi]
              exact h1 p i
        · intro i p
          simp only [map_erase]
          by_cases hi : i = delta.object_id
          · simp [hi]
          · rw [if_neg hi]; exact h2 i p
  | store e new_list _ ih => exact ih

theorem path_to_object_id_result (e : HspObjectListEntity) (p : HspObjectPath) :
    (e.path_to_object_id p).2.path_to_ids_ p = some (e.path_to_object_id p).1 := by
  unfold HspObjectListEntity.path_to_object_id
  cases hp : e.path_to_ids_ p with
  | some id => simpa using hp
  | none => simp [map_insert]

theorem path_to_object_id_keeps (e : HspObjectListEntity) (p q : HspObjectPath) (i : Nat)
    (h : e.path_to_ids_ q = some i) : (e.path_to_object_id p).2.path_to_ids_ q = some i := by
  unfold HspObjectListEntity.path_to_object_id
  cases hp : e.path_to_ids_ p with
  | some id => simpa using h
  | none =>
    have hqp : q ≠ p := by
      intro hc; rw [hc, hp] at h; exact absurd h (by simp)
    simp [map_insert, hqp, h]

theorem path_to_ids_toggle_expand (e : HspObjectListEntity) (object_id : Nat) :
    (e.toggle_expand object_id).path_to_ids_ = e.path_to_ids_ := by
  unfold HspObjectListEntity.toggle_expand
  cases e.object_id_to_path object_id with
  | none => rfl
  | some path =>
    cases HspObjectList.find_by_object_id e.object_list_ object_id with
    | none => rfl
    | some item =>
      by_cases hc : item.child_count = 0
      · simp only [if_pos hc]
      · simp only [if_neg hc]

theorem no_forget_reachable (e e1 : HspObjectListEntity) (h : e.NoForget e1)
    (he : e.Reachable) : e1.Reachable := by
  induction h with
  | refl => exact he
  | path_to_object_id e1 path _ ih => exact HspObjectListEntity.Reachable.path_to_object_id _ _ ih
  | toggle_expand e1 object_id _ ih => exact HspObjectListEntity.Reachable.toggle_expand _ _ ih
  | store e1 new_list _ ih => exact HspObjectListEntity.Reachable.store _ _ ih

theorem no_forget_keeps (e e1 : HspObjectListEntity) (h : e.NoForget e1)
    (q : HspObjectPath) (i : Nat) (hq : e.path_to_ids_ q = some i) :
    e1.path_to_ids_ q = some i := by
  induction h with
  | refl => exact hq
  | path_to_object_id e1 path _ ih => exact path_to_object_id_keeps e1 path q i ih
  | toggle_expand e1 object_id _ ih => rw [path_to_ids_toggle_expand]; exact ih
  | store e1 new_list _ ih => exact ih

/-- C3. Let `path_to_object_id` be called on a path `p` in a reachable state
of the registry, and later, with no forget in between (any number of
`path_to_object_id` and `toggle_expand` calls and of stored snapshots), on a
path `q`. The second call returns the id of the first exactly when `q` and `p`
are structurally equal: equal paths get the same id, different paths never do. -/
theorem path_to_object_id_stable (e e1 : HspObjectListEntity) (p q : HspObjectPath)
    (he : e.Reachable) (h : (e.path_to_object_id p).2.NoForget e1) :
    (e1.path_to_object_id q).1 = (e.path_to_object_id p).1 ↔ q = p := by
  have hr1 : e1.Reachable :=
    no_forget_reachable _ _ h (HspObjectListEntity.Reachable.path_to_object_id e p he)
  have hr2 := HspObjectListEntity.Reachable.path_to_object_id e1 q hr1
  obtain ⟨hinv, _⟩ := reachable_inv _ hr2
  have hp : (e1.path_to_object_id q).2.path_to_ids_ p = some (e.path_to_object_id p).1 :=
    path_to_object_id_keeps e1 q p _ (no_forget_keeps _ _ h p _ (path_to_object_id_result e p))
  have hq := path_to_object_id_result e1 q
  constructor
  · intro hid
    rw [hid] at hq
    have a := (hinv _ _).1 hq
    have b := (hinv _ _).1 hp
    rw [a] at b
    exact Option.some.inj b
  · intro hqp
    subst hqp
    rw [hp] at hq
    exact (Option.some.inj hq).symm

/-- C3, an instance: from the constructed registry, `A` of the scenario gets
an id; after `B` got one too, a separately built path of `A` gets the id of
`A` again, and `B` does not get it. -/
theorem path_to_object_id_stable_witness :
    ((((HspObjectListEntity.new.path_to_object_id scenario_A).2.path_to_object_id
          scenario_B).2.path_to_object_id (HspObjectPath.StaticVar HspObjectPath.Root 0)).1
        = (HspObjectListEntity.new.path_to_object_id scenario_A).1
      ↔ HspObjectPath.StaticVar HspObjectPath.Root 0 = scenario_A)
    ∧ (((HspObjectListEntity.new.path_to_object_id scenario_A).2.path_to_object_id
          scenario_B).1
        = (HspObjectListEntity.new.path_to_object_id scenario_A).1
      ↔ scenario_B = scenario_A) :=
  ⟨path_to_object_id_stable HspObjectListEntity.new _ scenario_A _
      HspObjectListEntity.Reachable.new
      (HspObjectListEntity.NoForget.path_to_object_id _ _ scenario_B
        (HspObjectListEntity.NoForget.refl _)),
    path_to_object_id_stable HspObjectListEntity.new _ scenario_A scenario_B
      HspObjectListEntity.Reachable.new (HspObjectListEntity.NoForget.refl _)⟩

/-! ## The object list writer: lemmas -/

theorem is_expanded_path_to_object_id (e : HspObjectListEntity) (p q : HspObjectPath) :
    (e.path_to_object_id p).2.is_expanded q = e.is_expanded q := by
  unfold HspObjectListEntity.path_to_object_id HspObjectListEntity.is_expanded
  cases e.path_to_ids_ p <;> rfl

theorem add_scope_collapsed
    (add : HspObjectPath → HspObjectListWriter → Option HspObjectListWriter)
    (o : HspObjects) (p : HspObjectPath) (w : HspObjectListWriter)
    (h : w.id_provider_.is_expanded p = false) :
    HspObjectListWriter.add_scope_with add o p w =
      some { object_list_ := w.object_list_ ++
               [⟨(w.id_provider_.path_to_object_id p).1, w.depth_, o.name p,
                 "(" ++ toString (o.child_count p) ++ "):", o.child_count p⟩]
             id_provider_ := (w.id_provider_.path_to_object_id p).2
             depth_ := w.depth_ } := by
  simp [HspObjectListWriter.add_scope_with, HspObjectListWriter.add_children_with,
    is_expanded_path_to_object_id, h]

theorem is_value_kind_iff (k : HspObjectKind) :
    is_value_kind k = true ↔
      (k = HspObjectKind.Label ∨ k = HspObjectKind.Str ∨ k = HspObjectKind.Double
        ∨ k = HspObjectKind.Int ∨ k = HspObjectKind.Unknown) := by
  cases k <;> simp [is_value_kind]

/-! ## Claims about the object list writer -/

/-- C4. For every path `p` that is not expanded: `add` on `p` (with any fuel
of at least 1) appends exactly one row, the row of `p` (its object id, at the
current depth, under its name), and nothing for a descendant, and leaves the
depth as it was; `add_children` on `p` appends nothing at all. -/
theorem add_collapsed (o : HspObjects) (fuel : Nat) (p : HspObjectPath)
    (w : HspObjectListWriter) (h : w.id_provider_.is_expanded p = false) :
    (∃ row : HspObjectListItem,
      HspObjectListWriter.add o (fuel + 1) p w =
        some { object_list_ := w.object_list_ ++ [row]
               id_provider_ := (w.id_provider_.path_to_object_id p).2
               depth_ := w.depth_ }
      ∧ row.object_id = (w.id_provider_.path_to_object_id p).1
      ∧ row.depth = w.depth_ ∧ row.name = o.name p)
    ∧ HspObjectListWriter.add_children o fuel p w = some w := by
  constructor
  · rw [HspObjectListWriter.add]
    by_cases hv : o.child_count p = 1 ∧ is_value_kind (o.child_at p 0).kind = true
    · rw [if_pos hv]
      exact ⟨_, rfl, rfl, rfl, rfl⟩
    · rw [if_neg hv, add_scope_collapsed _ o p w h]
      exact ⟨_, rfl, rfl, rfl, rfl⟩
  · simp [HspObjectListWriter.add_children, HspObjectListWriter.add_children_with, h]

/-- C4, an instance: `A0` of the scenario is not expanded in the constructed
registry. -/
theorem add_collapsed_witness :
    (HspObjectListWriter.new HspObjectListEntity.new).id_provider_.is_expanded scenario_A0 = false
    ∧ ((∃ row : HspObjectListItem,
      HspObjectListWriter.add scenario_objects (0 + 1) scenario_A0
          (HspObjectListWriter.new HspObjectListEntity.new) =
        some { object_list_ := (HspObjectListWriter.new HspObjectListEntity.new).object_list_
                 ++ [row]
               id_provider_ := ((HspObjectListWriter.new HspObjectListEntity.new).id_provider_
                 |>.path_to_object_id scenario_A0).2
               depth_ := (HspObjectListWriter.new HspObjectListEntity.new).depth_ }
      ∧ row.object_id = ((HspObjectListWriter.new HspObjectListEntity.new).id_provider_
                 |>.path_to_object_id scenario_A0).1
      ∧ row.depth = (HspObjectListWriter.new HspObjectListEntity.new).depth_
      ∧ row.name = scenario_objects.name scenario_A0)
    ∧ HspObjectListWriter.add_children scenario_objects 0 scenario_A0
        (HspObjectListWriter.new HspObjectListEntity.new)
      = some (HspObjectListWriter.new HspObjectListEntity.new)) :=
  ⟨by decide, add_collapsed scenario_objects 0 scenario_A0
    (HspObjectListWriter.new HspObjectListEntity.new) (by decide)⟩

/-- C5. For every path whose child count is 1 and whose single child has kind
Label, Str, Double, Int or Unknown, `add` (with any fuel of at least 1)
appends exactly one row: the object id and name of the path, the current depth,
the flow form of the child as value and child count 0. -/
theorem add_value_row (o : HspObjects) (fuel : Nat) (p : HspObjectPath)
    (w : HspObjectListWriter) (h1 : o.child_count p = 1)
    (h2 : (o.child_at p 0).kind = HspObjectKind.Label ∨ (o.child_at p 0).kind = HspObjectKind.Str
      ∨ (o.child_at p 0).kind = HspObjectKind.Double ∨ (o.child_at p 0).kind = HspObjectKind.Int
      ∨ (o.child_at p 0).kind = HspObjectKind.Unknown) :
    HspObjectListWriter.add o (fuel + 1) p w =
      some { object_list_ := w.object_list_ ++
               [⟨(w.id_provider_.path_to_object_id p).1, w.depth_, o.name p,
                 write_flow_form o (o.child_at p 0), 0⟩]
             id_provider_ := (w.id_provider_.path_to_object_id p).2
             depth_ := w.depth_ } := by
  rw [HspObjectListWriter.add, if_pos ⟨h1, (is_value_kind_iff _).2 h2⟩]
  rfl

/-- C5, an instance: `B` of the scenario holds one Str child. -/
theorem add_value_row_witness :
    scenario_objects.child_count scenario_B = 1
    ∧ (scenario_objects.child_at scenario_B 0).kind = HspObjectKind.Str
    ∧ HspObjectListWriter.add scenario_objects (0 + 1) scenario_B
        (HspObjectListWriter.new HspObjectListEntity.new) =
      some { object_list_ := (HspObjectListWriter.new HspObjectListEntity.new).object_list_ ++
               [⟨((HspObjectListWriter.new HspObjectListEntity.new).id_provider_
                   |>.path_to_object_id scenario_B).1,
                 (HspObjectListWriter.new HspObjectListEntity.new).depth_,
                 scenario_objects.name scenario_B,
                 write_flow_form scenario_objects (scenario_objects.child_at scenario_B 0), 0⟩]
             id_provider_ := ((HspObjectListWriter.new HspObjectListEntity.new).id_provider_
                   |>.path_to_object_id scenario_B).2
             depth_ := (HspObjectListWriter.new HspObjectListEntity.new).depth_ } :=
  ⟨by decide, by decide, add_value_row scenario_objects 0 scenario_B
    (HspObjectListWriter.new HspObjectListEntity.new) (by decide) (Or.inr (Or.inl (by decide)))⟩

/-- C7, counterexample. `A0` of the scenario is not expanded and has one
child, an Int; the single row that `add` emits for it has child count 0, not 1. -/
theorem add_collapsed_child_count_counterexample :
    HspObjectListEntity.new.is_expanded scenario_A0 = false
    ∧ scenario_objects.child_count scenario_A0 = 1
    ∧ (HspObjectListWriter.add scenario_objects 1 scenario_A0
        (HspObjectListWriter.new HspObjectListEntity.new)).map
          (fun w => w.object_list_.map HspObjectListItem.child_count) = some [0] := by
  decide

/-- C7, amended. For every path `p` that is not expanded, the single row that
`add` emits for `p` has the child count `child_count(p)` of the accessor,
except when `p` has exactly one child and that child is of kind Label, Str,
Double, Int or Unknown: then the row has child count 0. -/
theorem add_collapsed_child_count (o : HspObjects) (fuel : Nat) (p : HspObjectPath)
    (w : HspObjectListWriter) (h : w.id_provider_.is_expanded p = false) :
    ∃ row : HspObjectListItem,
      HspObjectListWriter.add o (fuel + 1) p w =
        some { object_list_ := w.object_list_ ++ [row]
               id_provider_ := (w.id_provider_.path_to_object_id p).2
               depth_ := w.depth_ }
      ∧ row.child_count =
          if o.child_count p = 1 ∧ is_value_kind (o.child_at p 0).kind = true then 0
          else o.child_count p := by
  rw [HspObjectListWriter.add]
  by_cases hv : o.child_count p = 1 ∧ is_value_kind (o.child_at p 0).kind = true
  · rw [if_pos hv, if_pos hv]
    exact ⟨_, rfl, rfl⟩
  · rw [if_neg hv, if_neg hv, add_scope_collapsed _ o p w h]
    exact ⟨_, rfl, rfl⟩

/-- C7, an instance: `A` of the scenario, collapsed, has two children. -/
theorem add_collapsed_child_count_witness :
    (HspObjectListWriter.new
      { HspObjectListEntity.new with
        expanded_ := map_insert HspObjectListEntity.new.expanded_ scenario_A false }
      ).id_provider_.is_expanded scenario_A = false
    ∧ ∃ row : HspObjectListItem,
      HspObjectListWriter.add scenario_objects (0 + 1) scenario_A
        (HspObjectListWriter.new
          { HspObjectListEntity.new with
            expanded_ := map_insert HspObjectListEntity.new.expanded_ scenario_A false }) =
        some { object_list_ := (HspObjectListWriter.new
                { HspObjectListEntity.new with
                  expanded_ := map_insert HspObjectListEntity.new.expanded_ scenario_A false }
                ).object_list_ ++ [row]
               id_provider_ := ((HspObjectListWriter.new
                { HspObjectListEntity.new with
                  expanded_ := map_insert HspObjectListEntity.new.expanded_ scenario_A false }
                ).id_provider_.path_to_object_id scenario_A).2
               depth_ := (HspObjectListWriter.new
                { HspObjectListEntity.new with
                  expanded_ := map_insert HspObjectListEntity.new.expanded_ scenario_A false }
                ).depth_ }
      ∧ row.child_count =
          if scenario_objects.child_count scenario_A = 1
              ∧ is_value_kind (scenario_objects.child_at scenario_A 0).kind = true then 0
          else scenario_objects.child_count scenario_A :=
  ⟨by decide, add_collapsed_child_count scenario_objects 0 scenario_A _ (by decide)⟩

/-- C8, counterexample. In the scenario the writer does not produce the four
rows of the claim: the value of the row of `B` is not the two characters hi. -/
theorem scenario_snapshot_counterexample :
    (HspObjectListWriter.add_children scenario_objects 2 HspObjectPath.Root
        (HspObjectListWriter.new HspObjectListEntity.new)).map (fun w => w.object_list_)
      ≠ some [⟨1, 0, "A", "(2):", 2⟩, ⟨2, 1, "A0", "1", 0⟩, ⟨3, 1, "A1", "2", 0⟩,
          ⟨4, 0, "B", "hi", 0⟩] := by
  decide

/-- C8, amended. In the scenario, from the constructed registry (the root and
its children are expanded), `add_children(root)` produces exactly four rows in
this order: `A` with value `(2):` and child count 2, `A0` with value `1`,
`A1` with value `2`, and `B` whose value is the string literal of hi, that is
hi between two double quotes (four characters); the last three have child
count 0. The ids 1 to 4 are those of `A`, `A0`, `A1`, `B`. -/
theorem scenario_snapshot :
    HspObjectListEntity.new.is_expanded HspObjectPath.Root = true
    ∧ HspObjectListEntity.new.is_expanded scenario_A = true
    ∧ (HspObjectListWriter.add_children scenario_objects 2 HspObjectPath.Root
        (HspObjectListWriter.new HspObjectListEntity.new)).map (fun w => w.object_list_)
      = some [⟨1, 0, "A", "(2):", 2⟩, ⟨2, 1, "A0", "1", 0⟩, ⟨3, 1, "A1", "2", 0⟩,
          ⟨4, 0, "B", String.mk [Char.ofNat 34, 'h', 'i', Char.ofNat 34], 0⟩]
    ∧ (HspObjectListWriter.add_children scenario_objects 2 HspObjectPath.Root
        (HspObjectListWriter.new HspObjectListEntity.new)).map
          (fun w => [1, 2, 3, 4].map w.id_provider_.object_id_to_path)
      = some [some scenario_A, some scenario_A0, some scenario_A1, some scenario_B] := by
  decide

/-! ## Truncation -/

/-- C10. `toggle_expand(id)`: when `id` is tracked, with path `path`, and its
row in the last snapshot has a child count other than 0, then `is_expanded` of
`path` is negated, the expansion of every other path is as before, and neither
the two id maps nor the id counter nor the stored snapshot change; when `id` is
not tracked, or has no row in the last snapshot, or its row has child count 0,
the whole state is unchanged. -/
theorem toggle_expand_spec (e : HspObjectListEntity) (object_id : Nat) :
    (∀ path item, e.object_id_to_path object_id = some path →
      HspObjectList.find_by_object_id e.object_list_ object_id = some item →
      item.child_count ≠ 0 →
        (e.toggle_expand object_id).is_expanded path = !e.is_expanded path
        ∧ (∀ q, q ≠ path → (e.toggle_expand object_id).is_expanded q = e.is_expanded q)
        ∧ (e.toggle_expand object_id).id_to_paths_ = e.id_to_paths_
        ∧ (e.toggle_expand object_id).path_to_ids_ = e.path_to_ids_
        ∧ (e.toggle_expand object_id).last_id_ = e.last_id_
        ∧ (e.toggle_expand object_id).object_list_ = e.object_list_)
    ∧ ((e.object_id_to_path object_id = none
        ∨ HspObjectList.find_by_object_id e.object_list_ object_id = none
        ∨ ∃ item, HspObjectList.find_by_object_id e.object_list_ object_id = some item
            ∧ item.child_count = 0) →
        e.toggle_expand object_id = e) := by
  constructor
  · intro path item h1 h2 h3
    have ht : e.toggle_expand object_id =
        { e with expanded_ := map_insert e.expanded_ path (!e.is_expanded path) } := by
      unfold HspObjectListEntity.toggle_expand
      rw [h1, h2]
      simp only [if_neg h3]
    rw [ht]
    refine ⟨?_, ?_, rfl, rfl, rfl, rfl⟩
    · simp [HspObjectListEntity.is_expanded, map_insert]
    · intro q hq
      simp [HspObjectListEntity.is_expanded, map_insert, hq]
  · intro h
    unfold HspObjectListEntity.toggle_expand
    rcases h with h | h | ⟨item, h, h0⟩
    · rw [h]
    · cases e.object_id_to_path object_id with
      | none => rfl
      | some path => simp only [h]
    · cases e.object_id_to_path object_id with
      | none => rfl
      | some path => simp only [h, if_pos h0]

/-- C10, an instance: in `scenario_entity` the id 1 is tracked and its row has
two children, so toggling it negates the expansion of `A`; the id 7 is not
tracked, so toggling it changes nothing. -/
theorem toggle_expand_spec_witness :
    scenario_entity.object_id_to_path 1 = some scenario_A
    ∧ HspObjectList.find_by_object_id scenario_entity.object_list_ 1
        = some ⟨1, 0, "A", "(2):", 2⟩
    ∧ (scenario_entity.toggle_expand 1).is_expanded scenario_A
        = !scenario_entity.is_expanded scenario_A
    ∧ scenario_entity.toggle_expand 7 = scenario_entity :=
  ⟨by decide, by decide,
    ((toggle_expand_spec scenario_entity 1).1 scenario_A ⟨1, 0, "A", "(2):", 2⟩ (by decide)
      (by decide) (by decide)).1,
    (toggle_expand_spec scenario_entity 7).2 (Or.inl (by decide))⟩

/-! ## Fresh ids and the inverse lookup -/

theorem returned_reachable (e : HspObjectListEntity) (ids : List Nat) (h : e.Returned ids) :
    e.Reachable := by
  induction h with
  | new => exact HspObjectListEntity.Reachable.new
  | path_to_object_id e ids path _ ih =>
    exact HspObjectListEntity.Reachable.path_to_object_id e path ih
  | toggle_expand e ids object_id _ ih =>
    exact HspObjectListEntity.Reachable.toggle_expand e object_id ih
  | apply_delta e ids delta _ ih => exact HspObjectListEntity.Reachable.apply_delta e delta ih
  | store e ids new_list _ ih => exact HspObjectListEntity.Reachable.store e new_list ih

theorem last_id_toggle_expand (e : HspObjectListEntity) (object_id : Nat) :
    (e.toggle_expand object_id).last_id_ = e.last_id_
    ∧ (e.toggle_expand object_id).id_to_paths_ = e.id_to_paths_ := by
  unfold HspObjectListEntity.toggle_expand
  cases e.object_id_to_path object_id with
  | none => exact ⟨rfl, rfl⟩
  | some path =>
    cases HspObjectList.find_by_object_id e.object_list_ object_id with
    | none => exact ⟨rfl, rfl⟩
    | some item =>
      by_cases hc : item.child_count = 0
      · simp only [if_pos hc, and_self]
      · simp only [if_neg hc, and_self]

theorem apply_delta_shrinks (e : HspObjectListEntity) (delta : HspObjectListDelta) :
    (e.apply_delta delta).last_id_ = e.last_id_
    ∧ (e.apply_delta delta).object_list_ = e.object_list_
    ∧ (∀ i p, (e.apply_delta delta).id_to_paths_ i = some p → e.id_to_paths_ i = some p)
    ∧ (∀ p i, (e.apply_delta delta).path_to_ids_ p = some i → e.path_to_ids_ p = some i)
    ∧ (∀ p b, (e.apply_delta delta).expanded_ p = some b → e.expanded_ p = some b) := by
  unfold HspObjectListEntity.apply_delta
  cases delta.kind with
  | Insert => exact ⟨rfl, rfl, fun _ _ h => h, fun _ _ h => h, fun _ _ h => h⟩
  | Update => exact ⟨rfl, rfl, fun _ _ h => h, fun _ _ h => h, fun _ _ h => h⟩
  | Remove =>
    cases e.id_to_paths_ delta.object_id with
    | none => exact ⟨rfl, rfl, fun _ _ h => h, fun _ _ h => h, fun _ _ h => h⟩
    | some path =>
      refine ⟨rfl, rfl, ?_, ?_, ?_⟩
      · intro i p h
        simp only [map_erase] at h
        split at h
        · simp at h
        · exact h
      · intro p i h
        simp only [map_erase] at h
        split at h
        · simp at h
        · exact h
      · intro p b h
        simp only [map_erase] at h
        split at h
        · simp at h
        · exact h

theorem path_to_object_id_last_id (e : HspObjectListEntity) (p : HspObjectPath) :
    e.last_id_ ≤ (e.path_to_object_id p).2.last_id_
    ∧ (e.path_to_ids_ p = none → (e.path_to_object_id p).1 = e.last_id_ + 1) := by
  unfold HspObjectListEntity.path_to_object_id
  cases e.path_to_ids_ p with
  | none => exact ⟨Nat.le_succ _, fun _ => rfl⟩
  | some i => exact ⟨le_refl _, fun h => by simp at h⟩

theorem returned_inv (e : HspObjectListEntity) (ids : List Nat) (h : e.Returned ids) :
    (∀ i, i ∈ ids → 1 ≤ i ∧ i ≤ e.last_id_)
    ∧ (ids = [] → e.last_id_ = 0)
    ∧ (∀ i p, e.id_to_paths_ i = some p → i ∈ ids) := by
  induction h with
  | new => simp [HspObjectListEntity.new]
  | path_to_object_id e ids path hr ih =>
    obtain ⟨h1, _, h3⟩ := ih
    obtain ⟨hinv, hb⟩ := reachable_inv e (returned_reachable e ids hr)
    have hle := (path_to_object_id_last_id e path).1
    have hres := path_to_object_id_result e path
    have hb2 := (reachable_inv _ (HspObjectListEntity.Reachable.path_to_object_id e path
      (returned_reachable e ids hr)))
    refine ⟨?_, by simp, ?_⟩
    · intro i hi
      rcases List.mem_cons.1 hi with hi | hi
      · rw [hi]
        exact hb2.2 _ _ ((hb2.1 _ _).1 hres)
      · exact ⟨(h1 i hi).1, le_trans (h1 i hi).2 hle⟩
    · intro i p hp
      by_cases hi : i = (e.path_to_object_id path).1
      · rw [hi]; exact List.mem_cons_self _ _
      · refine List.mem_cons_of_mem _ (h3 i p ?_)
        revert hp hi
        unfold HspObjectListEntity.path_to_object_id
        cases e.path_to_ids_ path with
        | some j => intro hp _; exact hp
        | none =>
          intro hp hi
          simp only [map_insert] at hp hi
          rw [if_neg hi] at hp
          exact hp
  | toggle_expand e ids object_id _ ih =>
    obtain ⟨h1, h2, h3⟩ := ih
    rw [(last_id_toggle_expand e object_id).1, (last_id_toggle_expand e object_id).2]
    exact ⟨h1, h2, h3⟩
  | apply_delta e ids delta _ ih =>
    obtain ⟨h1, h2, h3⟩ := ih
    obtain ⟨a, _, c, _, _⟩ := apply_delta_shrinks e delta
    rw [a]
    exact ⟨h1, h2, fun i p hp => h3 i p (c i p hp)⟩
  | store e ids new_list _ ih => exact ih

/-- C13. Whenever `path_to_object_id` is called on a path that is not
tracked, the id it allocates is strictly greater than every id that
`path_to_object_id` has returned since the registry was constructed (whatever
calls, `toggle_expand`s, forgets and stored snapshots lie in between), so it is
none of them; it is at least 1, and it is 1 when no id was returned before. -/
theorem path_to_object_id_fresh (e : HspObjectListEntity) (ids : List Nat)
    (p : HspObjectPath) (h : e.Returned ids) (hp : e.path_to_ids_ p = none) :
    (∀ i, i ∈ ids → i < (e.path_to_object_id p).1)
    ∧ (e.path_to_object_id p).1 ∉ ids
    ∧ 1 ≤ (e.path_to_object_id p).1
    ∧ (ids = [] → (e.path_to_object_id p).1 = 1) := by
  obtain ⟨h1, h2, _⟩ := returned_inv e ids h
  have hid := (path_to_object_id_last_id e p).2 hp
  rw [hid]
  refine ⟨?_, ?_, by omega, ?_⟩
  · intro i hi
    have := (h1 i hi).2
    omega
  · intro hc
    have := (h1 _ hc).2
    omega
  · intro hnil
    rw [h2 hnil]

/-- C13, an instance: `A` of the scenario gets the id 1, is forgotten, and
then gets the id 2, not the id 1 again. -/
theorem path_to_object_id_fresh_witness :
    ((HspObjectListEntity.new.path_to_object_id scenario_A).2.apply_delta
        (HspObjectListDelta.new_remove 1 0)).path_to_ids_ scenario_A = none
    ∧ (((HspObjectListEntity.new.path_to_object_id scenario_A).2.apply_delta
        (HspObjectListDelta.new_remove 1 0)).path_to_object_id scenario_A).1 = 2
    ∧ ((∀ i, i ∈ [(HspObjectListEntity.new.path_to_object_id scenario_A).1] →
        i < (((HspObjectListEntity.new.path_to_object_id scenario_A).2.apply_delta
          (HspObjectListDelta.new_remove 1 0)).path_to_object_id scenario_A).1)
      ∧ (((HspObjectListEntity.new.path_to_object_id scenario_A).2.apply_delta
          (HspObjectListDelta.new_remove 1 0)).path_to_object_id scenario_A).1
        ∉ [(HspObjectListEntity.new.path_to_object_id scenario_A).1]
      ∧ 1 ≤ (((HspObjectListEntity.new.path_to_object_id scenario_A).2.apply_delta
          (HspObjectListDelta.new_remove 1 0)).path_to_object_id scenario_A).1
      ∧ ([(HspObjectListEntity.new.path_to_object_id scenario_A).1] = [] →
        (((HspObjectListEntity.new.path_to_object_id scenario_A).2.apply_delta
          (HspObjectListDelta.new_remove 1 0)).path_to_object_id scenario_A).1 = 1)) :=
  ⟨by decide, by decide,
    path_to_object_id_fresh _ _ scenario_A
      (HspObjectListEntity.Returned.apply_delta _ _ (HspObjectListDelta.new_remove 1 0)
        (HspObjectListEntity.Returned.path_to_object_id _ _ scenario_A
          HspObjectListEntity.Returned.new))
      (by decide)⟩

/-- C14. After any sequence of `path_to_object_id` calls and Remove
applications (and of `toggle_expand`s and stored snapshots) on the constructed
registry: `object_id_to_path(i)` is `p` exactly when the path-to-id map sends
`p` to `i`; a call of `path_to_object_id` on a path `p` returns an id that
`object_id_to_path` resolves to `p`; and an id that `path_to_object_id` never
returned resolves to nothing. -/
theorem object_id_to_path_inverse (e : HspObjectListEntity) (ids : List Nat)
    (h : e.Returned ids) :
    (∀ i p, e.object_id_to_path i = some p ↔ e.path_to_ids_ p = some i)
    ∧ (∀ p, (e.path_to_object_id p).2.object_id_to_path (e.path_to_object_id p).1 = some p)
    ∧ (∀ i, i ∉ ids → e.object_id_to_path i = none) := by
  have hr := returned_reachable e ids h
  obtain ⟨hinv, _⟩ := reachable_inv e hr
  refine ⟨fun i p => (hinv p i).symm, ?_, ?_⟩
  · intro p
    obtain ⟨hinv2, _⟩ := reachable_inv _ (HspObjectListEntity.Reachable.path_to_object_id e p hr)
    exact (hinv2 _ _).1 (path_to_object_id_result e p)
  · intro i hi
    obtain ⟨_, _, h3⟩ := returned_inv e ids h
    cases hq : e.object_id_to_path i with
    | none => rfl
    | some q => exact absurd (h3 i q hq) hi

/-- C14, an instance: after `A` and `B` of the scenario got the ids 1 and 2
and the id 1 was removed, the id 2 resolves to `B`, and the ids 1 and 3, like
every id but 1 and 2, resolve to nothing. -/
theorem object_id_to_path_inverse_witness :
    ((((HspObjectListEntity.new.path_to_object_id scenario_A).2.path_to_object_id
        scenario_B).2.apply_delta (HspObjectListDelta.new_remove 1 0)).object_id_to_path 2
      = some scenario_B
      ↔ (((HspObjectListEntity.new.path_to_object_id scenario_A).2.path_to_object_id
        scenario_B).2.apply_delta (HspObjectListDelta.new_remove 1 0)).path_to_ids_ scenario_B
      = some 2)
    ∧ (((HspObjectListEntity.new.path_to_object_id scenario_A).2.path_to_object_id
        scenario_B).2.apply_delta (HspObjectListDelta.new_remove 1 0)).object_id_to_path 3
      = none
    ∧ (((HspObjectListEntity.new.path_to_object_id scenario_A).2.path_to_object_id
        scenario_B).2.apply_delta (HspObjectListDelta.new_remove 1 0)).object_id_to_path 1
      = none :=
  ⟨(object_id_to_path_inverse _ _
      (HspObjectListEntity.Returned.apply_delta _ _ (HspObjectListDelta.new_remove 1 0)
        (HspObjectListEntity.Returned.path_to_object_id _ _ scenario_B
          (HspObjectListEntity.Returned.path_to_object_id _ _ scenario_A
            HspObjectListEntity.Returned.new)))).1 2 scenario_B,
    (object_id_to_path_inverse _ _
      (HspObjectListEntity.Returned.apply_delta _ _ (HspObjectListDelta.new_remove 1 0)
        (HspObjectListEntity.Returned.path_to_object_id _ _ scenario_B
          (HspObjectListEntity.Returned.path_to_object_id _ _ scenario_A
            HspObjectListEntity.Returned.new)))).2.2 3 (by decide),
    by decide⟩

/-! ## Claims about the buffer capacity -/

/-- C23, the code at the constant: `MEMORY_BUFFER_SIZE` is 0x1000000, that is
16,777,216 bytes or 16 MiB, and not the 1 MiB (2^20 = 1,048,576 bytes) of the
claim and of the comment above the macro. -/
theorem memory_buffer_size_value :
    MEMORY_BUFFER_SIZE = 16777216 ∧ MEMORY_BUFFER_SIZE = 16 * 2 ^ 20
      ∧ MEMORY_BUFFER_SIZE ≠ 2 ^ 20 := by
  decide

/-! ## The edit script under the merge precondition -/

theorem getD_at_length {α : Type} (l : List α) (a d : α) (r : List α) (k : Nat)
    (hk : l.length = k) : (l ++ a :: r).getD k d = a := by
  subst hk
  induction l with
  | nil => simp
  | cons x xs ih => simpa using ih

theorem checked_insert (l r : List DeltaRow) (k : Nat) (item : HspObjectListItem)
    (hk : l.length = k) :
    spec_apply_delta_checked (l ++ r) (HspObjectListDelta.new_insert k item)
      = some (l ++ item.row :: r) := by
  have hle : k ≤ (l ++ r).length := by simp [← hk]
  simp only [spec_apply_delta_checked, HspObjectListDelta.new_insert, if_pos hle]
  rw [insertIdx_at_length l _ r k hk]
  rfl

theorem checked_remove (l r : List DeltaRow) (a : DeltaRow) (k id : Nat)
    (hk : l.length = k) (hid : a.object_id = id) :
    spec_apply_delta_checked (l ++ a :: r) (HspObjectListDelta.new_remove id k)
      = some (l ++ r) := by
  have hlt : k < (l ++ a :: r).length := by simp [← hk]
  have hg : ((l ++ a :: r).getD k default).object_id = id := by
    rw [getD_at_length l a default r k hk, hid]
  simp only [spec_apply_delta_checked, HspObjectListDelta.new_remove]
  rw [if_pos ⟨hlt, hg⟩, eraseIdx_at_length l a r k hk]

theorem checked_update (l r : List DeltaRow) (b : DeltaRow) (k : Nat)
    (item : HspObjectListItem) (hk : l.length = k) :
    spec_apply_delta_checked (l ++ b :: r) (HspObjectListDelta.new_update k item)
      = some (l ++ item.row :: r) := by
  have hlt : k < (l ++ b :: r).length := by simp [← hk]
  simp only [spec_apply_delta_checked, HspObjectListDelta.new_update, if_pos hlt]
  rw [set_at_length l _ b r k hk]
  rfl

theorem diff_merge_roundtrip_checked (S T : HspObjectList) (sd td : List Bool) :
    ∀ (fuel si ti : Nat) (diff d : List HspObjectListDelta),
      si ≤ S.length → ti ≤ T.length →
      (S.length - si) + (T.length - ti) ≤ fuel →
      diff_merge S T sd td fuel si ti diff = some d →
      ∃ rest, d = diff ++ rest ∧
        spec_apply_deltas_checked
          ((T.take ti).map HspObjectListItem.row ++ (S.drop si).map HspObjectListItem.row) rest
          = some (T.map HspObjectListItem.row) := by
  intro fuel
  induction fuel with
  | zero =>
    intro si ti diff d hsi hti hfuel h
    have h1 : si = S.length := by omega
    have h2 : ti = T.length := by omega
    subst h1 h2
    simp only [diff_merge, Option.some.injEq] at h
    exact ⟨[], by simp [h], by simp [spec_apply_deltas_checked]⟩
  | succ fuel ih =>
    intro si ti diff d hsi hti hfuel h
    rw [diff_merge] at h
    have hlen : ((T.take ti).map HspObjectListItem.row).length = ti := by
      simp [Nat.min_eq_left hti]
    by_cases hloop : si < S.length ∨ ti < T.length
    · rw [if_pos hloop] at h
      by_cases hrem : ti = T.length ∨ (si < S.length ∧ sd.getD si false = false)
      · rw [if_pos hrem] at h
        have hsi1 : si < S.length := by
          rcases hrem with h1 | h1
          · rcases hloop with h2 | h2
            · exact h2
            · omega
          · exact h1.1
        obtain ⟨rest, hd, happ⟩ := ih (si + 1) ti _ d hsi1 hti (by omega) h
        refine ⟨HspObjectListDelta.new_remove (HspObjectList.item_at S si).object_id ti :: rest,
          by simp [hd], ?_⟩
        rw [drop_eq_item_at_cons S si hsi1, List.map_cons, spec_apply_deltas_checked,
          checked_remove _ _ (HspObjectList.item_at S si).row ti
            (HspObjectList.item_at S si).object_id hlen rfl]
        exact happ
      · rw [if_neg hrem] at h
        have hti1 : ti ≠ T.length := fun hc => hrem (Or.inl hc)
        have hti2 : ti < T.length := by omega
        by_cases hins : si = S.length ∨ (ti < T.length ∧ td.getD ti false = false)
        · rw [if_pos hins] at h
          obtain ⟨rest, hd, happ⟩ := ih si (ti + 1) _ d hsi hti2 (by omega) h
          refine ⟨HspObjectListDelta.new_insert ti (HspObjectList.item_at T ti) :: rest,
            by simp [hd], ?_⟩
          rw [spec_apply_deltas_checked, checked_insert _ _ ti (HspObjectList.item_at T ti) hlen]
          rw [take_succ_eq_item_at T ti hti2] at happ
          simpa using happ
        · rw [if_neg hins] at h
          have hsi0 : si ≠ S.length := fun hc => hins (Or.inl hc)
          have hsi1 : si < S.length := by omega
          by_cases hid : (HspObjectList.item_at S si).object_id
              = (HspObjectList.item_at T ti).object_id
          · rw [if_pos hid] at h
            by_cases heq : (HspObjectList.item_at S si).equals (HspObjectList.item_at T ti) = true
            · rw [if_pos heq] at h
              obtain ⟨rest, hd, happ⟩ := ih (si + 1) (ti + 1) _ d hsi1 hti2 (by omega) h
              refine ⟨rest, hd, ?_⟩
              rw [← happ, take_succ_eq_item_at T ti hti2, drop_eq_item_at_cons S si hsi1,
                (equals_iff _ _).1 heq]
              simp
            · rw [if_neg heq] at h
              obtain ⟨rest, hd, happ⟩ := ih (si + 1) (ti + 1) _ d hsi1 hti2 (by omega) h
              refine ⟨HspObjectListDelta.new_update ti (HspObjectList.item_at T ti) :: rest,
                by simp [hd], ?_⟩
              rw [drop_eq_item_at_cons S si hsi1, List.map_cons, spec_apply_deltas_checked,
                checked_update _ _ (HspObjectList.item_at S si).row ti
                  (HspObjectList.item_at T ti) hlen]
              rw [take_succ_eq_item_at T ti hti2] at happ
              simpa using happ
          · rw [if_neg hid] at h
            exact absurd h (by simp)
    · rw [if_neg hloop] at h
      have h1 : si = S.length := by omega
      have h2 : ti = T.length := by omega
      subst h1 h2
      simp only [Option.some.injEq] at h
      exact ⟨[], by simp [h], by simp [spec_apply_deltas_checked]⟩

theorem filter_mem_cons_of_not_mem (l m : List Nat) (a : Nat) (h : a ∉ l) :
    l.filter (fun x => decide (x ∈ a :: m)) = l.filter (fun x => decide (x ∈ m)) := by
  apply List.filter_congr
  intro x hx
  have hne : x ≠ a := fun hc => h (hc ▸ hx)
  simp [hne]

theorem row_changed_of_not_mem (S : HspObjectList) (t : HspObjectListItem)
    (h : t.object_id ∉ HspObjectList.ids S) : row_changed S t = false := by
  unfold row_changed
  rw [List.any_eq_false]
  intro s hs
  have hne : s.object_id ≠ t.object_id := by
    intro hc
    apply h
    rw [← hc]
    exact List.mem_map_of_mem _ hs
  simp [hne]

theorem eq_of_mem_of_id_eq (S : HspObjectList) (hS : (HspObjectList.ids S).Nodup)
    (a b : HspObjectListItem) (ha : a ∈ S) (hb : b ∈ S) (h : a.object_id = b.object_id) :
    a = b := by
  obtain ⟨i, hi, hai⟩ := List.getElem_of_mem ha
  obtain ⟨j, hj, hbj⟩ := List.getElem_of_mem hb
  have hij : i = j := by
    apply item_at_id_inj S hS i j hi hj
    rw [item_at_eq_getElem S i hi, item_at_eq_getElem S j hj, hai, hbj, h]
  subst hij
  rw [← hai, ← hbj]

theorem row_changed_of_mem (S : HspObjectList) (hS : (HspObjectList.ids S).Nodup)
    (s t : HspObjectListItem) (hs : s ∈ S) (h : s.object_id = t.object_id) :
    row_changed S t = !s.equals t := by
  unfold row_changed
  cases he : s.equals t with
  | true =>
    simp only [Bool.not_true]
    rw [List.any_eq_false]
    intro r hr
    by_cases hid : r.object_id = t.object_id
    · have : r = s := eq_of_mem_of_id_eq S hS r s hr hs (by rw [hid, h])
      simp [this, he]
    · simp [hid]
  | false =>
    simp only [Bool.not_false]
    rw [List.any_eq_true]
    exact ⟨s, hs, by simp [h, he]⟩

theorem deltas_of_kind_cons (k : DeltaKind) (d : HspObjectListDelta)
    (ds : List HspObjectListDelta) :
    deltas_of_kind k (d :: ds) =
      if d.kind = k then d.object_id :: deltas_of_kind k ds else deltas_of_kind k ds := by
  unfold deltas_of_kind
  by_cases h : d.kind = k
  · simp [h]
  · simp [h]

theorem merge_rows_ordered (S : HspObjectList) (hSn : (HspObjectList.ids S).Nodup)
    (ps pt : HspObjectListItem → Bool)
    (hpt : ∀ t, pt t = false → t.object_id ∉ HspObjectList.ids S) :
    ∀ (n : Nat) (ss ts : List HspObjectListItem) (ti : Nat) (diff : List HspObjectListDelta),
      ss.length + ts.length ≤ n →
      (∀ s, s ∈ ss → s ∈ S) →
      (HspObjectList.ids ss).Nodup → (HspObjectList.ids ts).Nodup →
      (∀ s, s ∈ ss → (ps s = true ↔ s.object_id ∈ HspObjectList.ids ts)) →
      (∀ t, t ∈ ts → (pt t = true ↔ t.object_id ∈ HspObjectList.ids ss)) →
      common_ids ss ts = common_ids ts ss →
      ∃ rest, merge_rows ps pt ss ts ti diff = some (diff ++ rest)
        ∧ deltas_of_kind DeltaKind.Remove rest
            = HspObjectList.ids (ss.filter (fun s => !ps s))
        ∧ deltas_of_kind DeltaKind.Insert rest
            = HspObjectList.ids (ts.filter (fun t => !pt t))
        ∧ deltas_of_kind DeltaKind.Update rest
            = HspObjectList.ids (ts.filter (fun t => row_changed S t)) := by
  intro n
  induction n with
  | zero =>
    intro ss ts ti diff hn _ _ _ _ _ _
    have h1 : ss = [] := List.length_eq_zero.1 (by omega)
    have h2 : ts = [] := List.length_eq_zero.1 (by omega)
    subst h1 h2
    exact ⟨[], by simp [merge_rows], rfl, rfl, rfl⟩
  | succ n ih =>
    intro ss ts ti diff hn hsub hS hT hps hpt1 hcom
    cases ss with
    | nil =>
      cases ts with
      | nil => exact ⟨[], by simp [merge_rows], rfl, rfl, rfl⟩
      | cons t ts =>
        have hptt : pt t = false := by
          have := hpt1 t (List.mem_cons_self _ _)
          simp [HspObjectList.ids] at this
          exact this
        simp only [HspObjectList.ids, List.map_cons, List.nodup_cons] at hT
        obtain ⟨rest, h1, h2, h3, h4⟩ := ih [] ts (ti + 1)
          (diff ++ [HspObjectListDelta.new_insert ti t])
          (by simp only [List.length_cons, List.length_nil] at hn ⊢; omega)
          (by intro s hs; simp at hs) (by simp [HspObjectList.ids]) hT.2
          (by intro s hs; simp at hs)
          (by
            intro t1 ht1
            rw [hpt1 t1 (List.mem_cons_of_mem _ ht1)])
          (by simp [common_ids, HspObjectList.ids])
        refine ⟨HspObjectListDelta.new_insert ti t :: rest, ?_, ?_, ?_, ?_⟩
        · rw [merge_rows, h1]; simp
        · rw [deltas_of_kind_cons, if_neg (by simp [HspObjectListDelta.new_insert]), h2]
        · rw [deltas_of_kind_cons, if_pos (by simp [HspObjectListDelta.new_insert]), h3]
          simp [HspObjectList.ids, hptt, HspObjectListDelta.new_insert]
        · rw [deltas_of_kind_cons, if_neg (by simp [HspObjectListDelta.new_insert]), h4]
          simp [HspObjectList.ids, row_changed_of_not_mem S t (hpt t hptt)]
    | cons s ss =>
      have hsS : s ∈ S := hsub s (List.mem_cons_self _ _)
      have hsub1 : ∀ r, r ∈ ss → r ∈ S := fun r hr => hsub r (List.mem_cons_of_mem _ hr)
      have hS0 := hS
      simp only [HspObjectList.ids, List.map_cons, List.nodup_cons] at hS
      cases ts with
      | nil =>
        have hpss : ps s = false := by
          have := hps s (List.mem_cons_self _ _)
          simp [HspObjectList.ids] at this
          exact this
        obtain ⟨rest, h1, h2, h3, h4⟩ := ih ss [] ti
          (diff ++ [HspObjectListDelta.new_remove s.object_id ti])
          (by simp only [List.length_cons, List.length_nil] at hn ⊢; omega)
          hsub1 hS.2 (by simp [HspObjectList.ids])
          (by
            intro s1 hs1
            rw [hps s1 (List.mem_cons_of_mem _ hs1)])
          (by intro t ht; simp at ht)
          (by simp [common_ids, HspObjectList.ids])
        refine ⟨HspObjectListDelta.new_remove s.object_id ti :: rest, ?_, ?_, ?_, ?_⟩
        · rw [merge_rows, h1]; simp
        · rw [deltas_of_kind_cons, if_pos (by simp [HspObjectListDelta.new_remove]), h2]
          simp [HspObjectList.ids, hpss, HspObjectListDelta.new_remove]
        · rw [deltas_of_kind_cons, if_neg (by simp [HspObjectListDelta.new_remove]), h3]
        · rw [deltas_of_kind_cons, if_neg (by simp [HspObjectListDelta.new_remove]), h4]
      | cons t ts =>
        have hT0 := hT
        simp only [HspObjectList.ids, List.map_cons, List.nodup_cons] at hT
        simp only [List.length_cons] at hn
        rw [merge_rows]
        by_cases h1 : ps s = false
        · rw [if_pos h1]
          have hs_not : s.object_id ∉ HspObjectList.ids (t :: ts) := by
            intro hc
            have := (hps s (List.mem_cons_self _ _)).2 hc
            rw [h1] at this
            exact absurd this (by simp)
          obtain ⟨rest, e1, e2, e3, e4⟩ := ih ss (t :: ts) ti
            (diff ++ [HspObjectListDelta.new_remove s.object_id ti])
            (by simp only [List.length_cons]; omega) hsub1 hS.2 hT0
            (fun s1 hs1 => hps s1 (List.mem_cons_of_mem _ hs1))
            (by
              intro t1 ht1
              rw [hpt1 t1 ht1]
              simp only [HspObjectList.ids, List.map_cons, List.mem_cons]
              constructor
              · rintro (h | h)
                · exfalso
                  apply hs_not
                  rw [← h]
                  exact List.mem_map_of_mem _ ht1
                · exact h
              · exact fun h => Or.inr h)
            (by
              have a : common_ids (s :: ss) (t :: ts) = common_ids ss (t :: ts) := by
                simp only [common_ids, HspObjectList.ids, List.map_cons] at hs_not ⊢
                rw [List.filter_cons, if_neg (by simpa using hs_not)]
              have b : common_ids (t :: ts) (s :: ss) = common_ids (t :: ts) ss := by
                simp only [common_ids, HspObjectList.ids] at hs_not ⊢
                exact filter_mem_cons_of_not_mem _ _ _ hs_not
              rw [← a, ← b]
              exact hcom)
          refine ⟨HspObjectListDelta.new_remove s.object_id ti :: rest, ?_, ?_, ?_, ?_⟩
          · rw [e1]; simp
          · rw [deltas_of_kind_cons, if_pos (by simp [HspObjectListDelta.new_remove]), e2]
            simp [HspObjectList.ids, h1, HspObjectListDelta.new_remove]
          · rw [deltas_of_kind_cons, if_neg (by simp [HspObjectListDelta.new_remove]), e3]
          · rw [deltas_of_kind_cons, if_neg (by simp [HspObjectListDelta.new_remove]), e4]
        · rw [if_neg h1]
          have h1t : ps s = true := by simpa using h1
          have hs_in : s.object_id ∈ HspObjectList.ids (t :: ts) :=
            (hps s (List.mem_cons_self _ _)).1 h1t
          by_cases h2 : pt t = false
          · rw [if_pos h2]
            have ht_not : t.object_id ∉ HspObjectList.ids (s :: ss) := by
              intro hc
              have := (hpt1 t (List.mem_cons_self _ _)).2 hc
              rw [h2] at this
              exact absurd this (by simp)
            obtain ⟨rest, e1, e2, e3, e4⟩ := ih (s :: ss) ts (ti + 1)
              (diff ++ [HspObjectListDelta.new_insert ti t])
              (by simp only [List.length_cons]; omega) hsub hS0 hT.2
              (by
                intro s1 hs1
                rw [hps s1 hs1]
                simp only [HspObjectList.ids, List.map_cons, List.mem_cons]
                constructor
                · rintro (h | h)
                  · exfalso
                    apply ht_not
                    rw [← h]
                    exact List.mem_map_of_mem _ hs1
                  · exact h
                · exact fun h => Or.inr h)
              (fun t1 ht1 => hpt1 t1 (List.mem_cons_of_mem _ ht1))
              (by
                have a : common_ids (t :: ts) (s :: ss) = common_ids ts (s :: ss) := by
                  simp only [common_ids, HspObjectList.ids, List.map_cons] at ht_not ⊢
                  rw [List.filter_cons, if_neg (by simpa using ht_not)]
                have b : common_ids (s :: ss) (t :: ts) = common_ids (s :: ss) ts := by
                  simp only [common_ids, HspObjectList.ids] at ht_not ⊢
                  exact filter_mem_cons_of_not_mem _ _ _ ht_not
                rw [← a, ← b]
                exact hcom)
            refine ⟨HspObjectListDelta.new_insert ti t :: rest, ?_, ?_, ?_, ?_⟩
            · rw [e1]; simp
            · rw [deltas_of_kind_cons, if_neg (by simp [HspObjectListDelta.new_insert]), e2]
            · rw [deltas_of_kind_cons, if_pos (by simp [HspObjectListDelta.new_insert]), e3]
              simp [HspObjectList.ids, h2, HspObjectListDelta.new_insert]
            · rw [deltas_of_kind_cons, if_neg (by simp [HspObjectListDelta.new_insert]), e4]
              simp [HspObjectList.ids, row_changed_of_not_mem S t (hpt t h2)]
          · rw [if_neg h2]
            have h2t : pt t = true := by simpa using h2
            have ht_in : t.object_id ∈ HspObjectList.ids (s :: ss) :=
              (hpt1 t (List.mem_cons_self _ _)).1 h2t
            have a : common_ids (s :: ss) (t :: ts) = s.object_id :: common_ids ss (t :: ts) := by
              simp only [common_ids, HspObjectList.ids, List.map_cons] at hs_in ⊢
              rw [List.filter_cons, if_pos (by simpa using hs_in)]
            have b : common_ids (t :: ts) (s :: ss) = t.object_id :: common_ids ts (s :: ss) := by
              simp only [common_ids, HspObjectList.ids, List.map_cons] at ht_in ⊢
              rw [List.filter_cons, if_pos (by simpa using ht_in)]
            rw [a, b] at hcom
            have h3 : s.object_id = t.object_id := (List.cons.inj hcom).1
            have hcom1 := (List.cons.inj hcom).2
            rw [if_pos h3]
            have hkey : ∀ diff1, ∃ rest, merge_rows ps pt ss ts (ti + 1) diff1 = some (diff1 ++ rest)
                ∧ deltas_of_kind DeltaKind.Remove rest
                    = HspObjectList.ids (ss.filter (fun s => !ps s))
                ∧ deltas_of_kind DeltaKind.Insert rest
                    = HspObjectList.ids (ts.filter (fun t => !pt t))
                ∧ deltas_of_kind DeltaKind.Update rest
                    = HspObjectList.ids (ts.filter (fun t => row_changed S t)) := by
              intro diff1
              apply ih ss ts (ti + 1) diff1 (by omega) hsub1 hS.2 hT.2
              · intro s1 hs1
                rw [hps s1 (List.mem_cons_of_mem _ hs1)]
                simp only [HspObjectList.ids, List.map_cons, List.mem_cons]
                constructor
                · rintro (h | h)
                  · exfalso
                    apply hS.1
                    rw [h3, ← h]
                    exact List.mem_map_of_mem _ hs1
                  · exact h
                · exact fun h => Or.inr h
              · intro t1 ht1
                rw [hpt1 t1 (List.mem_cons_of_mem _ ht1)]
                simp only [HspObjectList.ids, List.map_cons, List.mem_cons]
                constructor
                · rintro (h | h)
                  · exfalso
                    apply hT.1
                    rw [← h3, ← h]
                    exact List.mem_map_of_mem _ ht1
                  · exact h
                · exact fun h => Or.inr h
              · have c : common_ids ss (t :: ts) = common_ids ss ts := by
                  simp only [common_ids, HspObjectList.ids, List.map_cons]
                  apply filter_mem_cons_of_not_mem
                  rw [← h3]
                  exact hS.1
                have d : common_ids ts (s :: ss) = common_ids ts ss := by
                  simp only [common_ids, HspObjectList.ids, List.map_cons]
                  apply filter_mem_cons_of_not_mem
                  rw [h3]
                  exact hT.1
                rw [← c, ← d]
                exact hcom1
            have hch := row_changed_of_mem S hSn s t hsS h3
            by_cases h4 : s.equals t = true
            · rw [if_pos h4]
              obtain ⟨rest, e1, e2, e3, e4⟩ := hkey diff
              refine ⟨rest, e1, ?_, ?_, ?_⟩
              · rw [e2]; simp [h1t]
              · rw [e3]; simp [h2t]
              · rw [e4]; simp [hch, h4]
            · rw [if_neg h4]
              obtain ⟨rest, e1, e2, e3, e4⟩ :=
                hkey (diff ++ [HspObjectListDelta.new_update ti t])
              refine ⟨HspObjectListDelta.new_update ti t :: rest, ?_, ?_, ?_, ?_⟩
              · rw [e1]; simp
              · rw [deltas_of_kind_cons, if_neg (by simp [HspObjectListDelta.new_update]), e2]
                simp [h1t]
              · rw [deltas_of_kind_cons, if_neg (by simp [HspObjectListDelta.new_update]), e3]
                simp [h2t]
              · rw [deltas_of_kind_cons, if_pos (by simp [HspObjectListDelta.new_update]), e4]
                simp [HspObjectList.ids, hch, h4, HspObjectListDelta.new_update]

theorem length_eq_deltas_of_kind (d : List HspObjectListDelta) :
    d.length = (deltas_of_kind DeltaKind.Remove d).length
      + (deltas_of_kind DeltaKind.Insert d).length
      + (deltas_of_kind DeltaKind.Update d).length := by
  induction d with
  | nil => rfl
  | cons a d ih =>
    rw [deltas_of_kind_cons, deltas_of_kind_cons, deltas_of_kind_cons]
    cases hk : a.kind <;> simp [ih] <;> omega

theorem diff_ordered (S T : HspObjectList)
    (hS : (HspObjectList.ids S).Nodup) (hT : (HspObjectList.ids T).Nodup)
    (hcom : common_ids S T = common_ids T S) :
    ∃ d, diff_merge_result S T [] = some d
      ∧ deltas_of_kind DeltaKind.Remove d
          = HspObjectList.ids (S.filter (fun s => decide (s.object_id ∉ HspObjectList.ids T)))
      ∧ deltas_of_kind DeltaKind.Insert d
          = HspObjectList.ids (T.filter (fun t => decide (t.object_id ∉ HspObjectList.ids S)))
      ∧ deltas_of_kind DeltaKind.Update d
          = HspObjectList.ids (T.filter (fun t => row_changed S t)) := by
  obtain ⟨rest, h1, h2, h3, h4⟩ := merge_rows_ordered S hS
    (fun r => decide (r.object_id ∈ T.map HspObjectListItem.object_id))
    (fun r => decide (r.object_id ∈ S.map HspObjectListItem.object_id))
    (by intro t ht; simpa [HspObjectList.ids] using ht)
    (S.length + T.length) S T 0 [] (le_refl _) (fun s hs => hs) hS hT
    (by intro s _; simp [HspObjectList.ids]) (by intro t _; simp [HspObjectList.ids]) hcom
  refine ⟨rest, ?_, ?_, ?_, h4⟩
  · rw [diff_merge_result_eq S T hS hT [], h1]; simp
  · rw [h2]; congr 1; apply List.filter_congr; intro s _
    simp only [HspObjectList.ids, decide_not]
  · rw [h3]; congr 1; apply List.filter_congr; intro s _
    simp only [HspObjectList.ids, decide_not]

/-- C24. For all snapshots `S` and `T` whose object ids are pairwise distinct
within each list and whose common ids stand in the same order in both, every
delta of `diff_object_list S T` is applicable when its turn comes (the index is
a valid position, and the index of a Remove holds the row with the id of the
Remove), and the deltas applied in order to the rows of `S` give the rows of
`T` (object id, depth, name, value). -/
theorem diff_edit_script (S T : HspObjectList)
    (hS : (HspObjectList.ids S).Nodup) (hT : (HspObjectList.ids T).Nodup)
    (hcom : common_ids S T = common_ids T S) :
    spec_apply_deltas_checked (S.map HspObjectListItem.row) (diff_object_list S T [])
      = some (T.map HspObjectListItem.row) := by
  obtain ⟨d, hd, -, -, -⟩ := diff_ordered S T hS hT hcom
  obtain ⟨rest, hr, happ⟩ := diff_merge_roundtrip_checked S T _ _ _ 0 0 [] d (Nat.zero_le _)
    (Nat.zero_le _) (by omega) hd
  simp only [List.nil_append] at hr
  subst hr
  unfold diff_object_list
  rw [hd]
  simpa using happ

/-- C24, an instance: the row of id 2 vanished, the row of id 3 changed its
value, a row of id 4 appeared between the common rows and one of id 5 at the
end. -/
theorem diff_edit_script_witness :
    (HspObjectList.ids [⟨1, 0, "a", "(1):", 1⟩, ⟨2, 1, "b", "1", 0⟩, ⟨3, 0, "c", "2", 0⟩]).Nodup
    ∧ (HspObjectList.ids [⟨1, 0, "a", "(1):", 1⟩, ⟨4, 0, "d", "7", 0⟩, ⟨3, 0, "c", "5", 0⟩,
        ⟨5, 0, "e", "9", 0⟩]).Nodup
    ∧ spec_apply_deltas_checked
        (([⟨1, 0, "a", "(1):", 1⟩, ⟨2, 1, "b", "1", 0⟩, ⟨3, 0, "c", "2", 0⟩] :
          HspObjectList).map HspObjectListItem.row)
        (diff_object_list [⟨1, 0, "a", "(1):", 1⟩, ⟨2, 1, "b", "1", 0⟩, ⟨3, 0, "c", "2", 0⟩]
          [⟨1, 0, "a", "(1):", 1⟩, ⟨4, 0, "d", "7", 0⟩, ⟨3, 0, "c", "5", 0⟩,
            ⟨5, 0, "e", "9", 0⟩] [])
      = some (([⟨1, 0, "a", "(1):", 1⟩, ⟨4, 0, "d", "7", 0⟩, ⟨3, 0, "c", "5", 0⟩,
          ⟨5, 0, "e", "9", 0⟩] : HspObjectList).map HspObjectListItem.row) :=
  ⟨by decide, by decide, diff_edit_script _ _ (by decide) (by decide) (by decide)⟩

/-- C25. For all snapshots `S` and `T` whose object ids are pairwise distinct
within each list and whose common ids stand in the same order in both: the
Remove deltas of `diff_object_list S T` carry, one each and in order, the ids
of `S` absent from `T`; the Insert deltas the ids of `T` absent from `S`; the
Update deltas the ids of `T` whose row in `S` differs from the row in `T`
(`equals` fails: depth, name, value or child count); the diff has no further
delta, and it is empty when `T = S`. -/
theorem diff_classification (S T : HspObjectList)
    (hS : (HspObjectList.ids S).Nodup) (hT : (HspObjectList.ids T).Nodup)
    (hcom : common_ids S T = common_ids T S) :
    deltas_of_kind DeltaKind.Remove (diff_object_list S T [])
        = HspObjectList.ids (S.filter (fun s => decide (s.object_id ∉ HspObjectList.ids T)))
    ∧ deltas_of_kind DeltaKind.Insert (diff_object_list S T [])
        = HspObjectList.ids (T.filter (fun t => decide (t.object_id ∉ HspObjectList.ids S)))
    ∧ deltas_of_kind DeltaKind.Update (diff_object_list S T [])
        = HspObjectList.ids (T.filter (fun t => row_changed S t))
    ∧ (diff_object_list S T []).length
        = (S.filter (fun s => decide (s.object_id ∉ HspObjectList.ids T))).length
          + (T.filter (fun t => decide (t.object_id ∉ HspObjectList.ids S))).length
          + (T.filter (fun t => row_changed S t)).length
    ∧ (T = S → diff_object_list S T [] = []) := by
  obtain ⟨d, hd, h1, h2, h3⟩ := diff_ordered S T hS hT hcom
  have hd1 : diff_object_list S T [] = d := by
    unfold diff_object_list
    rw [hd]
  have hlen := length_eq_deltas_of_kind d
  rw [h1, h2, h3] at hlen
  simp only [HspObjectList.ids, List.length_map] at hlen
  rw [hd1]
  refine ⟨h1, h2, h3, hlen, ?_⟩
  intro hTS
  subst hTS
  apply List.length_eq_zero.1
  rw [hlen]
  have e1 : (T.filter (fun s => decide (s.object_id ∉ T.map HspObjectListItem.object_id))) = [] := by
    rw [List.filter_eq_nil_iff]
    intro a ha
    simp only [decide_eq_true_eq, not_not]
    exact List.mem_map_of_mem _ ha
  have e2 : (T.filter (fun t => row_changed T t)) = [] := by
    rw [List.filter_eq_nil_iff]
    intro a ha
    rw [row_changed_of_mem T hS a a ha rfl]
    simp [HspObjectListItem.equals]
  rw [e1, e2]
  rfl

/-- C25, an instance: of the source ids 1, 2, 3 the id 2 is removed, the ids
4 and 5 are inserted, and the row of id 3 is updated. -/
theorem diff_classification_witness :
    deltas_of_kind DeltaKind.Remove
        (diff_object_list [⟨1, 0, "a", "(1):", 1⟩, ⟨2, 1, "b", "1", 0⟩, ⟨3, 0, "c", "2", 0⟩]
          [⟨1, 0, "a", "(1):", 1⟩, ⟨4, 0, "d", "7", 0⟩, ⟨3, 0, "c", "5", 0⟩,
            ⟨5, 0, "e", "9", 0⟩] []) = [2]
    ∧ deltas_of_kind DeltaKind.Insert
        (diff_object_list [⟨1, 0, "a", "(1):", 1⟩, ⟨2, 1, "b", "1", 0⟩, ⟨3, 0, "c", "2", 0⟩]
          [⟨1, 0, "a", "(1):", 1⟩, ⟨4, 0, "d", "7", 0⟩, ⟨3, 0, "c", "5", 0⟩,
            ⟨5, 0, "e", "9", 0⟩] []) = [4, 5]
    ∧ deltas_of_kind DeltaKind.Update
        (diff_object_list [⟨1, 0, "a", "(1):", 1⟩, ⟨2, 1, "b", "1", 0⟩, ⟨3, 0, "c", "2", 0⟩]
          [⟨1, 0, "a", "(1):", 1⟩, ⟨4, 0, "d", "7", 0⟩, ⟨3, 0, "c", "5", 0⟩,
            ⟨5, 0, "e", "9", 0⟩] []) = [3] := by
  have h := diff_classification
    [⟨1, 0, "a", "(1):", 1⟩, ⟨2, 1, "b", "1", 0⟩, ⟨3, 0, "c", "2", 0⟩]
    [⟨1, 0, "a", "(1):", 1⟩, ⟨4, 0, "d", "7", 0⟩, ⟨3, 0, "c", "5", 0⟩, ⟨5, 0, "e", "9", 0⟩]
    (by decide) (by decide) (by decide)
  refine ⟨h.1.trans (by decide), h.2.1.trans (by decide), h.2.2.1.trans (by decide)⟩

theorem literalFormString_loop_single_line :
    ∀ (l : List Char) (b : Bool) (c : Char), c ∈ literalFormString_loop b l →
      c ≠ Char.ofNat 13 ∧ c ≠ Char.ofNat 10 ∧ c ≠ Char.ofNat 9 := by
  intro l
  induction l with
  | nil => intro b c h; cases b <;> simp [literalFormString_loop] at h
  | cons a rest ih =>
    intro b c h
    cases b with
    | true =>
      rw [literalFormString_loop] at h
      exact ih false c h
    | false =>
      rw [literalFormString_loop] at h
      split at h
      · simp at h
      · rename_i h0
        split at h
        · rename_i h1
          simp only [List.mem_cons] at h
          rcases h with h | h | h
          · subst h; decide
          · subst h
            rcases h1 with h1 | h1 <;> (rw [h1]; decide)
          · exact ih false c h
        · rename_i h1
          split at h
          · simp only [List.mem_cons] at h
            rcases h with h | h | h
            · subst h; decide
            · subst h; decide
            · exact ih false c h
          · rename_i h2
            split at h
            · split at h
              · simp only [List.mem_cons] at h
                rcases h with h | h | h
                · subst h; decide
                · subst h; decide
                · exact ih true c h
              · simp only [List.mem_cons] at h
                rcases h with h | h | h
                · subst h; decide
                · subst h; decide
                · exact ih false c h
            · rename_i h3
              simp only [List.mem_cons] at h
              rcases h with h | h
              · subst h
                exact ⟨fun hc => h3 (Or.inl hc), fun hc => h3 (Or.inr hc), h2⟩
              · exact ih false c h

theorem literalFormString_loop_eq_spec_escape :
    ∀ (n : Nat) (l : List Char), l.length ≤ n → Char.ofNat 0 ∉ l →
      literalFormString_loop false l = spec_escape l := by
  intro n
  induction n with
  | zero =>
    intro l hl _
    have : l = [] := List.length_eq_zero.1 (by omega)
    subst this
    rfl
  | succ n ih =>
    intro l hl h0
    match l, hl, h0 with
    | [], _, _ => rfl
    | [c], _, h0 =>
      have hc : c ≠ Char.ofNat 0 := fun hc => h0 (by simp [hc])
      simp only [literalFormString_loop, spec_escape, spec_escape_char, if_neg hc,
        List.head?_nil]
      split
      · rfl
      · split
        · rfl
        · split
          · simp
          · rfl
    | c :: d :: rest, hl, h0 =>
      have hc : c ≠ Char.ofNat 0 := fun hc => h0 (by simp [hc])
      have h0d : Char.ofNat 0 ∉ d :: rest := fun h => h0 (List.mem_cons_of_mem _ h)
      have h0r : Char.ofNat 0 ∉ rest := fun h => h0d (List.mem_cons_of_mem _ h)
      simp only [List.length_cons] at hl
      have ihd := ih (d :: rest) (by simp only [List.length_cons]; omega) h0d
      have ihr := ih rest (by omega) h0r
      rw [literalFormString_loop, spec_escape, if_neg hc]
      by_cases hcr : c = Char.ofNat 13 ∧ d = Char.ofNat 10
      · obtain ⟨h1, h2⟩ := hcr
        subst h1 h2
        simp only [literalFormString_loop, ihr]
        simp
      · rw [if_neg hcr]
        simp only [spec_escape_char]
        split
        · rw [ihd]; rfl
        · split
          · rw [ihd]; rfl
          · split
            · rw [if_neg (by simpa using hcr), ihd]; rfl
            · rw [ihd]; rfl

/-- C27. For every string `s`, `hpiutil::literalFormString s` begins and ends
with a double quote (code 34) and has no CR (13), LF (10) or TAB (9) character;
the flow form of a Str path is this string; and for a string without a NUL
character the part between the quotes is the string escaped character by
character: backslash and double quote get a backslash in front, TAB becomes
backslash `t`, and each CR, LF or CR LF pair becomes one backslash `n`. -/
theorem literalFormString_single_line (s : String) :
    (literalFormString s).data.head? = some (Char.ofNat 34)
    ∧ (literalFormString s).data.getLast? = some (Char.ofNat 34)
    ∧ (∀ c, c ∈ (literalFormString s).data →
        c ≠ Char.ofNat 13 ∧ c ≠ Char.ofNat 10 ∧ c ≠ Char.ofNat 9)
    ∧ (∀ (o : HspObjects) (path : HspObjectPath), path.kind = HspObjectKind.Str →
        write_flow_form o path = literalFormString (o.str_value path))
    ∧ (Char.ofNat 0 ∉ s.data →
        (literalFormString s).data
          = Char.ofNat 34 :: spec_escape s.data ++ [Char.ofNat 34]) := by
  refine ⟨rfl, ?_, ?_, ?_, ?_⟩
  · simp only [literalFormString]
    rw [List.getLast?_append]
    rfl
  · intro c hc
    simp only [literalFormString, List.mem_cons, List.mem_append, List.mem_singleton,
      List.cons_append, List.not_mem_nil, or_false] at hc
    rcases hc with hc | hc | hc
    · subst hc; decide
    · exact literalFormString_loop_single_line _ _ c hc
    · subst hc; decide
  · intro o path hk
    simp [write_flow_form, hk]
  · intro h0
    simp only [literalFormString]
    rw [literalFormString_loop_eq_spec_escape _ _ (le_refl _) h0]

/-- C27, an instance: the string `a` TAB `b` CR LF `c` backslash LF has the
literal form quote `a` backslash `t` `b` backslash `n` `c` backslash backslash
backslash `n` quote. -/
theorem literalFormString_single_line_witness :
    Char.ofNat 0 ∉ (String.mk ['a', Char.ofNat 9, 'b', Char.ofNat 13, Char.ofNat 10, 'c',
        Char.ofNat 92, Char.ofNat 10]).data
    ∧ (literalFormString (String.mk ['a', Char.ofNat 9, 'b', Char.ofNat 13, Char.ofNat 10, 'c',
        Char.ofNat 92, Char.ofNat 10])).data
      = [Char.ofNat 34, 'a', Char.ofNat 92, 't', 'b', Char.ofNat 92, 'n', 'c', Char.ofNat 92,
          Char.ofNat 92, Char.ofNat 92, 'n', Char.ofNat 34] :=
  ⟨by decide,
    ((literalFormString_single_line (String.mk ['a', Char.ofNat 9, 'b', Char.ofNat 13,
      Char.ofNat 10, 'c', Char.ofNat 92, Char.ofNat 10])).2.2.2.2 (by decide)).trans
      (by decide)⟩

theorem accept_children_loop_eq (accept : HspObjectPath → List WriterCall) (o : HspObjects)
    (path : HspObjectPath) :
    ∀ (n i : Nat), HspObjectWriterImpl.accept_children_loop accept o path n i
      = (List.range' i n).flatMap (fun k => accept (o.child_at path k)) := by
  intro n
  induction n with
  | zero => intro i; rfl
  | succ n ih =>
    intro i
    rw [HspObjectWriterImpl.accept_children_loop, ih (i + 1)]
    rfl

theorem flow_accept_children_loop_eq (accept : HspObjectPath → List WriterCall)
    (o : HspObjects) (path : HspObjectPath) :
    ∀ (n i : Nat), HspObjectWriterImpl.FlowForm.accept_children_loop accept o path n i
      = (List.range' i n).flatMap (fun k =>
          (if k ≠ 0 then [WriterCall.cat ", "] else []) ++ accept (o.child_at path k)) := by
  intro n
  induction n with
  | zero => intro i; rfl
  | succ n ih =>
    intro i
    rw [HspObjectWriterImpl.FlowForm.accept_children_loop, ih (i + 1)]
    simp [List.range'_succ, List.flatMap_cons]

/-- C28, the code at the cap. For every path with exactly 3000 children
(`MAX_CHILD_COUNT` of HspObjectWriter.cpp), `accept_children` renders all 3000
children and then writes the total-count marker all the same: in the table form
and the block form the calls `cat`, `catSize 3000`, `catln` of the marker, in
the flow form `cat` of the marker. -/
theorem accept_children_marker_at_cap (accept : HspObjectPath → List WriterCall)
    (o : HspObjects) (path : HspObjectPath) (h : o.child_count path = 3000) :
    HspObjectWriterImpl.TableForm.accept_children accept o path
      = (List.range 3000).flatMap (fun k => accept (o.child_at path k))
        ++ [WriterCall.cat ".. (合計", WriterCall.catSize 3000, WriterCall.catln " 件)"]
    ∧ HspObjectWriterImpl.BlockForm.accept_children accept o path
      = (List.range 3000).flatMap (fun k => accept (o.child_at path k))
        ++ [WriterCall.cat ".. (合計 ", WriterCall.catSize 3000, WriterCall.catln " 件)"]
    ∧ HspObjectWriterImpl.FlowForm.accept_children accept o path
      = (List.range 3000).flatMap (fun k =>
          (if k ≠ 0 then [WriterCall.cat ", "] else []) ++ accept (o.child_at path k))
        ++ [WriterCall.cat "; .."] := by
  refine ⟨?_, ?_, ?_⟩
  · simp only [HspObjectWriterImpl.TableForm.accept_children, h,
      HspObjectWriter.MAX_CHILD_COUNT, accept_children_loop_eq, List.range_eq_range']
    simp
  · simp only [HspObjectWriterImpl.BlockForm.accept_children, h,
      HspObjectWriter.MAX_CHILD_COUNT, accept_children_loop_eq, List.range_eq_range']
    simp
  · simp only [HspObjectWriterImpl.FlowForm.accept_children, h,
      HspObjectWriter.MAX_CHILD_COUNT, flow_accept_children_loop_eq, List.range_eq_range']
    simp

/-- C28, an instance: the root of `cap_objects` has exactly 3000 children, and
the three forms write the marker after them. -/
theorem accept_children_marker_at_cap_witness :
    cap_objects.child_count HspObjectPath.Root = 3000
    ∧ HspObjectWriterImpl.TableForm.accept_children (fun _ => []) cap_objects HspObjectPath.Root
      = (List.range 3000).flatMap (fun k => (fun _ => [])
          (cap_objects.child_at HspObjectPath.Root k))
        ++ [WriterCall.cat ".. (合計", WriterCall.catSize 3000, WriterCall.catln " 件)"] :=
  ⟨rfl, (accept_children_marker_at_cap (fun _ => []) cap_objects HspObjectPath.Root rfl).1⟩

/-! ## The writer and the registry -/

theorem extends_refl (e : HspObjectListEntity) : e.Extends e [] :=
  ⟨rfl, rfl, fun _ _ h => h, fun _ _ h => Or.inl h⟩

theorem extends_trans (e e1 e2 : HspObjectListEntity) (l1 l2 : List Nat)
    (h1 : e.Extends e1 l1) (h2 : e1.Extends e2 l2) : e.Extends e2 (l1 ++ l2) := by
  obtain ⟨a1, b1, c1, d1⟩ := h1
  obtain ⟨a2, b2, c2, d2⟩ := h2
  refine ⟨a2.trans a1, b2.trans b1, fun i p h => c2 i p (c1 i p h), ?_⟩
  intro i p h
  rcases d2 i p h with h | h
  · rcases d1 i p h with h | h
    · exact Or.inl h
    · exact Or.inr (List.mem_append_left _ h)
  · exact Or.inr (List.mem_append_right _ h)

theorem extends_path_to_object_id (e : HspObjectListEntity) (he : e.Reachable)
    (q : HspObjectPath) :
    e.Extends (e.path_to_object_id q).2 [(e.path_to_object_id q).1] := by
  obtain ⟨_, hb⟩ := reachable_inv e he
  unfold HspObjectListEntity.path_to_object_id
  cases hq : e.path_to_ids_ q with
  | some id => exact ⟨rfl, rfl, fun _ _ h => h, fun _ _ h => Or.inl h⟩
  | none =>
    refine ⟨rfl, rfl, ?_, ?_⟩
    · intro i p h
      have := (hb i p h).2
      have hne : i ≠ e.last_id_ + 1 := by omega
      simp [map_insert, hne, h]
    · intro i p h
      simp only [map_insert] at h
      by_cases hi : i = e.last_id_ + 1
      · exact Or.inr (by simp [hi])
      · rw [if_neg hi] at h
        exact Or.inl h

theorem is_expanded_extends (e e1 : HspObjectListEntity) (l : List Nat) (h : e.Extends e1 l)
    (p : HspObjectPath) : e1.is_expanded p = e.is_expanded p := by
  unfold HspObjectListEntity.is_expanded
  rw [h.1]

theorem depth_step_extends (e e1 : HspObjectListEntity) (l : List Nat) (h : e.Extends e1 l)
    (a b : HspObjectListItem) (hs : depth_step e a b) : depth_step e1 a b := by
  refine ⟨hs.1, fun hlt => ?_⟩
  obtain ⟨hc, p, hp, hx⟩ := hs.2 hlt
  exact ⟨hc, p, h.2.2.1 _ _ hp, by rw [is_expanded_extends e e1 l h]; exact hx⟩

theorem add_children_loop_appends (o : HspObjects)
    (add : HspObjectPath → HspObjectListWriter → Option HspObjectListWriter)
    (hadd : ∀ q w w1, add q w = some w1 → w.id_provider_.Reachable →
      ∃ rows, rows ≠ [] ∧ w.Appends w1 rows)
    (p : HspObjectPath) :
    ∀ (n i : Nat) (w w1 : HspObjectListWriter),
      HspObjectListWriter.add_children_loop add o p n i w = some w1 →
      w.id_provider_.Reachable →
      ∃ rows, w.Appends w1 rows ∧ (n = 0 → rows = []) := by
  intro n
  induction n with
  | zero =>
    intro i w w1 h hr
    simp only [HspObjectListWriter.add_children_loop, Option.some.injEq] at h
    subst h
    exact ⟨[], ⟨by simp, rfl, by simp, by simp, hr, extends_refl _, List.chain'_nil⟩,
      fun _ => rfl⟩
  | succ n ih =>
    intro i w w1 h hr
    rw [HspObjectListWriter.add_children_loop] at h
    cases hq : add (o.child_at p i) w with
    | none => rw [hq] at h; simp at h
    | some w2 =>
      rw [hq] at h
      simp only [] at h
      obtain ⟨rows1, hne, a1, b1, c1, d1, e1, f1, g1⟩ := hadd _ _ _ hq hr
      obtain ⟨rows2, ⟨a2, b2, c2, d2, e2, f2, g2⟩, _⟩ := ih (i + 1) w2 w1 h e1
      refine ⟨rows1 ++ rows2, ⟨?_, ?_, ?_, ?_, e2, ?_, ?_⟩, by simp⟩
      · rw [a2, a1, List.append_assoc]
      · rw [b2, b1]
      · intro r hr1
        rcases List.mem_append.1 hr1 with h1 | h1
        · exact c1 r h1
        · have := c2 r h1; omega
      · intro r hr1
        apply d1 r
        cases rows1 with
        | nil => exact absurd rfl hne
        | cons x xs => simpa using hr1
      · have := extends_trans _ _ _ _ _ f1 f2
        simpa [HspObjectList.ids] using this
      · apply List.Chain'.append
        · exact List.Chain'.imp (fun a b hab => depth_step_extends _ _ _ f2 a b hab) g1
        · exact g2
        · intro x hx y hy
          have hx1 : x ∈ rows1 := List.mem_of_mem_getLast? hx
          have hxd := c1 x hx1
          have hyd := d2 y hy
          rw [b1] at hyd
          exact ⟨by omega, fun hlt => by omega⟩

theorem add_appends (o : HspObjects) :
    ∀ (fuel : Nat) (q : HspObjectPath) (w w1 : HspObjectListWriter),
      HspObjectListWriter.add o fuel q w = some w1 → w.id_provider_.Reachable →
      ∃ rows, rows ≠ [] ∧ w.Appends w1 rows := by
  intro fuel
  induction fuel with
  | zero => intro q w w1 h; simp [HspObjectListWriter.add] at h
  | succ fuel ih =>
    intro q w w1 h hr
    have hr1 := HspObjectListEntity.Reachable.path_to_object_id _ q hr
    have hext := extends_path_to_object_id _ hr q
    rw [HspObjectListWriter.add] at h
    by_cases hv : o.child_count q = 1 ∧ is_value_kind (o.child_at q 0).kind = true
    · rw [if_pos hv] at h
      simp only [Option.some.injEq] at h
      subst h
      exact ⟨[_], by simp, rfl, rfl, by simp, by simp, hr1, hext, List.chain'_singleton _⟩
    · rw [if_neg hv] at h
      simp only [HspObjectListWriter.add_scope_with] at h
      split at h
      · simp at h
      · rename_i w2 hc
        simp only [Option.some.injEq] at h
        subst h
        unfold HspObjectListWriter.add_children_with at hc
        simp only [] at hc
        split at hc
        · simp only [Option.some.injEq] at hc
          subst hc
          exact ⟨[⟨(w.id_provider_.path_to_object_id q).1, w.depth_, o.name q,
            "(" ++ toString (o.child_count q) ++ "):", o.child_count q⟩], by simp, rfl,
            by simp, by simp, by simp, hr1, hext, List.chain'_singleton _⟩
        · rename_i hexp
          obtain ⟨rows, ⟨a2, b2, c2, d2, e2, f2, g2⟩, hz⟩ :=
            add_children_loop_appends o _ ih q _ 0 _ w2 hc hr1
          simp only [] at a2 b2 c2 d2 f2
          refine ⟨⟨(w.id_provider_.path_to_object_id q).1, w.depth_, o.name q,
            "(" ++ toString (o.child_count q) ++ "):", o.child_count q⟩ :: rows, by simp,
            ?_, ?_, ?_, ?_, e2, ?_, ?_⟩
          · simp only [a2, List.append_assoc, List.singleton_append]
          · simp only [b2]; omega
          · intro r hr2
            rcases List.mem_cons.1 hr2 with h1 | h1
            · rw [h1]
            · have := c2 r h1; omega
          · intro r hr2
            simp only [List.head?_cons, Option.some.injEq] at hr2
            rw [← hr2]
          · have := extends_trans _ _ _ _ _ hext f2
            simpa [HspObjectList.ids] using this
          · rw [List.chain'_cons']
            refine ⟨?_, g2⟩
            intro y hy
            have hyd := d2 y hy
            refine ⟨by simp only [hyd]; omega, fun _ => ⟨?_, q, ?_, ?_⟩⟩
            · show 0 < o.child_count q
              by_contra hc0
              have h0 : o.child_count q = 0 := by omega
              have := hz (by rw [h0]; rfl)
              rw [this] at hy
              simp at hy
            · show w2.id_provider_.id_to_paths_ _ = some q
              apply f2.2.2.1
              exact ((reachable_inv _ hr1).1 _ _).1 (path_to_object_id_result _ q)
            · rw [is_expanded_extends _ _ _ f2]
              simpa using hexp

theorem add_children_appends (o : HspObjects) (fuel : Nat) (q : HspObjectPath)
    (w w1 : HspObjectListWriter)
    (h : HspObjectListWriter.add_children o fuel q w = some w1)
    (hr : w.id_provider_.Reachable) : ∃ rows, w.Appends w1 rows := by
  unfold HspObjectListWriter.add_children HspObjectListWriter.add_children_with at h
  split at h
  · simp only [Option.some.injEq] at h
    subst h
    exact ⟨[], by simp, rfl, by simp, by simp, hr, extends_refl _, List.chain'_nil⟩
  · obtain ⟨rows, hA, _⟩ := add_children_loop_appends o _ (add_appends o fuel) q _ 0 w w1 h hr
    exact ⟨rows, hA⟩

/-- C26. In every snapshot that `add_children` builds for the root from
depth 0 (on a reachable registry, whenever the traversal returns): the first
row has depth 0; every later row is at most one level deeper than its
predecessor; and a row is deeper than its predecessor only when the
predecessor has `child_count > 0` and the registry holds for its id a path
that is expanded. -/
theorem add_children_preorder (o : HspObjects) (fuel : Nat) (e : HspObjectListEntity)
    (w1 : HspObjectListWriter) (he : e.Reachable)
    (h : HspObjectListWriter.add_children o fuel HspObjectPath.Root
      (HspObjectListWriter.new e) = some w1) :
    (∀ r, w1.object_list_.head? = some r → r.depth = 0)
    ∧ List.Chain' (depth_step w1.id_provider_) w1.object_list_ := by
  obtain ⟨rows, a, _, _, d, _, _, g⟩ := add_children_appends o fuel _ _ w1 h he
  have : w1.object_list_ = rows := by simpa [HspObjectListWriter.new] using a
  rw [this]
  exact ⟨d, g⟩

/-! ## `update`: what the deltas do to the registry -/

theorem apply_delta_of_not_remove (e : HspObjectListEntity) (d : HspObjectListDelta)
    (h : d.kind ≠ DeltaKind.Remove) : e.apply_delta d = e := by
  unfold HspObjectListEntity.apply_delta
  cases hk : d.kind with
  | Remove => exact absurd hk h
  | Insert => rfl
  | Update => rfl

theorem apply_delta_erased (e : HspObjectListEntity) (d : HspObjectListDelta) (i : Nat)
    (p : HspObjectPath) (h1 : e.id_to_paths_ i = some p)
    (h2 : (e.apply_delta d).id_to_paths_ i = none) :
    (e.apply_delta d).expanded_ p = none ∧ (e.apply_delta d).path_to_ids_ p = none := by
  unfold HspObjectListEntity.apply_delta at h2 ⊢
  cases hk : d.kind with
  | Insert => rw [hk] at h2; simp only [] at h2; rw [h1] at h2; simp at h2
  | Update => rw [hk] at h2; simp only [] at h2; rw [h1] at h2; simp at h2
  | Remove =>
    rw [hk] at h2
    simp only [] at h2 ⊢
    cases hq : e.id_to_paths_ d.object_id with
    | none => rw [hq] at h2; simp only [] at h2; rw [h1] at h2; simp at h2
    | some q =>
      rw [hq] at h2
      simp only [map_erase] at h2 ⊢
      by_cases hi : i = d.object_id
      · subst hi
        rw [h1] at hq
        have hpq : p = q := Option.some.inj hq
        subst hpq
        simp
      · rw [if_neg hi, h1] at h2
        simp at h2

theorem apply_delta_remove_none (e : HspObjectListEntity) (d : HspObjectListDelta)
    (hk : d.kind = DeltaKind.Remove) : (e.apply_delta d).id_to_paths_ d.object_id = none := by
  unfold HspObjectListEntity.apply_delta
  rw [hk]
  simp only []
  cases hq : e.id_to_paths_ d.object_id with
  | none => simpa using hq
  | some q => simp [map_erase]

theorem foldl_apply_delta_shrinks (ds : List HspObjectListDelta) :
    ∀ (e : HspObjectListEntity),
      (ds.foldl HspObjectListEntity.apply_delta e).last_id_ = e.last_id_
      ∧ (ds.foldl HspObjectListEntity.apply_delta e).object_list_ = e.object_list_
      ∧ (∀ i p, (ds.foldl HspObjectListEntity.apply_delta e).id_to_paths_ i = some p →
          e.id_to_paths_ i = some p)
      ∧ (∀ p i, (ds.foldl HspObjectListEntity.apply_delta e).path_to_ids_ p = some i →
          e.path_to_ids_ p = some i)
      ∧ (∀ p b, (ds.foldl HspObjectListEntity.apply_delta e).expanded_ p = some b →
          e.expanded_ p = some b)
      ∧ (e.Reachable → (ds.foldl HspObjectListEntity.apply_delta e).Reachable) := by
  induction ds with
  | nil => intro e; exact ⟨rfl, rfl, fun _ _ h => h, fun _ _ h => h, fun _ _ h => h, fun h => h⟩
  | cons d ds ih =>
    intro e
    obtain ⟨a, b, c, f, g⟩ := apply_delta_shrinks e d
    obtain ⟨a1, b1, c1, f1, g1, r1⟩ := ih (e.apply_delta d)
    simp only [List.foldl_cons]
    exact ⟨a1.trans a, b1.trans b, fun i p h => c i p (c1 i p h), fun p i h => f p i (f1 p i h),
      fun p x h => g p x (g1 p x h),
      fun h => r1 (HspObjectListEntity.Reachable.apply_delta e d h)⟩

theorem foldl_apply_delta_forgets (ds : List HspObjectListDelta) :
    ∀ (e : HspObjectListEntity) (d : HspObjectListDelta), d ∈ ds → d.kind = DeltaKind.Remove →
      (ds.foldl HspObjectListEntity.apply_delta e).id_to_paths_ d.object_id = none
      ∧ ∀ p, e.id_to_paths_ d.object_id = some p →
          (ds.foldl HspObjectListEntity.apply_delta e).path_to_ids_ p = none
          ∧ (ds.foldl HspObjectListEntity.apply_delta e).expanded_ p = none := by
  induction ds with
  | nil => intro e d hd; simp at hd
  | cons d0 ds ih =>
    intro e d hd hk
    simp only [List.foldl_cons]
    obtain ⟨_, _, c1, f1, g1, _⟩ := foldl_apply_delta_shrinks ds (e.apply_delta d0)
    have hnone : ∀ {α β : Type} (m m1 : α → Option β) (k : α),
        (∀ v, m1 k = some v → m k = some v) → m k = none → m1 k = none := by
      intro α β m m1 k hsh hm
      cases hv : m1 k with
      | none => rfl
      | some v => rw [hsh v hv] at hm; simp at hm
    have herased : ∀ p, e.id_to_paths_ d.object_id = some p →
        (e.apply_delta d0).id_to_paths_ d.object_id = none →
        (ds.foldl HspObjectListEntity.apply_delta (e.apply_delta d0)).path_to_ids_ p = none
        ∧ (ds.foldl HspObjectListEntity.apply_delta (e.apply_delta d0)).expanded_ p = none := by
      intro p hp hn
      obtain ⟨x, y⟩ := apply_delta_erased e d0 _ p hp hn
      exact ⟨hnone _ _ p (fun v hv => f1 p v hv) y, hnone _ _ p (fun v hv => g1 p v hv) x⟩
    rcases List.mem_cons.1 hd with h0 | h0
    · subst h0
      have hn := apply_delta_remove_none e d hk
      exact ⟨hnone _ _ _ (fun v hv => c1 _ v hv) hn, fun p hp => herased p hp hn⟩
    · obtain ⟨i1, i2⟩ := ih (e.apply_delta d0) d h0 hk
      refine ⟨i1, fun p hp => ?_⟩
      cases hq : (e.apply_delta d0).id_to_paths_ d.object_id with
      | none => exact herased p hp hq
      | some q =>
        have := (apply_delta_shrinks e d0).2.2.1 _ _ hq
        rw [hp] at this
        have hpq : p = q := Option.some.inj this
        subst hpq
        exact i2 p hq

theorem update_unfold (e : HspObjectListEntity) (o : HspObjects) (fuel : Nat)
    (r : List HspObjectListDelta × HspObjectListEntity) (h : e.update o fuel = some r)
    (he : e.Reachable) :
    ∃ w, HspObjectListWriter.add_children o fuel HspObjectPath.Root
          (HspObjectListWriter.new e) = some w
      ∧ w.id_provider_.Reachable
      ∧ e.Extends w.id_provider_ (HspObjectList.ids w.object_list_)
      ∧ r.1 = diff_object_list e.object_list_ w.object_list_ []
      ∧ r.2 = { r.1.foldl HspObjectListEntity.apply_delta w.id_provider_ with
                object_list_ := w.object_list_ } := by
  unfold HspObjectListEntity.update at h
  split at h
  · simp at h
  · rename_i w hw
    simp only [Option.some.injEq] at h
    obtain ⟨rows, a, _, _, _, hr, hx, _⟩ := add_children_appends o fuel _ _ w hw he
    have hrows : w.object_list_ = rows := by simpa [HspObjectListWriter.new] using a
    rw [← hrows] at hx
    have hl : w.id_provider_.object_list_ = e.object_list_ := hx.2.1
    refine ⟨w, hw, hr, hx, ?_, ?_⟩
    · rw [← h, hl]
    · rw [← h, hl]

theorem option_map_eq_some {α β : Type} (x : Option α) (g : α → β) (v : β)
    (h : x.map g = some v) : ∃ a, x = some a ∧ g a = v := by
  cases x with
  | none => simp at h
  | some a => exact ⟨a, rfl, by simpa using h⟩

theorem update_reachable (e : HspObjectListEntity) (o : HspObjects) (fuel : Nat)
    (r : List HspObjectListDelta × HspObjectListEntity) (h : e.update o fuel = some r)
    (he : e.Reachable) : r.2.Reachable := by
  obtain ⟨w, _, hr, _, _, hr2⟩ := update_unfold e o fuel r h he
  rw [hr2]
  exact HspObjectListEntity.Reachable.store _ _
    ((foldl_apply_delta_shrinks r.1 w.id_provider_).2.2.2.2.2 hr)

theorem scenario_run :
    ∃ w1, HspObjectListWriter.add_children scenario_objects 2 HspObjectPath.Root
        (HspObjectListWriter.new HspObjectListEntity.new) = some w1
      ∧ w1.object_list_.map HspObjectListItem.depth = [0, 1, 1, 0] :=
  option_map_eq_some _ (fun w => w.object_list_.map HspObjectListItem.depth) _ (by decide)

/-- C26, an instance: the snapshot of the scenario, whose rows have the depths
0, 1, 1, 0. -/
theorem add_children_preorder_witness :
    ∃ w1, HspObjectListWriter.add_children scenario_objects 2 HspObjectPath.Root
        (HspObjectListWriter.new HspObjectListEntity.new) = some w1
      ∧ w1.object_list_.map HspObjectListItem.depth = [0, 1, 1, 0]
      ∧ (∀ r, w1.object_list_.head? = some r → r.depth = 0)
      ∧ List.Chain' (depth_step w1.id_provider_) w1.object_list_ :=
  scenario_run.elim fun w1 h =>
    ⟨w1, h.1, h.2, add_children_preorder scenario_objects 2 HspObjectListEntity.new w1
      HspObjectListEntity.Reachable.new h.1⟩

/-! ## Claims about `update` -/

/-- C11. Whenever `update` returns a diff (on a reachable registry): for every
Remove delta of the diff, `object_id_to_path` of its id is `none` afterwards,
and if the id had a path before the update, then that path has no id mapping
and no stored expansion flag afterwards, and a later `path_to_object_id` on the
path allocates a new id (the counter plus 1, greater than the removed id and
not tracked). `apply_delta` on an Insert or Update delta leaves the registry
as it is. -/
theorem update_forgets (e : HspObjectListEntity) (o : HspObjects) (fuel : Nat)
    (r : List HspObjectListDelta × HspObjectListEntity) (he : e.Reachable)
    (h : e.update o fuel = some r) :
    (∀ d, d ∈ r.1 → d.kind = DeltaKind.Remove →
      r.2.object_id_to_path d.object_id = none
      ∧ ∀ p, e.object_id_to_path d.object_id = some p →
          r.2.path_to_ids_ p = none ∧ r.2.expanded_ p = none
          ∧ (r.2.path_to_object_id p).1 = r.2.last_id_ + 1
          ∧ d.object_id < (r.2.path_to_object_id p).1
          ∧ r.2.object_id_to_path (r.2.path_to_object_id p).1 = none)
    ∧ (∀ (e1 : HspObjectListEntity) (d : HspObjectListDelta),
        d.kind ≠ DeltaKind.Remove → e1.apply_delta d = e1) := by
  refine ⟨?_, apply_delta_of_not_remove⟩
  have hreach := update_reachable e o fuel r h he
  obtain ⟨w, _, hr, hx, _, hr2⟩ := update_unfold e o fuel r h he
  have hmap : r.2.id_to_paths_
      = (r.1.foldl HspObjectListEntity.apply_delta w.id_provider_).id_to_paths_ := by rw [hr2]
  have hmap2 : r.2.path_to_ids_
      = (r.1.foldl HspObjectListEntity.apply_delta w.id_provider_).path_to_ids_ := by rw [hr2]
  have hmap3 : r.2.expanded_
      = (r.1.foldl HspObjectListEntity.apply_delta w.id_provider_).expanded_ := by rw [hr2]
  have hlast : r.2.last_id_ = w.id_provider_.last_id_ := by
    rw [hr2]
    exact (foldl_apply_delta_shrinks r.1 w.id_provider_).1
  intro d hd hk
  obtain ⟨f1, f2⟩ := foldl_apply_delta_forgets r.1 w.id_provider_ d hd hk
  refine ⟨by unfold HspObjectListEntity.object_id_to_path; rw [hmap]; exact f1, ?_⟩
  intro p hp
  have hwp : w.id_provider_.id_to_paths_ d.object_id = some p := hx.2.2.1 _ _ hp
  obtain ⟨g1, g2⟩ := f2 p hwp
  have hnone : r.2.path_to_ids_ p = none := by rw [hmap2]; exact g1
  have hnew := (path_to_object_id_last_id r.2 p).2 hnone
  have hle := ((reachable_inv _ hr).2 _ _ hwp).2
  refine ⟨hnone, by rw [hmap3]; exact g2, hnew, by rw [hnew, hlast]; omega, ?_⟩
  rw [hnew]
  unfold HspObjectListEntity.object_id_to_path
  cases hq : r.2.id_to_paths_ (r.2.last_id_ + 1) with
  | none => rfl
  | some q =>
    have := ((reachable_inv _ hreach).2 _ _ hq).2
    omega

theorem stale_run :
    ∃ r, stale_entity.update scenario_objects 2 = some r
      ∧ r.1.map (fun d => (d.kind, d.object_id, d.index))
        = [(DeltaKind.Remove, 1, 0), (DeltaKind.Insert, 2, 0), (DeltaKind.Insert, 3, 1),
            (DeltaKind.Insert, 4, 2), (DeltaKind.Insert, 5, 3)] :=
  option_map_eq_some _ (fun r => r.1.map (fun d => (d.kind, d.object_id, d.index))) _
    (by decide)

/-- C11, an instance: the registry tracks the static variable 7 under the id
1; the debuggee of the scenario has no such variable, so `update` returns the
Remove of id 1 and four Inserts. -/
theorem update_forgets_witness :
    ∃ r, stale_entity.update scenario_objects 2 = some r
      ∧ r.1.map (fun d => (d.kind, d.object_id, d.index))
        = [(DeltaKind.Remove, 1, 0), (DeltaKind.Insert, 2, 0), (DeltaKind.Insert, 3, 1),
            (DeltaKind.Insert, 4, 2), (DeltaKind.Insert, 5, 3)]
      ∧ stale_entity.object_id_to_path 1 = some (HspObjectPath.StaticVar HspObjectPath.Root 7)
      ∧ (∀ d, d ∈ r.1 → d.kind = DeltaKind.Remove →
          r.2.object_id_to_path d.object_id = none
          ∧ ∀ p, stale_entity.object_id_to_path d.object_id = some p →
              r.2.path_to_ids_ p = none ∧ r.2.expanded_ p = none
              ∧ (r.2.path_to_object_id p).1 = r.2.last_id_ + 1
              ∧ d.object_id < (r.2.path_to_object_id p).1
              ∧ r.2.object_id_to_path (r.2.path_to_object_id p).1 = none) :=
  stale_run.elim fun r h =>
    ⟨r, h.1, h.2, by decide,
      (update_forgets stale_entity scenario_objects 2 r
        (HspObjectListEntity.Reachable.store _ _
          (HspObjectListEntity.Reachable.path_to_object_id _ _
            HspObjectListEntity.Reachable.new)) h.1).1⟩

theorem tuple_le_total (a b : String × String × Nat) : tuple_le a b ∨ tuple_le b a := by
  unfold tuple_le
  rcases lt_trichotomy a.1 b.1 with h | h | h
  · exact Or.inl (Or.inl h)
  · rcases lt_trichotomy a.2.1 b.2.1 with h1 | h1 | h1
    · exact Or.inl (Or.inr ⟨h, Or.inl h1⟩)
    · rcases le_total a.2.2 b.2.2 with h2 | h2
      · exact Or.inl (Or.inr ⟨h, Or.inr ⟨h1, h2⟩⟩)
      · exact Or.inr (Or.inr ⟨h.symm, Or.inr ⟨h1.symm, h2⟩⟩)
    · exact Or.inr (Or.inr ⟨h.symm, Or.inl h1⟩)
  · exact Or.inr (Or.inl h)

theorem tuple_le_trans (a b c : String × String × Nat) (h1 : tuple_le a b)
    (h2 : tuple_le b c) : tuple_le a c := by
  unfold tuple_le at *
  rcases h1 with h1 | ⟨e1, h1⟩
  · rcases h2 with h2 | ⟨e2, h2⟩
    · exact Or.inl (lt_trans h1 h2)
    · exact Or.inl (e2 ▸ h1)
  · rcases h2 with h2 | ⟨e2, h2⟩
    · exact Or.inl (e1 ▸ h2)
    · refine Or.inr ⟨e1.trans e2, ?_⟩
      rcases h1 with h1 | ⟨f1, h1⟩
      · rcases h2 with h2 | ⟨f2, h2⟩
        · exact Or.inl (lt_trans h1 h2)
        · exact Or.inl (f2 ▸ h1)
      · rcases h2 with h2 | ⟨f2, h2⟩
        · exact Or.inl (f1 ▸ h2)
        · exact Or.inr ⟨f1.trans f2, le_trans h1 h2⟩

theorem tuple_le_fst (a b : String × String × Nat) (h : tuple_le a b) : a.1 ≤ b.1 := by
  rcases h with h | ⟨h, _⟩
  · exact le_of_lt h
  · exact le_of_eq h

theorem global_le_module_name (var_name : String) :
    GLOBAL_MODULE_NAME ≤ var_name_to_module_name var_name := by
  unfold var_name_to_module_name var_name_to_scope_resolution
  cases hl : var_name.data.dropWhile (fun c => c != '@') with
  | nil => exact le_refl _
  | cons c rest =>
    have hc : c = '@' := by
      have := List.head_dropWhile_not (fun c => c != '@') var_name.data
        (by rw [hl]; simp)
      simp only [hl, List.head_cons] at this
      simpa using this
    subst hc
    simp only []
    cases rest with
    | nil => exact le_refl _
    | cons d rest =>
      apply le_of_lt
      have hg : GLOBAL_MODULE_NAME = String.mk ['@'] := by decide
      rw [hg, String.lt_iff_toList_lt]
      exact List.Lex.cons List.Lex.nil

theorem group_vars_tuples_spec :
    ∀ (var_names : List String) (vi : Nat),
      (group_vars_tuples var_names vi).map (fun t => t.2.2) = List.range' vi var_names.length
      ∧ ∀ t, t ∈ group_vars_tuples var_names vi →
          ∃ name, var_names[t.2.2 - vi]? = some name ∧ vi ≤ t.2.2
            ∧ t.1 = var_name_to_module_name name := by
  intro var_names
  induction var_names with
  | nil => intro vi; exact ⟨rfl, by simp [group_vars_tuples]⟩
  | cons a rest ih =>
    intro vi
    obtain ⟨h1, h2⟩ := ih (vi + 1)
    refine ⟨by simp [group_vars_tuples, h1, List.range'_succ], ?_⟩
    intro t ht
    simp only [group_vars_tuples, List.mem_cons] at ht
    rcases ht with ht | ht
    · subst ht
      exact ⟨a, by simp, le_refl _, rfl⟩
    · obtain ⟨name, hn, hle, hm⟩ := h2 t ht
      refine ⟨name, ?_, by omega, hm⟩
      have : t.2.2 - vi = (t.2.2 - (vi + 1)) + 1 := by omega
      rw [this, List.getElem?_cons_succ]
      exact hn

theorem group_vars_build_spec :
    ∀ (ts : List (String × String × Nat)) (init : List Module) (last : Module),
      List.Pairwise tuple_le ts →
      (∀ t, t ∈ ts → last.name_ ≤ t.1) →
      List.Pairwise (fun a b => a < b) ((init ++ [last]).map Module.name_) →
      ((group_vars_build init last ts).head?.map Module.name_
          = (init ++ [last]).head?.map Module.name_)
      ∧ List.Pairwise (fun a b => a < b) ((group_vars_build init last ts).map Module.name_)
      ∧ (group_vars_build init last ts).flatMap Module.var_ids_
          = (init ++ [last]).flatMap Module.var_ids_ ++ ts.map (fun t => t.2.2)
      ∧ ∀ m, m ∈ group_vars_build init last ts → ∀ vi, vi ∈ m.var_ids_ →
          (∃ m0, m0 ∈ init ++ [last] ∧ m0.name_ = m.name_ ∧ vi ∈ m0.var_ids_)
          ∨ ∃ t, t ∈ ts ∧ t.1 = m.name_ ∧ t.2.2 = vi := by
  intro ts
  induction ts with
  | nil =>
    intro init last _ _ hs
    exact ⟨rfl, hs, by simp [group_vars_build], fun m hm vi hvi => Or.inl ⟨m, hm, rfl, hvi⟩⟩
  | cons t ts ih =>
    intro init last hp hge hs
    rw [List.pairwise_cons] at hp
    rw [group_vars_build]
    by_cases hname : last.name_ = t.1
    · have hstep : group_vars_step init last t = (init, last.add_var t.2.2) := by
        simp [group_vars_step, hname]
      rw [hstep]
      obtain ⟨a, b, c, d⟩ := ih init (last.add_var t.2.2) hp.2
        (by
          intro t1 ht1
          show last.name_ ≤ t1.1
          rw [hname]
          exact tuple_le_fst _ _ (hp.1 t1 ht1))
        (by simpa [Module.add_var] using hs)
      refine ⟨?_, b, ?_, ?_⟩
      · rw [a]
        cases init <;> simp [Module.add_var]
      · rw [c]
        simp [Module.add_var]
      · intro m hm vi hvi
        rcases d m hm vi hvi with ⟨m0, h1, h2, h3⟩ | ⟨t1, h1, h2, h3⟩
        · rcases List.mem_append.1 h1 with h4 | h4
          · exact Or.inl ⟨m0, List.mem_append_left _ h4, h2, h3⟩
          · simp only [List.mem_singleton] at h4
            subst h4
            simp only [Module.add_var, List.mem_append, List.mem_singleton] at h2 h3
            rcases h3 with h3 | h3
            · exact Or.inl ⟨last, by simp, h2, h3⟩
            · exact Or.inr ⟨t, List.mem_cons_self _ _, by rw [← hname, h2], h3.symm⟩
        · exact Or.inr ⟨t1, List.mem_cons_of_mem _ h1, h2, h3⟩
    · have hstep : group_vars_step init last t
          = (init ++ [last], (Module.mk t.1 []).add_var t.2.2) := by
        simp [group_vars_step, hname]
      rw [hstep]
      have hlt : last.name_ < t.1 :=
        lt_of_le_of_ne (hge t (List.mem_cons_self _ _)) hname
      obtain ⟨a, b, c, d⟩ := ih (init ++ [last]) ((Module.mk t.1 []).add_var t.2.2) hp.2
        (by
          intro t1 ht1
          show t.1 ≤ t1.1
          exact tuple_le_fst _ _ (hp.1 t1 ht1))
        (by
          simp only [List.map_append, List.map_cons, List.map_nil, Module.add_var]
          rw [List.pairwise_append]
          simp only [List.map_append, List.map_cons, List.map_nil] at hs
          refine ⟨hs, List.pairwise_singleton _ _, ?_⟩
          intro x hx y hy
          simp only [List.mem_singleton] at hy
          subst hy
          rw [List.pairwise_append] at hs
          rcases List.mem_append.1 hx with h1 | h1
          · exact lt_trans (hs.2.2 x h1 _ (by simp)) hlt
          · simp only [List.mem_singleton] at h1
            rw [h1]
            exact hlt)
      refine ⟨?_, b, ?_, ?_⟩
      · rw [a]
        cases init <;> simp
      · rw [c]
        simp [Module.add_var]
      · intro m hm vi hvi
        rcases d m hm vi hvi with ⟨m0, h1, h2, h3⟩ | ⟨t1, h1, h2, h3⟩
        · rcases List.mem_append.1 h1 with h4 | h4
          · exact Or.inl ⟨m0, h4, h2, h3⟩
          · simp only [List.mem_singleton] at h4
            subst h4
            simp only [Module.add_var, List.nil_append, List.mem_singleton] at h2 h3
            exact Or.inr ⟨t, List.mem_cons_self _ _, h2, h3.symm⟩
        · exact Or.inr ⟨t1, List.mem_cons_of_mem _ h1, h2, h3⟩

/-- C30. For every list of variable names, `group_vars_by_module` returns
modules such that the first module is named `@`; the module names are pairwise
distinct; the variable ids of all modules together are the ids 0 to n - 1, each
once; and a module holds the id of a variable only when its name is the module
name of the variable: the rest of the variable name from its first `@` on, or
`@` when the name has none. -/
theorem group_vars_by_module_spec (var_names : List String) :
    (group_vars_by_module var_names).head?.map Module.name_ = some "@"
    ∧ ((group_vars_by_module var_names).map Module.name_).Nodup
    ∧ List.Perm ((group_vars_by_module var_names).flatMap Module.var_ids_)
        (List.range var_names.length)
    ∧ (∀ m, m ∈ group_vars_by_module var_names → ∀ vi, vi ∈ m.var_ids_ →
        ∃ name, var_names[vi]? = some name ∧ m.name_ = var_name_to_module_name name)
    ∧ (∀ name, var_name_to_module_name name
        = if '@' ∈ name.data then String.mk (name.data.dropWhile (fun c => c != '@'))
          else "@") := by
  have hsorted : List.Pairwise tuple_le
      (List.insertionSort tuple_le (group_vars_tuples var_names 0)) :=
    @List.sorted_insertionSort _ tuple_le _ ⟨tuple_le_total⟩ ⟨tuple_le_trans⟩ _
  have hperm := List.perm_insertionSort tuple_le (group_vars_tuples var_names 0)
  obtain ⟨t1, t2⟩ := group_vars_tuples_spec var_names 0
  obtain ⟨a, b, c, d⟩ := group_vars_build_spec _ [] (Module.mk GLOBAL_MODULE_NAME []) hsorted
    (by
      intro t ht
      obtain ⟨name, _, _, hm⟩ := t2 t (hperm.subset ht)
      rw [hm]
      exact global_le_module_name name)
    (by simp)
  refine ⟨a, ?_, ?_, ?_, ?_⟩
  · exact (List.Pairwise.imp (fun h => ne_of_lt h) b)
  · unfold group_vars_by_module
    rw [c, List.range_eq_range', ← t1]
    simpa using (hperm.map (fun t => t.2.2))
  · intro m hm vi hvi
    rcases d m hm vi hvi with ⟨m0, h1, _, h3⟩ | ⟨t, h1, h2, h3⟩
    · simp only [List.nil_append, List.mem_singleton] at h1
      subst h1
      simp at h3
    · obtain ⟨name, hn, _, hmn⟩ := t2 t (hperm.subset h1)
      exact ⟨name, by rw [← h3]; simpa using hn, by rw [← h2, hmn]⟩
  · intro name
    unfold var_name_to_module_name var_name_to_scope_resolution
    cases hl : name.data.dropWhile (fun c => c != '@') with
    | nil =>
      have : '@' ∉ name.data := by
        intro hmem
        rw [List.dropWhile_eq_nil_iff] at hl
        have := hl '@' hmem
        simp at this
      simp [this, GLOBAL_MODULE_NAME]
    | cons c rest =>
      have : '@' ∈ name.data := by
        have hc : c = '@' := by
          have := List.head_dropWhile_not (fun c => c != '@') name.data
            (by rw [hl]; simp)
          simp only [hl, List.head_cons] at this
          simpa using this
        have hsub : c ∈ name.data := by
          have := (List.dropWhile_suffix (fun c => c != '@') (l := name.data)).subset
          exact this (by rw [hl]; exact List.mem_cons_self _ _)
        rw [← hc]
        exact hsub
      simp [this]

/-! ## The accessors: lemmas -/

theorem path_to_pval_element (sdk : HspSdk) (api : HspDebugApi) (p : HspObjectPath)
    (indexes : List Nat) :
    path_to_pval sdk api (HspObjectPath.Element p indexes) = path_to_pval sdk api p := rfl

theorem path_to_data_element (sdk : HspSdk) (api : HspDebugApi) (p : HspObjectPath)
    (indexes : List Nat) :
    path_to_data sdk api (HspObjectPath.Element p indexes)
      = match path_to_pval sdk api p with
        | Outcome.thrown e => Outcome.thrown e
        | Outcome.returned none => Outcome.returned none
        | Outcome.returned (some pval) =>
          Outcome.returned (some (api.var_element_to_data pval
            (HspDebugApi.var_element_to_aptr indexes))) := rfl

theorem param_path_to_param_data_in_range (api : HspDebugApi) (param_stack : HspParamStack)
    (param_index : Nat) (h : param_index < api.param_stack_to_data_count param_stack) :
    param_path_to_param_data_with api param_index (Outcome.returned (some param_stack))
      = Outcome.returned (some
          { struct_dat := param_stack.struct_dat
            param_index := param_index
            ptr := param_stack.ptr + api.param_offset param_stack.struct_dat param_index }) := by
  simp only [param_path_to_param_data_with, HspDebugApi.param_stack_to_data_at]
  rw [if_neg (by omega)]
  rfl

/-- C22, the code on a stale index. For every Element path whose owning
variable resolves to a `PVal`, `path_to_data` returns the data that
`var_element_to_data` makes of `indexes[0]`, whatever the element count of the
variable: also for an index that is not below the element count the result is
not `none`, and the index has been handed to `var_element_to_data`. -/
theorem path_to_data_element_unchecked (sdk : HspSdk) (api : HspDebugApi)
    (p : HspObjectPath) (indexes : List Nat) (pval : Nat)
    (h : path_to_pval sdk api p = Outcome.returned (some pval)) :
    path_to_data sdk api (HspObjectPath.Element p indexes)
      = Outcome.returned (some (api.var_element_to_data pval
          (HspDebugApi.var_element_to_aptr indexes)))
    ∧ path_to_data sdk api (HspObjectPath.Element p indexes) ≠ Outcome.returned none := by
  have hd : path_to_data sdk api (HspObjectPath.Element p indexes)
      = Outcome.returned (some (api.var_element_to_data pval
          (HspDebugApi.var_element_to_aptr indexes))) := by
    rw [path_to_data_element, h]
  exact ⟨hd, by rw [hd]; simp⟩

/-- C22, an instance: the static variable 0 of the example debuggee has one
element; the Element path with the index 5 gets the data at the address that
`PVal_getPtr` gives for the index 5. -/
theorem path_to_data_element_unchecked_witness :
    path_to_pval example_sdk example_api (HspObjectPath.StaticVar HspObjectPath.Root 0)
      = Outcome.returned (some 100)
    ∧ example_api.var_to_element_count 100 = 1
    ∧ HspDebugApi.var_element_to_aptr [5] = 5
    ∧ path_to_data example_sdk example_api
        (HspObjectPath.Element (HspObjectPath.StaticVar HspObjectPath.Root 0) [5])
      = Outcome.returned (some { type := HspType.Int, ptr := 1005 }) :=
  ⟨by decide, by decide, by decide,
    (path_to_data_element_unchecked example_sdk example_api
      (HspObjectPath.StaticVar HspObjectPath.Root 0) [5] 100 (by decide)).1.trans
      (by decide)⟩

/-- C29, the code on a parameter of type `MPTYPE_DNUM`. Let the parameter
types be pairwise different, let the parent of a Param path give a parameter
stack, the index be below the parameter count and the parameter have the type
`MPTYPE_DNUM`. Then `param_path_to_child_count` is 1 and
`param_path_to_child_at` gives the Double child, but `path_to_data` on the
Param returns `none`, so `double_path_to_value` finds no data and the value
read is the default 0, whatever the stack holds. -/
theorem param_dnum_has_no_data (sdk : HspSdk) (api : HspDebugApi) (p : HspObjectPath)
    (param_index : Nat) (param_stack : HspParamStack)
    (h1 : sdk.MPTYPE_DNUM ≠ sdk.MPTYPE_LOCALVAR)
    (h2 : sdk.MPTYPE_DNUM ≠ sdk.MPTYPE_LOCALSTRING)
    (h3 : sdk.MPTYPE_DNUM ≠ sdk.MPTYPE_INUM)
    (hs : path_to_param_stack sdk api p = Outcome.returned (some param_stack))
    (hi : param_index < api.param_stack_to_data_count param_stack)
    (ht : api.param_mptype param_stack.struct_dat param_index = sdk.MPTYPE_DNUM) :
    HspObjects.param_path_to_child_count sdk api
        (HspObjectPath.Param p sdk.MPTYPE_DNUM param_index) sdk.MPTYPE_DNUM
      = Outcome.returned 1
    ∧ HspObjects.param_path_to_child_at sdk api
        (HspObjectPath.Param p sdk.MPTYPE_DNUM param_index) sdk.MPTYPE_DNUM 0
      = Outcome.returned
          (HspObjectPath.Double (HspObjectPath.Param p sdk.MPTYPE_DNUM param_index))
    ∧ path_to_data sdk api (HspObjectPath.Param p sdk.MPTYPE_DNUM param_index)
      = Outcome.returned none
    ∧ double_path_to_value sdk api (HspObjectPath.Param p sdk.MPTYPE_DNUM param_index)
      = Outcome.returned none
    ∧ HspObjects.double_path_to_value sdk api
        (HspObjectPath.Param p sdk.MPTYPE_DNUM param_index)
      = Outcome.returned 0 := by
  have hd : path_to_data sdk api (HspObjectPath.Param p sdk.MPTYPE_DNUM param_index)
      = Outcome.returned none := by
    unfold path_to_param_stack at hs
    simp only [path_to_data, resolve, resolve_with, path_to_data_with, hs,
      param_path_to_param_data_in_range api param_stack param_index hi,
      HspDebugApi.param_data_to_data, HspDebugApi.param_data_to_type, ht, if_neg h2, if_neg h3]
  have hv : double_path_to_value sdk api (HspObjectPath.Param p sdk.MPTYPE_DNUM param_index)
      = Outcome.returned none := by
    simp only [double_path_to_value, hd]
  refine ⟨?_, ?_, hd, hv, ?_⟩
  · simp [HspObjects.param_path_to_child_count, h1]
  · simp [HspObjects.param_path_to_child_at, h1, h2]
  · simp only [HspObjects.double_path_to_value, hv, Outcome.map, Option.getD_none]

/-- C29, an instance: the parameter 1 of the call frame 0 of the example
debuggee has the type `MPTYPE_DNUM` and the stack holds one half for it; the
value read is 0. -/
theorem param_dnum_has_no_data_witness :
    example_api.read_double (1000 + example_api.param_offset 7 1) = 1 / 2
    ∧ HspObjects.double_path_to_value example_sdk example_api
        (HspObjectPath.Param (HspObjectPath.CallFrame HspObjectPath.Root 0)
          example_sdk.MPTYPE_DNUM 1)
      = Outcome.returned 0 :=
  ⟨by simp [example_api],
    (param_dnum_has_no_data example_sdk example_api
      (HspObjectPath.CallFrame HspObjectPath.Root 0) 1 ⟨7, 1000⟩ (by decide) (by decide)
      (by decide) (by decide) (by decide) (by decide)).2.2.2.2⟩

/-! ## The text line of a delta: claims -/

theorem spaces_data : SPACES.data = List.replicate 16 ' ' := by decide

theorem indent_eq (d : HspObjectListDelta) :
    d.indent = String.mk (List.replicate (min 16 (d.depth * 2)) ' ') := by
  unfold HspObjectListDelta.indent
  rw [spaces_data, List.take_replicate, Nat.min_comm]

/-- C15. For every delta and every text written before, `write_to` appends the
kind symbol (`+` for Insert, `-` for Remove, `!` for Update), a comma, the
object id in decimal, a comma, the index in decimal, a comma, the indentation
(spaces) followed by the name, a comma, the value, and the line end. The two
deltas of the example give the lines of the example, and a Remove delta has an
empty name and an empty value. -/
theorem write_to_line (d : HspObjectListDelta) (w : String) :
    StringWriter.finish w d.write_to
      = w ++ spec_delta_line (HspObjectListDelta.kind_to_string d.kind) d.object_id d.index
          (min 16 (d.depth * 2)) d.name d.value
        ++ String.mk [Char.ofNat 13, Char.ofNat 10]
    ∧ HspObjectListDelta.kind_to_string DeltaKind.Insert = "+"
    ∧ HspObjectListDelta.kind_to_string DeltaKind.Remove = "-"
    ∧ HspObjectListDelta.kind_to_string DeltaKind.Update = "!"
    ∧ StringWriter.finish ""
        (HspObjectListDelta.new_insert 0 ⟨7, 0, "variable_x", "<int>[5]", 5⟩).write_to
      = "+,7,0,variable_x,<int>[5]" ++ String.mk [Char.ofNat 13, Char.ofNat 10]
    ∧ StringWriter.finish ""
        (HspObjectListDelta.new_insert 1 ⟨8, 1, "(0)", "42", 0⟩).write_to
      = "+,8,1,  (0),42" ++ String.mk [Char.ofNat 13, Char.ofNat 10]
    ∧ (∀ object_id index,
        (HspObjectListDelta.new_remove object_id index).name = ""
        ∧ (HspObjectListDelta.new_remove object_id index).value = ""
        ∧ StringWriter.finish "" (HspObjectListDelta.new_remove object_id index).write_to
          = "-," ++ toString object_id ++ "," ++ toString index ++ ",,"
            ++ String.mk [Char.ofNat 13, Char.ofNat 10]) := by
  refine ⟨?_, rfl, rfl, rfl, by decide, by decide, ?_⟩
  · have h := indent_eq d
    unfold HspObjectListDelta.indent at h
    simp only [StringWriter.finish, HspObjectListDelta.write_to, List.foldl_cons,
      List.foldl_nil, StringWriter.call, spec_delta_line, h, String.append_assoc]
  · intro object_id index
    refine ⟨rfl, rfl, ?_⟩
    simp only [StringWriter.finish, HspObjectListDelta.write_to, List.foldl_cons,
      List.foldl_nil, StringWriter.call, HspObjectListDelta.new_remove,
      HspObjectListDelta.kind_to_string, String.append_assoc]
    apply String.ext
    simp [spaces_data]

/-- C16, the code on a deep row. The indentation that `write_to` passes to the
writer consists of spaces, and their number is the smaller of 16 and twice the
depth: `SPACES` has 16 characters. For the Insert delta of a row of depth 9
the indentation has 16 spaces, not 18. -/
theorem write_to_indent (d : HspObjectListDelta) :
    d.write_to.get? 6 = some (StringWriterCall.cat d.indent)
    ∧ d.indent.length = min 16 (d.depth * 2)
    ∧ (∀ c, c ∈ d.indent.data → c = ' ')
    ∧ (HspObjectListDelta.new_insert 0 ⟨1, 9, "n", "v", 0⟩).indent.length = 16
    ∧ (HspObjectListDelta.new_insert 0 ⟨1, 9, "n", "v", 0⟩).indent.length ≠ 2 * 9 := by
  refine ⟨rfl, ?_, ?_, by decide, by decide⟩
  · rw [indent_eq]
    simp [String.length]
  · intro c hc
    rw [indent_eq] at hc
    exact List.eq_of_mem_replicate hc

/-! ## The server: lemmas -/

theorem send_oversize (s : KnowbugServerImpl) (kind wparam lparam : Int) (text : String)
    (h : MEMORY_BUFFER_SIZE ≤ text.length) : s.send kind wparam lparam text = s := by
  unfold KnowbugServerImpl.send
  rw [if_pos h]

theorem send_delivered (s : KnowbugServerImpl) (kind wparam lparam : Int) (text : String)
    (hwnd : Nat) (data : Nat → Char)
    (h : text.length < MEMORY_BUFFER_SIZE)
    (hc : s.client_hwnd_opt_ = some hwnd) (hv : s.server_buffer_view_opt_ = some data) :
    s.send kind wparam lparam text
      = { s with
          server_buffer_view_opt_ := some (buffer_write data text)
          sent_ := s.sent_ ++ [⟨hwnd, kind, wparam, lparam, text⟩] } := by
  unfold KnowbugServerImpl.send
  rw [if_neg (by omega), hc, hv]

theorem send_sent (s : KnowbugServerImpl) (kind wparam lparam : Int) (text : String) :
    (s.send kind wparam lparam text).object_list_entity_ = s.object_list_entity_
    ∧ ∃ new, (s.send kind wparam lparam text).sent_ = s.sent_ ++ new ∧ new.length ≤ 1
      ∧ ∀ m, m ∈ new → m.kind = kind ∧ m.wparam = wparam ∧ m.text = text := by
  unfold KnowbugServerImpl.send
  split
  · exact ⟨rfl, [], by simp, by simp, by simp⟩
  · split
    · exact ⟨rfl, [_], rfl, by simp, by simp⟩
    · exact ⟨rfl, [], by simp, by simp, by simp⟩

/-- C18. `send` with a text of `MEMORY_BUFFER_SIZE` characters or more leaves
the whole state of the server as it is: nothing is delivered, nothing is put in
the queue and the shared buffer is unchanged, with or without a client. With a
client window and a view of the buffer, `send` with a shorter text leaves the
whole text in the buffer, character by character from the offset 0, followed by
a NUL, and delivers one message with this text; the queue is unchanged. -/
theorem send_spec (s : KnowbugServerImpl) (kind wparam lparam : Int) (text : String) :
    (MEMORY_BUFFER_SIZE ≤ text.length → s.send kind wparam lparam text = s)
    ∧ (∀ client_hwnd data, s.client_hwnd_opt_ = some client_hwnd →
        s.server_buffer_view_opt_ = some data → text.length < MEMORY_BUFFER_SIZE →
        ∃ data1, (s.send kind wparam lparam text).server_buffer_view_opt_ = some data1
          ∧ (∀ i, i < text.length → data1 i = text.data.getD i (Char.ofNat 0))
          ∧ data1 text.length = Char.ofNat 0
          ∧ (s.send kind wparam lparam text).sent_
              = s.sent_ ++ [⟨client_hwnd, kind, wparam, lparam, text⟩]
          ∧ (s.send kind wparam lparam text).send_queue_ = s.send_queue_) := by
  refine ⟨send_oversize s kind wparam lparam text, ?_⟩
  intro client_hwnd data hc hv hfit
  rw [send_delivered s kind wparam lparam text client_hwnd data hfit hc hv]
  refine ⟨buffer_write data text, rfl, ?_, ?_, rfl, rfl⟩
  · intro i hi
    simp [buffer_write, hi]
  · simp [buffer_write]

/-- C18, an instance: a text of `MEMORY_BUFFER_SIZE` characters sent by the
example server, which has a client, changes nothing; the text `ab` is
delivered. -/
theorem send_spec_witness :
    MEMORY_BUFFER_SIZE ≤ (String.mk (List.replicate MEMORY_BUFFER_SIZE 'x')).length
    ∧ example_server.send KMTC_LOGMES 0 0 (String.mk (List.replicate MEMORY_BUFFER_SIZE 'x'))
      = example_server
    ∧ ∃ data1, (example_server.send KMTC_LOGMES 0 0 "ab").server_buffer_view_opt_ = some data1
      ∧ (∀ i, i < "ab".length → data1 i = "ab".data.getD i (Char.ofNat 0))
      ∧ data1 "ab".length = Char.ofNat 0
      ∧ (example_server.send KMTC_LOGMES 0 0 "ab").sent_
          = example_server.sent_ ++ [⟨5, KMTC_LOGMES, 0, 0, "ab"⟩]
      ∧ (example_server.send KMTC_LOGMES 0 0 "ab").send_queue_ = example_server.send_queue_ :=
  ⟨by simp [String.length],
    (send_spec example_server KMTC_LOGMES 0 0 (String.mk (List.replicate MEMORY_BUFFER_SIZE 'x'))).1
      (by simp [String.length]),
    (send_spec example_server KMTC_LOGMES 0 0 "ab").2 5 (fun _ => Char.ofNat 0) rfl rfl
      (by decide)⟩

/-- C19, counterexample. The example server has a client; the source file 0
has a path and a content. The handler of request-source sends two events, the
source path and then the source code. -/
theorem handlers_send_counterexample :
    (example_server.client_did_source example_env 0).sent_
      = [⟨5, KMTC_SOURCE_PATH, 0, 0, "main.hsp"⟩, ⟨5, KMTC_SOURCE_CODE, 0, 0, "mes 1"⟩] := by
  decide

/-- C19, amended. Every command handler but the one of request-source sends
zero or one event to the client: the handlers of terminate and of the step
commands send none; those of request-current-location and request-details send
at most one; those of request-list-update and toggle-expand, whenever they
return, at most one. The handler of request-source sends at most two events, a
source path and a source code in this order. -/
theorem handlers_send_bound (env : ServerEnv) (s : KnowbugServerImpl) :
    s.client_did_step.sent_ = s.sent_
    ∧ (∃ new, (s.client_did_location_update env).sent_ = s.sent_ ++ new ∧ new.length ≤ 1)
    ∧ (∀ object_id, ∃ new,
        (s.client_did_list_details env object_id).sent_ = s.sent_ ++ new ∧ new.length ≤ 1)
    ∧ (∀ s1, s.client_did_list_update env = some s1 →
        ∃ new, s1.sent_ = s.sent_ ++ new ∧ new.length ≤ 1)
    ∧ (∀ object_id s1, s.client_did_list_toggle_expand env object_id = some s1 →
        ∃ new, s1.sent_ = s.sent_ ++ new ∧ new.length ≤ 1)
    ∧ (∀ source_file_id, ∃ new,
        (s.client_did_source env source_file_id).sent_ = s.sent_ ++ new
        ∧ List.Sublist (new.map SentMessage.kind) [KMTC_SOURCE_PATH, KMTC_SOURCE_CODE]) := by
  have hupd : ∀ (s : KnowbugServerImpl) s1, s.client_did_list_update env = some s1 →
      ∃ new, s1.sent_ = s.sent_ ++ new ∧ new.length ≤ 1 := by
    intro s s1 h
    unfold KnowbugServerImpl.client_did_list_update at h
    split at h
    · simp at h
    · simp only [Option.some.injEq] at h
      subst h
      obtain ⟨_, new, h1, h2, _⟩ := send_sent _ KMTC_LIST_UPDATE_OK 0 0 _
      exact ⟨new, h1, h2⟩
  refine ⟨rfl, ?_, ?_, hupd s, ?_, ?_⟩
  · obtain ⟨_, new, h1, h2, _⟩ := send_sent s KMTC_LOCATION
      (env.script_to_current_file.getD 0) env.script_to_current_line ""
    exact ⟨new, h1, h2⟩
  · intro object_id
    unfold KnowbugServerImpl.client_did_list_details
    split
    · exact ⟨[], by simp, by simp⟩
    · split
      · obtain ⟨_, new, h1, h2, _⟩ := send_sent s KMTC_LIST_DETAILS_OK 0 0 ""
        exact ⟨new, h1, h2⟩
      · rename_i path _
        obtain ⟨_, new, h1, h2, _⟩ := send_sent s KMTC_LIST_DETAILS_OK object_id 0
          (env.write_table_form path)
        exact ⟨new, h1, h2⟩
  · intro object_id s1 h
    unfold KnowbugServerImpl.client_did_list_toggle_expand at h
    split at h
    · simp only [Option.some.injEq] at h
      subst h
      exact ⟨[], by simp, by simp⟩
    · exact hupd { s with
        object_list_entity_ := s.object_list_entity_.toggle_expand object_id.toNat } s1 h
  · intro source_file_id
    have hk : ∀ (s : KnowbugServerImpl) (kind wparam lparam : Int) (text : String),
        ∃ new, (s.send kind wparam lparam text).sent_ = s.sent_ ++ new
          ∧ (new.map SentMessage.kind = [] ∨ new.map SentMessage.kind = [kind]) := by
      intro s kind wparam lparam text
      obtain ⟨_, new, h1, h2, h3⟩ := send_sent s kind wparam lparam text
      refine ⟨new, h1, ?_⟩
      match new, h2, h3 with
      | [], _, _ => exact Or.inl rfl
      | [m], _, h3 => exact Or.inr (by simp [(h3 m (List.mem_cons_self _ _)).1])
      | _ :: _ :: _, h2, _ => simp at h2
    unfold KnowbugServerImpl.client_did_source
    cases env.source_file_to_full_path source_file_id with
    | none =>
      cases env.source_file_to_content source_file_id with
      | none => exact ⟨[], by simp, by simp⟩
      | some content =>
        obtain ⟨new, h1, h2⟩ := hk s KMTC_SOURCE_CODE source_file_id 0 content
        refine ⟨new, h1, ?_⟩
        rcases h2 with h2 | h2 <;> rw [h2] <;> decide
    | some full_path =>
      obtain ⟨new1, h1, h2⟩ := hk s KMTC_SOURCE_PATH source_file_id 0 full_path
      cases env.source_file_to_content source_file_id with
      | none =>
        refine ⟨new1, h1, ?_⟩
        rcases h2 with h2 | h2 <;> rw [h2] <;> decide
      | some content =>
        obtain ⟨new2, h3, h4⟩ := hk (s.send KMTC_SOURCE_PATH source_file_id 0 full_path)
          KMTC_SOURCE_CODE source_file_id 0 content
        refine ⟨new1 ++ new2, by simp only [h3, h1, List.append_assoc], ?_⟩
        rw [List.map_append]
        rcases h2 with h2 | h2 <;> rcases h4 with h4 | h4 <;> rw [h2, h4] <;> decide

/-- C19, an instance: the handler of request-list-update on the example
server returns and sends one event. -/
theorem handlers_send_bound_witness :
    ∃ s1, example_server.client_did_list_update example_env = some s1
      ∧ ∃ new, s1.sent_ = example_server.sent_ ++ new ∧ new.length ≤ 1 :=
  (option_map_eq_some (example_server.client_did_list_update example_env)
      (fun s => s.sent_.length) 1 (by decide)).elim
    fun s1 h => ⟨s1, h.1, (handlers_send_bound example_env example_server).2.2.2.1 s1 h.1⟩

end Knowbug
